import Mathlib

/-!
# Cycles render session: shallow embedding of `intern/cycles/render/session.cpp`

The session owns one worker thread that runs `Session::run`, and foreground
threads call `reset`, `set_pause`, `set_samples`, `cancel`.  The embedding is
explicit state passing over a `Session` record.  Everything the worker receives
from outside (scheduler results, tile manager answers, device error messages,
foreground calls made while the worker is blocked on `pause_cond`) is read from
an `Env` record of lists, so every theorem quantifies over all such inputs.
Calls into collaborators and condition-variable operations are recorded, in
program order, in `Session.trace`.

C++ `int` is `Int`; the worker loop is recursion on explicit fuel.

The tile functions that the source keeps inside `#if 0` (`steal_tile`, `acquire_tile`,
`release_tile`, `map_neighbor_tiles`) are embedded over a separate `TileSession` record.
The ID-property functions of `idprop_py_api.c` follow in the namespace `IDProp`.
-/

namespace Cycles

/-! ## Data model -/

/-- Buffer parameters (`BufferParams`): only the rectangle fields the session reads. -/
structure BufferParams where
  width : Int := 0
  height : Int := 0
  full_x : Int := 0
  full_y : Int := 0
  full_width : Int := 0
  full_height : Int := 0
deriving DecidableEq, Repr, Inhabited

/-- Modelled from the spec: the `RenderWork` value type (render_scheduler.h is not among
the sources): resolution divider, sample range (start, count) and the denoise flag. -/
structure RenderWork where
  resolution_divider : Int := 1
  sample_start : Int := 0
  sample_count : Int := 0
  denoise : Bool := false
deriving DecidableEq, Repr, Inhabited

/-- Modelled from the spec: `RenderWork::operator bool` (render_scheduler.h is not among the
sources).  A work unit is truthy iff there is work to do and its resolution is valid; a
work unit whose sample count is 0 is falsy. -/
def RenderWork.toBool (w : RenderWork) : Bool :=
  decide (0 < w.sample_count) && decide (0 < w.resolution_divider)

/-- Session parameters (`SessionParams`): the fields `session.cpp` branches on. -/
structure SessionParams where
  background : Bool := false
  samples : Int := 0
  pixel_size : Int := 1
deriving DecidableEq, Repr, Inhabited

/-- The `delayed_reset` member of `Session`. -/
structure DelayedReset where
  do_reset : Bool := false
  params : BufferParams := {}
  samples : Int := 0
deriving DecidableEq, Repr, Inhabited

/-- Modelled from the spec: the `Progress` tracker (util_progress.h is not among the
sources): cancel flag and message, error flag and message, status and substatus strings,
current sample, total pixel samples, the number of `set_update` calls, whether the end
time was recorded, and the rendered and denoised tile counts. -/
structure Progress where
  cancel : Bool := false
  cancel_message : String := ""
  error : Bool := false
  error_message : String := ""
  status : String := ""
  substatus : String := ""
  current_sample : Int := 0
  total_pixel_samples : Int := 0
  updates : Nat := 0
  end_time_set : Bool := false
  rendered_tiles : Nat := 0
  denoised_tiles : Nat := 0
deriving DecidableEq, Repr, Inhabited

namespace Progress

/-- Modelled from the spec: `Progress::get_cancel` returns the sticky cancel flag. -/
def get_cancel (p : Progress) : Bool := p.cancel

/-- Modelled from the spec: `Progress::get_cancel_message`. -/
def get_cancel_message (p : Progress) : String := p.cancel_message

/-- Modelled from the spec: `Progress::set_cancel(message)` sets the cancel flag and the
message; the flag is never un-set. -/
def set_cancel (p : Progress) (msg : String) : Progress :=
  { p with cancel := true, cancel_message := msg }

/-- Modelled from the spec: `Progress::set_error(message)` records the error and implies
cancellation of the current run, with the error text as cancel message. -/
def set_error (p : Progress) (msg : String) : Progress :=
  { p with error := true, error_message := msg, cancel := true, cancel_message := msg }

/-- Modelled from the spec: `Progress::set_status(status, substatus = "")`. -/
def set_status (p : Progress) (status : String) (substatus : String) : Progress :=
  { p with status := status, substatus := substatus }

/-- Modelled from the spec: `Progress::set_update` triggers the host update callback. -/
def set_update (p : Progress) : Progress :=
  { p with updates := p.updates + 1 }

/-- Modelled from the spec: `Progress::reset_sample` clears the sample counters. -/
def reset_sample (p : Progress) : Progress :=
  { p with current_sample := 0 }

/-- Modelled from the spec: `Progress::set_total_pixel_samples`. -/
def set_total_pixel_samples (p : Progress) (n : Int) : Progress :=
  { p with total_pixel_samples := n }

/-- Modelled from the spec: `Progress::set_end_time` records the end time. -/
def set_end_time (p : Progress) : Progress :=
  { p with end_time_set := true }

/-- Modelled from the spec: `Progress::add_finished_tile(denoised)` counts one more
denoised tile or one more rendered tile. -/
def add_finished_tile (p : Progress) (denoised : Bool) : Progress :=
  if denoised then { p with denoised_tiles := p.denoised_tiles + 1 }
  else { p with rendered_tiles := p.rendered_tiles + 1 }

/-- Modelled from the spec: `Progress::get_current_sample`. -/
def get_current_sample (p : Progress) : Int := p.current_sample

end Progress

/-- Modelled from the spec: the tile coordinator state the session reads (tile.h is not
among the sources): buffer parameters, sample count and total pixel samples. -/
structure TileManager where
  params : BufferParams := {}
  num_samples : Int := 0
  total_pixel_samples : Int := 0
deriving DecidableEq, Repr, Inhabited

namespace TileManager

/-- Modelled from the spec: `TileManager::reset(buffer_params, samples)` takes the new
buffer shape and sample count and recomputes the pending-sample target. -/
def reset (t : TileManager) (p : BufferParams) (samples : Int) : TileManager :=
  { t with params := p, num_samples := samples,
           total_pixel_samples := p.width * p.height * samples }

/-- Modelled from the spec: `TileManager::set_samples`. -/
def set_samples (t : TileManager) (samples : Int) : TileManager :=
  { t with num_samples := samples }

/-- Modelled from the spec: `TileManager::get_num_effective_samples`. -/
def get_num_effective_samples (t : TileManager) : Int := t.num_samples

end TileManager

/-- Modelled from the spec: the render-work scheduler state (render_scheduler.h is not
among the sources): a state machine over the total sample target, the samples rendered so
far and the resolution divider, created from the background flag and the pixel size. -/
structure RenderScheduler where
  background : Bool := false
  pixel_size : Int := 1
  total_samples : Int := 0
  samples_rendered_so_far : Int := 0
  resolution_divider : Int := 1
  buffer_params : BufferParams := {}
deriving DecidableEq, Repr, Inhabited

namespace RenderScheduler

/-- Modelled from the spec: `RenderScheduler::set_total_samples(n)`. -/
def set_total_samples (r : RenderScheduler) (n : Int) : RenderScheduler :=
  { r with total_samples := n }

/-- Modelled from the spec: `RenderScheduler::reset(buffer_params, samples)` restarts the
state machine for a new buffer shape and sample target. -/
def reset (r : RenderScheduler) (p : BufferParams) (samples : Int) : RenderScheduler :=
  { r with buffer_params := p, total_samples := samples, samples_rendered_so_far := 0 }

end RenderScheduler

/-- Calls into collaborators and condition-variable operations, recorded in program order. -/
inductive Event where
  | notify_all
  | wait_pause
  | task_cancel
  | path_trace_cancel
  | path_trace_reset (p : BufferParams)
  | reset_ (p : BufferParams) (samples : Int)
  | tile_next (r : Bool)
  | set_denoiser_params
  | get_render_work (w : RenderWork)
  | update_scene (width height resolution : Int)
  | render (w : RenderWork)
  | spawn
  | join
deriving DecidableEq, Repr

/-- Worker thread handle; `session_thread` is `none` for a null pointer. -/
abbrev Thread := Unit

/-- The members of `Session` that `session.cpp` reads and writes, plus the event trace.
`buffers_mutex` is true while the worker holds `buffers_mutex` through a scoped lock. -/
structure Session where
  params : SessionParams := {}
  session_thread : Option Thread := none
  pause : Bool := false
  delayed_reset : DelayedReset := {}
  progress : Progress := {}
  tile_manager : TileManager := {}
  render_scheduler_ : RenderScheduler := {}
  read_bake_tile_cb : Bool := false
  trace : List Event := []
  buffers_mutex : Bool := false
deriving DecidableEq, Repr, Inhabited

/-- Foreground calls that can reach the session while the worker is blocked. -/
inductive Call where
  | set_pause (v : Bool)
  | reset (p : BufferParams) (samples : Int)
  | set_samples (n : Int)
  | cancel
deriving DecidableEq, Repr

/-- Inputs the worker reads from outside, consumed front to back.  An exhausted list
answers: no work (a default `RenderWork`), a first big tile exists, no device error; an
exhausted `wakes` list means the worker is never woken again. -/
structure Env where
  works : List RenderWork := []
  tiles : List Bool := []
  errors : List String := []
  wakes : List (List Call) := []
deriving DecidableEq, Repr, Inhabited

/-- Result of `render_scheduler_.get_render_work()`. -/
def Env.next_work (env : Env) : RenderWork × Env :=
  match env.works with
  | [] => ({}, env)
  | w :: ws => (w, { env with works := ws })

/-- Result of `tile_manager.next()`. -/
def Env.next_tile (env : Env) : Bool × Env :=
  match env.tiles with
  | [] => (true, env)
  | t :: ts => (t, { env with tiles := ts })

/-- Result of `device->error_message()` read after a dispatch. -/
def Env.next_error (env : Env) : String × Env :=
  match env.errors with
  | [] => ("", env)
  | e :: es => (e, { env with errors := es })

/-- How a worker function ended: it returned, it is blocked on `pause_cond` with nobody
left to wake it, or the fuel of the model ran out while it was still looping. -/
inductive Flow where
  | returned
  | blocked
  | out_of_fuel
deriving DecidableEq, Repr

/-- Append one event to the trace. -/
def Session.emit (s : Session) (e : Event) : Session :=
  { s with trace := s.trace ++ [e] }

/-- The value of `INT_MAX`. -/
def INT_MAX : Int := 2147483647

/-! ## Session member functions -/

/-- Embedding of `Session::update_status_time(show_pause, show_done)`. -/
def update_status_time (s : Session) (show_pause : Bool) (show_done : Bool) : Session :=
  let num_samples := s.tile_manager.get_num_effective_samples
  let substatus := "Sample " ++ toString s.progress.get_current_sample ++ "/" ++
    toString num_samples
  if show_pause then
    { s with progress := s.progress.set_status "Rendering Paused" substatus }
  else if show_done then
    { s with progress := (s.progress.set_end_time).set_status "Rendering Done" substatus }
  else
    { s with progress := s.progress.set_status substatus "" }

/-- Embedding of `Session::start`: spawn the worker only when there is none. -/
def start (s : Session) : Session :=
  if s.session_thread.isNone then
    { s.emit Event.spawn with session_thread := some () }
  else s

/-- Embedding of `Session::wait`: join and delete the worker if any, then null the pointer. -/
def wait (s : Session) : Session :=
  let s := if s.session_thread.isSome then s.emit Event.join else s
  { s with session_thread := none }

/-- The statements of `Session::cancel` that precede `wait()`: set the cancel flag with
message "Exiting", clear pause under the pause lock, notify the pause condition. -/
def cancel_signal (s : Session) : Session :=
  let s := { s with progress := s.progress.set_cancel "Exiting" }
  let s := { s with pause := false }
  s.emit Event.notify_all

/-- Embedding of `Session::cancel`. -/
def cancel (s : Session) : Session :=
  if s.session_thread.isSome then
    wait (cancel_signal s)
  else s

/-- Embedding of `Session::reset_`, the reset the worker applies.  The start-time stamps
(`set_start_time`, `set_render_start_time`) carry no state here. -/
def reset_ (s : Session) (buffer_params : BufferParams) (samples : Int) : Session :=
  let s := s.emit (Event.reset_ buffer_params samples)
  let s := { s with render_scheduler_ := s.render_scheduler_.reset buffer_params samples }
  let s := s.emit (Event.path_trace_reset buffer_params)
  let s := { s with tile_manager := s.tile_manager.reset buffer_params samples }
  let s := { s with progress := s.progress.reset_sample }
  let show_progress :=
    s.params.background || decide (s.tile_manager.get_num_effective_samples ≠ INT_MAX)
  let total := if show_progress then s.tile_manager.total_pixel_samples else 0
  { s with progress := s.progress.set_total_pixel_samples total }

/-- Embedding of the foreground `Session::reset`. -/
def reset (s : Session) (buffer_params : BufferParams) (samples : Int) : Session :=
  let s := { s with delayed_reset :=
    { s.delayed_reset with params := buffer_params, samples := samples, do_reset := true } }
  let s := s.emit Event.task_cancel
  let s := s.emit Event.path_trace_cancel
  s.emit Event.notify_all

/-- Embedding of `Session::set_samples`. -/
def set_samples (s : Session) (samples : Int) : Session :=
  if samples ≠ s.params.samples then
    let s := { s with params := { s.params with samples := samples } }
    let s := { s with tile_manager := s.tile_manager.set_samples samples }
    let s := { s with render_scheduler_ := s.render_scheduler_.set_total_samples samples }
    s.emit Event.notify_all
  else s

/-- Embedding of `Session::set_pause`. -/
def set_pause (s : Session) (pause_ : Bool) : Session :=
  let notify := s.pause != pause_
  let s := if s.pause != pause_ then { s with pause := pause_ } else s
  if s.session_thread.isSome then
    if notify then s.emit Event.notify_all else s
  else if pause_ then
    update_status_time s pause_ false
  else s

/-- Embedding of `Session::update_scene(width, height, resolution)`: the camera receives the
screen size and resolution and the scene is updated; the scene itself is an external
collaborator, so the call is recorded with its arguments. -/
def update_scene (s : Session) (width height resolution : Int) : Session :=
  s.emit (Event.update_scene width height resolution)

/-- Apply one foreground call; `Call.cancel` is the part of `cancel` the worker can observe,
since the caller then blocks in `wait()` until the worker has returned. -/
def apply_call (s : Session) : Call → Session
  | Call.set_pause v => set_pause s v
  | Call.reset p n => reset s p n
  | Call.set_samples n => set_samples s n
  | Call.cancel => if s.session_thread.isSome then cancel_signal s else s

/-- Apply the foreground calls made while the worker was blocked, in order. -/
def foreground (s : Session) (calls : List Call) : Session :=
  calls.foldl apply_call s

/-! ## The worker -/

/-- Taking `buffers_mutex` through `thread_scoped_lock buffers_lock(buffers_mutex)`. -/
@[simp]
def lock_buffers (s : Session) : Session :=
  { s with buffers_mutex := true }

/-- Leaving the scope of `buffers_lock` releases `buffers_mutex`. -/
@[simp]
def unlock_buffers (s : Session) : Session :=
  { s with buffers_mutex := false }

/-- First block of `Session::run_update_for_next_iteration`: with the buffers lock held,
consume a pending `delayed_reset` (apply `reset_`, clear `do_reset`, ask the tile manager
for the first big tile).  Returns `have_tiles`. -/
def consume_delayed_reset (s : Session) (env : Env) : Bool × Session × Env :=
  if s.delayed_reset.do_reset then
    let s := lock_buffers s
    let s := reset_ s s.delayed_reset.params s.delayed_reset.samples
    let s := { s with delayed_reset := { s.delayed_reset with do_reset := false } }
    let t := env.next_tile
    let s := s.emit (Event.tile_next t.1)
    (t.1, unlock_buffers s, t.2)
  else (true, s, env)

/-- Second block: denoiser parameters are handed to the path tracer unless baking. -/
def provide_denoiser_params (s : Session) : Session :=
  if !s.read_bake_tile_cb then s.emit Event.set_denoiser_params else s

/-- Third block, the `while (have_tiles)` loop: both of its branches break, so the
scheduler is asked at most once; without tiles the default `RenderWork` is kept. -/
def ask_scheduler (have_tiles : Bool) (s : Session) (env : Env) : RenderWork × Session × Env :=
  if have_tiles then
    let w := env.next_work
    (w.1, s.emit (Event.get_render_work w.1), w.2)
  else ({}, s, env)

/-- Fourth block: for a truthy work the scene is updated for the divided resolution. -/
def update_scene_for_work (render_work : RenderWork) (s : Session) : Session :=
  if render_work.toBool then
    let resolution := render_work.resolution_divider
    let width := max 1 (Int.tdiv s.tile_manager.params.full_width resolution)
    let height := max 1 (Int.tdiv s.tile_manager.params.full_height resolution)
    update_scene s width height resolution
  else s

/-- Embedding of `Session::run_update_for_next_iteration`. -/
def run_update_for_next_iteration (s : Session) (env : Env) : RenderWork × Session × Env :=
  let r := consume_delayed_reset s env
  let s := provide_denoiser_params r.2.1
  let q := ask_scheduler r.1 s r.2.2
  (q.1, update_scene_for_work q.1 q.2.1, q.2.2)

/-- The `while (true)` loop of `Session::run_wait_for_work`: each round blocks in
`pause_cond.wait`, is woken after some foreground calls, refreshes the status and leaves
once pause is false.  The boolean tells whether the loop was left. -/
def wait_while_paused (no_work : Bool) (s : Session) : List (List Call) →
    Bool × Session × List (List Call)
  | [] => (false, s.emit Event.wait_pause, [])
  | calls :: rest =>
    let s := s.emit Event.wait_pause
    let s := foreground s calls
    let s := update_status_time s s.pause no_work
    let s := { s with progress := s.progress.set_update }
    if !s.pause then (true, s, rest) else wait_while_paused no_work s rest

/-- Embedding of `Session::run_wait_for_work`; `none` when the worker stays blocked.  The
skip-time bookkeeping (`add_skip_time`) carries no state here. -/
def run_wait_for_work (s : Session) (env : Env) (render_work : RenderWork) :
    Option Bool × Session × Env :=
  if s.params.background then (some false, s, env)
  else
    let no_work := !render_work.toBool
    if !s.pause && !no_work then (some false, s, env)
    else
      let s := update_status_time s s.pause no_work
      let r := wait_while_paused no_work s env.wakes
      (if r.1 then some no_work else none, r.2.1, { env with wakes := r.2.2 })

/-- The dispatch block of `Session::run_main_render_loop`, run with the buffers lock held:
update status, render, update status, propagate a non-empty device error message into
`progress.set_error`; then `progress.set_update()`. -/
def dispatch_render_work (s : Session) (env : Env) (render_work : RenderWork) :
    Session × Env :=
  let s := lock_buffers s
  let s := update_status_time s false false
  let s := s.emit (Event.render render_work)
  let s := update_status_time s false false
  let e := env.next_error
  let s := if e.1 ≠ "" then { s with progress := s.progress.set_error e.1 } else s
  let s := unlock_buffers s
  let s := { s with progress := s.progress.set_update }
  (s, e.2)

/-- Embedding of `Session::run_main_render_loop`. -/
def run_main_render_loop (fuel : Nat) (s : Session) (env : Env) : Flow × Session × Env :=
  if s.progress.get_cancel then (Flow.returned, s, env)
  else
    match fuel with
    | 0 => (Flow.out_of_fuel, s, env)
    | fuel + 1 =>
      let u := run_update_for_next_iteration s env
      let render_work := u.1
      let s := u.2.1
      let env := u.2.2
      if !render_work.toBool && s.params.background then
        (Flow.returned, { s with progress := s.progress.set_status "Finished" "" }, env)
      else
        let r := run_wait_for_work s env render_work
        let s := r.2.1
        let env := r.2.2
        match r.1 with
        | none => (Flow.blocked, s, env)
        | some true => run_main_render_loop fuel s env
        | some false =>
          if s.progress.get_cancel then (Flow.returned, s, env)
          else
            let d := dispatch_render_work s env render_work
            run_main_render_loop fuel d.1 d.2

/-- Embedding of `Session::run`, the body of the worker thread (the profiler calls carry no
state here). -/
def run (fuel : Nat) (s : Session) (env : Env) : Flow × Session × Env :=
  let s := { s with progress := s.progress.set_status "Waiting for render to start" "" }
  let r : Flow × Session × Env :=
    if !s.progress.get_cancel then
      run_main_render_loop fuel { s with progress := s.progress.reset_sample } env
    else (Flow.returned, s, env)
  match r.1 with
  | Flow.returned =>
    let s := r.2.1
    if s.progress.get_cancel then
      (Flow.returned,
        { s with progress := s.progress.set_status s.progress.get_cancel_message "" }, r.2.2)
    else
      (Flow.returned, { s with progress := s.progress.set_update }, r.2.2)
  | f => (f, r.2.1, r.2.2)

/-! ## Derived views of the trace -/

/-- The render works dispatched to `path_trace_->render`, in order. -/
def dispatched : List Event → List RenderWork
  | [] => []
  | Event.render w :: es => w :: dispatched es
  | _ :: es => dispatched es

/-- The arguments of the `reset_` applications recorded, in order. -/
def applied_resets : List Event → List (BufferParams × Int)
  | [] => []
  | Event.reset_ p n :: es => (p, n) :: applied_resets es
  | _ :: es => applied_resets es

/-- The results of the `render_scheduler_.get_render_work()` calls recorded, in order. -/
def scheduler_calls : List Event → List RenderWork
  | [] => []
  | Event.get_render_work w :: es => w :: scheduler_calls es
  | _ :: es => scheduler_calls es

/-- Number of `pause_cond.notify_all()` calls recorded. -/
def notifications (tr : List Event) : Nat :=
  tr.count Event.notify_all

/-- Number of `pause_cond.wait` calls recorded. -/
def pause_waits (tr : List Event) : Nat :=
  tr.count Event.wait_pause

/-- The events `run_update_for_next_iteration` appends after the reset block. -/
def after_reset_events (s : Session) (env : Env) : List Event :=
  let r := consume_delayed_reset s env
  (if s.delayed_reset.do_reset then
      [Event.path_trace_reset s.delayed_reset.params, Event.tile_next r.1] else []) ++
    (if !s.read_bake_tile_cb then [Event.set_denoiser_params] else []) ++
    (if r.1 then [Event.get_render_work r.2.2.next_work.1] else []) ++
    (if (ask_scheduler r.1 (provide_denoiser_params r.2.1) r.2.2).1.toBool then
      [Event.update_scene
        (max 1 (Int.tdiv r.2.1.tile_manager.params.full_width
          (ask_scheduler r.1 (provide_denoiser_params r.2.1) r.2.2).1.resolution_divider))
        (max 1 (Int.tdiv r.2.1.tile_manager.params.full_height
          (ask_scheduler r.1 (provide_denoiser_params r.2.1) r.2.2).1.resolution_divider))
        (ask_scheduler r.1 (provide_denoiser_params r.2.1) r.2.2).1.resolution_divider]
     else [])

/-- A session that was never started and was paused from the foreground. -/
def paused_before_start : Session := set_pause {} true

/-- Modelled from the spec: `RenderScheduler::get_render_work` (render_scheduler.cpp is not
among the sources).  It returns a falsy work when cancelled or when
`samples_rendered_so_far >= total_samples`; otherwise the work starts at
`samples_rendered_so_far`, holds at least one and at most the remaining samples (`chunk`
is what the time-budget policy asks for on this call), and the state advances by the
samples handed out; `halve` tells whether the latency policy steps the resolution divider
towards 1 on this call. -/
def RenderScheduler.get_render_work (r : RenderScheduler) (cancelled : Bool)
    (chunk : Int) (halve : Bool) : RenderWork × RenderScheduler :=
  if cancelled || decide (r.samples_rendered_so_far ≥ r.total_samples) then
    ({ resolution_divider := r.resolution_divider,
       sample_start := r.samples_rendered_so_far, sample_count := 0 }, r)
  else
    let count := max 1 (min chunk (r.total_samples - r.samples_rendered_so_far))
    ({ resolution_divider := r.resolution_divider,
       sample_start := r.samples_rendered_so_far, sample_count := count },
     { r with samples_rendered_so_far := r.samples_rendered_so_far + count,
              resolution_divider :=
                if halve then max 1 (Int.tdiv r.resolution_divider 2)
                else r.resolution_divider })

/-- The results of successive `get_render_work()` calls, none of them cancelled; each
entry of `inputs` is the policy input (`chunk`, `halve`) of one call. -/
def scheduler_results (r : RenderScheduler) : List (Int × Bool) → List RenderWork
  | [] => []
  | c :: cs =>
    (r.get_render_work false c.1 c.2).1 ::
      scheduler_results (r.get_render_work false c.1 c.2).2 cs

/-- The sample indices of a work unit: `sample_start`, ..., `sample_start + count - 1`. -/
def RenderWork.samples (w : RenderWork) : List Int :=
  (List.range w.sample_count.toNat).map (fun (i : Nat) => w.sample_start + (i : Int))


/-! ## Concrete inputs used by the witnesses -/

/-- A work unit of one sample starting at `start`, at full resolution. -/
def one_sample (start : Int) : RenderWork :=
  { resolution_divider := 1, sample_start := start, sample_count := 1 }

/-- A background session in its initial state. -/
def background_session : Session := { params := { background := true } }

/-- A background session whose pause flag is set. -/
def paused_background_session : Session := { params := { background := true }, pause := true }

/-- Three works are available; the device reports "Out of memory" after the second
dispatch. -/
def failing_device_env : Env :=
  { works := [one_sample 0, one_sample 1, one_sample 2], errors := ["", "Out of memory"] }

/-- Two works, then the scheduler has no more work. -/
def two_samples_env : Env := { works := [one_sample 0, one_sample 1, {}] }

/-- A scheduler with a target of three samples, nothing rendered yet. -/
def three_sample_scheduler : RenderScheduler := { total_samples := 3 }

/-- Policy inputs for four successive scheduler calls. -/
def four_calls : List (Int × Bool) := [(2, false), (5, true), (1, false), (1, false)]

/-! ## Life cycle and wake-up helpers -/

/-- Foreground calls that create or retire the worker thread. -/
inductive LifecycleCall where
  | start
  | cancel
  | wait
deriving DecidableEq, Repr

/-- Apply one life-cycle call. -/
def apply_lifecycle (s : Session) : LifecycleCall → Session
  | LifecycleCall.start => start s
  | LifecycleCall.cancel => cancel s
  | LifecycleCall.wait => wait s

/-- Apply a sequence of life-cycle calls, in order. -/
def lifecycle (s : Session) (calls : List LifecycleCall) : Session :=
  calls.foldl apply_lifecycle s

/-- Worker threads spawned and not yet joined, according to the trace. -/
def live_workers (tr : List Event) : Int :=
  (tr.count Event.spawn : Int) - (tr.count Event.join : Int)

/-- A session with 16 samples configured whose worker has consumed a reset to 32 samples. -/
def session_after_reset_to_32 : Session :=
  (run_update_for_next_iteration (reset { params := { samples := 16 } } {} 32) {}).2.1


/-- An interactive session with a worker thread, paused. -/
def paused_interactive_session : Session :=
  { params := { background := false }, session_thread := some (), pause := true }

/-- Two wake-ups: a sample-count change that leaves pause set, then `set_pause(false)`. -/
def resume_on_second_wake : Env :=
  { wakes := [[Call.set_samples 5], [Call.set_pause false]] }

/-- The state in which the worker resumes after one `pause_cond.wait`: the wait is recorded,
the foreground calls made meanwhile are applied, the status is refreshed and the host is
updated. -/
def woken (no_work : Bool) (s : Session) (calls : List Call) : Session :=
  let s := foreground (s.emit Event.wait_pause) calls
  let s := update_status_time s s.pause no_work
  { s with progress := s.progress.set_update }


/-! ## Tile functions of `session.cpp` (kept inside `#if 0` in the source) -/

/-- The values of `RenderTile::stealing_state` that `session.cpp` uses. -/
inductive StealingState where
  | NO_STEALING
  | CAN_BE_STOLEN
  | WAS_STOLEN
deriving DecidableEq, Repr, Inhabited

/-- The values of `Session::tile_stealing_state` that `session.cpp` uses. -/
inductive TileStealingState where
  | NOT_STEALING
  | WAITING_FOR_TILE
  | RELEASING_TILE
  | GOT_TILE
deriving DecidableEq, Repr, Inhabited

/-- The values of `RenderTile::task`, also used as the bits of `tile_types`. -/
inductive TileTask where
  | PATH_TRACE
  | BAKE
  | DENOISE
deriving DecidableEq, Repr, Inhabited

/-- Modelled from the spec: the states of a `Tile` (tile.h is not among the sources). -/
inductive TileState where
  | RENDER
  | DENOISE
  | DONE
deriving DecidableEq, Repr, Inhabited

/-- The fields of `Tile` that `session.cpp` reads; `buffers` is `none` for a null pointer. -/
structure Tile where
  index : Int := 0
  x : Int := 0
  y : Int := 0
  w : Int := 0
  h : Int := 0
  state : TileState := TileState.RENDER
  buffers : Option Nat := none
deriving DecidableEq, Repr, Inhabited

/-- The fields of `RenderTile` that `session.cpp` reads and writes; `buffer` (a device
pointer) and `buffers` are `none` for null. -/
structure RenderTile where
  x : Int := 0
  y : Int := 0
  w : Int := 0
  h : Int := 0
  start_sample : Int := 0
  num_samples : Int := 0
  sample : Int := 0
  resolution : Int := 0
  tile_index : Int := 0
  task : TileTask := TileTask.PATH_TRACE
  stealing_state : StealingState := StealingState.NO_STEALING
  buffer : Option Nat := none
  buffers : Option Nat := none
deriving DecidableEq, Repr, Inhabited

/-- The `tile_types` bit mask of `acquire_tile`, one flag per task bit. -/
structure TileTypes where
  path_trace : Bool := false
  bake : Bool := false
  denoise : Bool := false
deriving DecidableEq, Repr, Inhabited

/-- The members `tile_manager.state.*` that the tile functions read. -/
structure TileManagerState where
  buffer : BufferParams := {}
  sample : Int := 0
  num_samples : Int := 0
  resolution_divider : Int := 1
  tiles : List Tile := []
deriving DecidableEq, Repr, Inhabited

/-- The members of `tile_manager` that the tile functions read. -/
structure TileTable where
  state : TileManagerState := {}
  params : BufferParams := {}
  range_start_sample : Int := 0
  schedule_denoising : Bool := false
  slice_overlap : Int := 0
deriving DecidableEq, Repr, Inhabited

/-- Calls and condition-variable operations of the tile functions, in program order. -/
inductive TileEvent where
  | denoising_wait
  | denoising_notify_all
  | steal_wait
  | steal_notify_all
  | steal_notify_one
  | add_finished_tile (denoised : Bool)
  | finish_tile (tile_index : Int) (need_denoise : Bool)
  | write_render_tile_cb (rtile : RenderTile)
  | update_render_tile_cb (rtile : RenderTile) (new_tile : Bool)
  | read_bake_tile_cb (rtile : RenderTile)
  | delete_buffers (buffers : Option Nat)
  | allocate_buffers (tile_index : Int)
  | move_device (buffers : Option Nat)
  | copy_to_device (buffers : Option Nat)
  | map_tile (rtile : RenderTile)
  | update_status_time
  | set_bounds_from_center
  | device_map_neighbor_tiles
deriving DecidableEq, Repr

/-- The members of `Session` that the tile functions use.  `held` lists the render tiles
that device threads have acquired and not yet released (each device owns the `RenderTile`
it passed to `acquire_tile`). -/
structure TileSession where
  progress : Progress := {}
  tile_manager : TileTable := {}
  stealable_tiles : Int := 0
  tile_stealing_state : TileStealingState := TileStealingState.NOT_STEALING
  stolen_tile : RenderTile := {}
  buffers : Option Nat := none
  read_bake_tile_cb : Bool := false
  write_render_tile_cb : Bool := false
  update_render_tile_cb : Bool := false
  held : List RenderTile := []
  trace : List TileEvent := []
deriving DecidableEq, Repr, Inhabited

/-- Append one event to the tile trace. -/
def TileSession.emit (s : TileSession) (e : TileEvent) : TileSession :=
  { s with trace := s.trace ++ [e] }

/-- Embedding of `Session::get_tile_stolen`: if `tile_stealing_state` is WAITING_FOR_TILE,
set it to RELEASING_TILE and return true. -/
def get_tile_stolen (s : TileSession) : Bool × TileSession :=
  if s.tile_stealing_state = TileStealingState.WAITING_FOR_TILE then
    (true, { s with tile_stealing_state := TileStealingState.RELEASING_TILE })
  else (false, s)

/-- The assignment `tile_manager.state.tiles[index].buffers = value`; an index outside the
table (undefined behaviour in the source) leaves the table as it is. -/
def set_tile_buffers (s : TileSession) (index : Int) (value : Option Nat) : TileSession :=
  if 0 ≤ index then
    { s with tile_manager := { s.tile_manager with state := { s.tile_manager.state with
        tiles := s.tile_manager.state.tiles.modify
          (fun t => { t with buffers := value }) index.toNat } } }
  else s

/-- The part of `Session::release_tile` after the stealing block: progress count, tile
manager bookkeeping, host callbacks, status, and the notification of the denoising
waiters.  `finished` and `delete_tile` are the answers of `tile_manager.finish_tile`. -/
def release_tile_finish (s : TileSession) (rtile : RenderTile) (need_denoise : Bool)
    (finished : Bool) (delete_tile : Bool) : TileSession :=
  let s := { s with progress :=
    s.progress.add_finished_tile (decide (rtile.task = TileTask.DENOISE)) }
  let s := s.emit (TileEvent.add_finished_tile (decide (rtile.task = TileTask.DENOISE)))
  let s := s.emit (TileEvent.finish_tile rtile.tile_index need_denoise)
  let s :=
    if finished then
      let s := if s.write_render_tile_cb then s.emit (TileEvent.write_render_tile_cb rtile) else s
      if delete_tile then
        let s := s.emit (TileEvent.delete_buffers rtile.buffers)
        set_tile_buffers s rtile.tile_index none
      else s
    else
      if s.update_render_tile_cb then s.emit (TileEvent.update_render_tile_cb rtile false)
      else s
  let s := s.emit TileEvent.update_status_time
  s.emit TileEvent.denoising_notify_all

/-- Embedding of `Session::release_tile`.  The two `assert`s of the stolen branch carry no
state and are left out (they are compiled out of release builds); they hold in the states
with `tile_stealing_state` RELEASING_TILE and samples left on the tile. -/
def release_tile (s : TileSession) (rtile : RenderTile) (need_denoise : Bool)
    (finished : Bool) (delete_tile : Bool) : TileSession :=
  if rtile.stealing_state ≠ StealingState.NO_STEALING then
    let s := { s with stealable_tiles := s.stealable_tiles - 1 }
    if rtile.stealing_state = StealingState.WAS_STOLEN then
      let s := { s with tile_stealing_state := TileStealingState.GOT_TILE }
      let s := { s with stolen_tile := rtile }
      s.emit TileEvent.steal_notify_all
    else
      let s := if s.stealable_tiles = 0 then s.emit TileEvent.steal_notify_all else s
      release_tile_finish s rtile need_denoise finished delete_tile
  else
    release_tile_finish s rtile need_denoise finished delete_tile

/-- What other threads do while a thread waits on a tile condition variable: a device
releases the tile it holds at position `i` of `held`; the device holding the stealable tile
at position `i` polls `get_tile_stolen()` and, on success, marks its tile WAS_STOLEN; the
foreground cancels. -/
inductive TileOp where
  | release (i : Nat) (need_denoise : Bool) (finished : Bool) (delete_tile : Bool)
  | notice_steal (i : Nat)
  | set_cancel (msg : String)
deriving DecidableEq, Repr

/-- A device releases the tile at position `i` of `held`, if there is one. -/
def device_release (s : TileSession) (i : Nat) (need_denoise : Bool) (finished : Bool)
    (delete_tile : Bool) : TileSession :=
  match s.held.get? i with
  | none => s
  | some rtile =>
    release_tile { s with held := s.held.eraseIdx i } rtile need_denoise finished delete_tile

/-- The device rendering the stealable tile at position `i` of `held` polls
`get_tile_stolen()`; when that succeeds it marks its tile WAS_STOLEN and stops rendering
it (it releases the tile in a later step). -/
def device_notice_steal (s : TileSession) (i : Nat) : TileSession :=
  match s.held.get? i with
  | none => s
  | some rtile =>
    if rtile.stealing_state = StealingState.CAN_BE_STOLEN then
      let r := get_tile_stolen s
      if r.1 then
        { r.2 with held := r.2.held.set i { rtile with stealing_state := StealingState.WAS_STOLEN } }
      else r.2
    else s

/-- Apply one step of another thread. -/
def apply_tile_op (s : TileSession) : TileOp → TileSession
  | TileOp.release i need_denoise finished delete_tile =>
    device_release s i need_denoise finished delete_tile
  | TileOp.notice_steal i => device_notice_steal s i
  | TileOp.set_cancel msg => { s with progress := s.progress.set_cancel msg }

/-- Apply the steps other threads made during one wait, in order. -/
def other_threads (s : TileSession) (ops : List TileOp) : TileSession :=
  ops.foldl apply_tile_op s

/-- The first wait loop of `Session::steal_tile`:
`while (tile_stealing_state != NOT_STEALING && stealable_tiles > 0) wait`.  The boolean
tells whether the loop was left; each round replays what other threads did meanwhile. -/
def wait_for_not_stealing (s : TileSession) : List (List TileOp) →
    Bool × TileSession × List (List TileOp)
  | [] =>
    if s.tile_stealing_state ≠ TileStealingState.NOT_STEALING ∧ 0 < s.stealable_tiles then
      (false, s.emit TileEvent.steal_wait, [])
    else (true, s, [])
  | ops :: rest =>
    if s.tile_stealing_state ≠ TileStealingState.NOT_STEALING ∧ 0 < s.stealable_tiles then
      wait_for_not_stealing (other_threads (s.emit TileEvent.steal_wait) ops) rest
    else (true, s, ops :: rest)

/-- The second wait loop of `Session::steal_tile`:
`while (tile_stealing_state != GOT_TILE && stealable_tiles > 0) wait`. -/
def wait_for_stolen_tile (s : TileSession) : List (List TileOp) →
    Bool × TileSession × List (List TileOp)
  | [] =>
    if s.tile_stealing_state ≠ TileStealingState.GOT_TILE ∧ 0 < s.stealable_tiles then
      (false, s.emit TileEvent.steal_wait, [])
    else (true, s, [])
  | ops :: rest =>
    if s.tile_stealing_state ≠ TileStealingState.GOT_TILE ∧ 0 < s.stealable_tiles then
      wait_for_stolen_tile (other_threads (s.emit TileEvent.steal_wait) ops) rest
    else (true, s, ops :: rest)

/-- Embedding of `Session::steal_tile`.  The result is `none` when the thread stays
blocked in one of the waits, otherwise the returned boolean. -/
def steal_tile (s : TileSession) (rtile : RenderTile) (device_is_cpu : Bool)
    (wakes : List (List TileOp)) :
    Option Bool × RenderTile × TileSession × List (List TileOp) :=
  if device_is_cpu || decide (s.stealable_tiles = 0) then (some false, rtile, s, wakes)
  else
    let r := wait_for_not_stealing s wakes
    if !r.1 then (none, rtile, r.2.1, r.2.2)
    else
      let s := r.2.1
      if s.stealable_tiles = 0 then (some false, rtile, s, r.2.2)
      else
        let s := { s with tile_stealing_state := TileStealingState.WAITING_FOR_TILE }
        let q := wait_for_stolen_tile s r.2.2
        if !q.1 then (none, rtile, q.2.1, q.2.2)
        else
          let s := q.2.1
          if s.tile_stealing_state ≠ TileStealingState.GOT_TILE then
            (some false, rtile,
              { s with tile_stealing_state := TileStealingState.NOT_STEALING }, q.2.2)
          else
            let rtile := s.stolen_tile
            let s := s.emit (TileEvent.move_device rtile.buffers)
            let rtile := { rtile with buffer := rtile.buffers }
            let rtile := { rtile with stealing_state := StealingState.NO_STEALING }
            let rtile := { rtile with
              num_samples := rtile.num_samples - (rtile.sample - rtile.start_sample) }
            let rtile := { rtile with start_sample := rtile.sample }
            let s := { s with tile_stealing_state := TileStealingState.NOT_STEALING }
            let s := s.emit TileEvent.steal_notify_one
            (some true, rtile, s, q.2.2)

/-- What `acquire_tile` reads from outside: the answers of `tile_manager.next_tile` (the
position in `state.tiles` of the tile handed out, or `none` for false), the answers of
`tile_manager.has_tiles()`, whether an existing tile buffer lives on another device, and
what other threads did during each wait. -/
structure TileEnv where
  next_tiles : List (Option Nat) := []
  has_tiles : List Bool := []
  buffer_on_other_device : Bool := false
  wakes : List (List TileOp) := []
deriving DecidableEq, Repr, Inhabited

/-- How the `while (!tile_manager.next_tile(...))` loop of `acquire_tile` ended. -/
inductive NextTile where
  | got (pos : Nat)
  | stolen
  | no_tile
  | blocked
deriving DecidableEq, Repr

/-- The `while (!tile_manager.next_tile(...))` loop of `Session::acquire_tile`: on a failed
`next_tile`, try to steal (render and bake requests only), else wait for denoising tiles
(denoise requests, not cancelled, tiles left) and retry, else give up. -/
def acquire_next (device_is_cpu : Bool) (tile_types : TileTypes) :
    List (Option Nat) → TileSession → RenderTile → List Bool → List (List TileOp) →
    NextTile × RenderTile × TileSession × List (Option Nat) × List Bool × List (List TileOp)
  | [], s, rtile, hs, wakes => (NextTile.blocked, rtile, s, [], hs, wakes)
  | some pos :: rest, s, rtile, hs, wakes => (NextTile.got pos, rtile, s, rest, hs, wakes)
  | none :: rest, s, rtile, hs, wakes =>
    let st : Option Bool × RenderTile × TileSession × List (List TileOp) :=
      if tile_types.path_trace || tile_types.bake then steal_tile s rtile device_is_cpu wakes
      else (some false, rtile, s, wakes)
    match st.1 with
    | none => (NextTile.blocked, st.2.1, st.2.2.1, rest, hs, st.2.2.2)
    | some true => (NextTile.stolen, st.2.1, st.2.2.1, rest, hs, st.2.2.2)
    | some false =>
      let s := st.2.2.1
      let wakes := st.2.2.2
      if tile_types.denoise && !s.progress.get_cancel then
        if hs.headD false then
          match wakes with
          | [] => (NextTile.blocked, rtile, s.emit TileEvent.denoising_wait, rest, hs.tail, [])
          | ops :: wrest =>
            acquire_next device_is_cpu tile_types rest
              (other_threads (s.emit TileEvent.denoising_wait) ops) rtile hs.tail wrest
        else (NextTile.no_tile, rtile, s, rest, hs.tail, wakes)
      else (NextTile.no_tile, rtile, s, rest, hs, wakes)

/-- The "fill render tile" block of `Session::acquire_tile`. -/
def fill_render_tile (s : TileSession) (rtile : RenderTile) (tile : Tile)
    (device_is_cpu : Bool) : RenderTile × TileSession :=
  let rtile := { rtile with
    x := s.tile_manager.state.buffer.full_x + tile.x,
    y := s.tile_manager.state.buffer.full_y + tile.y,
    w := tile.w,
    h := tile.h,
    start_sample := s.tile_manager.state.sample,
    num_samples := s.tile_manager.state.num_samples,
    resolution := s.tile_manager.state.resolution_divider,
    tile_index := tile.index,
    stealing_state := StealingState.NO_STEALING }
  if tile.state = TileState.DENOISE then
    ({ rtile with task := TileTask.DENOISE }, s)
  else
    let r : RenderTile × TileSession :=
      if device_is_cpu then
        ({ rtile with stealing_state := StealingState.CAN_BE_STOLEN },
          { s with stealable_tiles := s.stealable_tiles + 1 })
      else (rtile, s)
    if s.read_bake_tile_cb then ({ r.1 with task := TileTask.BAKE }, r.2)
    else ({ r.1 with task := TileTask.PATH_TRACE }, r.2)

/-- Embedding of `Session::update_tile_sample`. -/
def update_tile_sample (s : TileSession) (rtile : RenderTile) : TileSession :=
  let s := if s.update_render_tile_cb then s.emit (TileEvent.update_render_tile_cb rtile true)
    else s
  s.emit TileEvent.update_status_time

/-- The buffer block of `Session::acquire_tile`, after the tile lock is released: hand out
the permanent buffer, or allocate (or move) the buffer of the tile at position `pos`, then
read bake input or tag the tile as in progress. -/
def attach_tile_buffers (s : TileSession) (rtile : RenderTile) (pos : Nat) (tile : Tile)
    (buffer_on_other_device : Bool) : RenderTile × TileSession :=
  if s.buffers.isSome then
    let rtile := { rtile with buffer := s.buffers, buffers := s.buffers }
    (rtile, s.emit (TileEvent.map_tile rtile))
  else
    let r : Option Nat × TileSession :=
      if tile.buffers.isNone then
        (some pos,
          set_tile_buffers (s.emit (TileEvent.allocate_buffers tile.index)) pos (some pos))
      else if buffer_on_other_device then
        (tile.buffers,
          if rtile.task ≠ TileTask.DENOISE then s.emit (TileEvent.move_device tile.buffers)
          else s)
      else (tile.buffers, s)
    let s := r.2
    let rtile := { rtile with buffer := r.1, buffers := r.1 }
    let rtile := { rtile with sample := s.tile_manager.state.sample }
    if s.read_bake_tile_cb then
      if s.tile_manager.state.sample = s.tile_manager.range_start_sample then
        let s := s.emit (TileEvent.read_bake_tile_cb rtile)
        (rtile, s.emit (TileEvent.copy_to_device rtile.buffers))
      else (rtile, s)
    else (rtile, update_tile_sample s rtile)

/-- Embedding of `Session::acquire_tile`.  The result is `none` when the thread stays
blocked in a wait (or the replayed answers ran out), otherwise the returned boolean. -/
def acquire_tile (s : TileSession) (rtile : RenderTile) (device_is_cpu : Bool)
    (tile_types : TileTypes) (env : TileEnv) :
    Option Bool × RenderTile × TileSession × TileEnv :=
  if s.progress.get_cancel then (some false, rtile, s, env)
  else
    let r := acquire_next device_is_cpu tile_types env.next_tiles s rtile env.has_tiles
      env.wakes
    let rtile := r.2.1
    let s := r.2.2.1
    let env : TileEnv := { env with
      next_tiles := r.2.2.2.1, has_tiles := r.2.2.2.2.1, wakes := r.2.2.2.2.2 }
    match r.1 with
    | NextTile.blocked => (none, rtile, s, env)
    | NextTile.no_tile => (some false, rtile, s, env)
    | NextTile.stolen => (some true, rtile, s, env)
    | NextTile.got pos =>
      let tile := s.tile_manager.state.tiles.getD pos {}
      let f := fill_render_tile s rtile tile device_is_cpu
      let b := attach_tile_buffers f.2 f.1 pos tile env.buffer_on_other_device
      (some true, b.1, b.2, env)

/-- Calls made by the device threads, one after the other: a device asks for a tile, or
makes one of the steps of `TileOp`. -/
inductive DeviceCall where
  | acquire (device_is_cpu : Bool) (tile_types : TileTypes) (env : TileEnv)
  | step (op : TileOp)
deriving DecidableEq, Repr

/-- A device calls `acquire_tile` with a fresh `RenderTile` and keeps the tile it got. -/
def device_acquire (s : TileSession) (device_is_cpu : Bool) (tile_types : TileTypes)
    (env : TileEnv) : TileSession :=
  let r := acquire_tile s {} device_is_cpu tile_types env
  if r.1 = some true then { r.2.2.1 with held := r.2.2.1.held ++ [r.2.1] } else r.2.2.1

/-- Apply one device call. -/
def apply_device_call (s : TileSession) : DeviceCall → TileSession
  | DeviceCall.acquire device_is_cpu tile_types env =>
    device_acquire s device_is_cpu tile_types env
  | DeviceCall.step op => apply_tile_op s op

/-- Apply a sequence of device calls, in order. -/
def device_calls (s : TileSession) (calls : List DeviceCall) : TileSession :=
  calls.foldl apply_device_call s

/-- Number of held tiles whose `stealing_state` is not NO_STEALING. -/
def stealable_held (held : List RenderTile) : Nat :=
  held.countP (fun t => decide (t.stealing_state ≠ StealingState.NO_STEALING))

/-- The counter invariant: `stealable_tiles` is the number of held tiles that can be or
were stolen. -/
def TileInv (s : TileSession) : Prop :=
  s.stealable_tiles = (stealable_held s.held : Int)


/-- Modelled from the spec: `clamp` of util_math.h (not among the sources), which forces a
value into the range from `mn` to `mx`: `min(max(a, mn), mx)`. -/
def clamp (a mn mx : Int) : Int := min (max a mn) mx

/-- The fields of `RenderTileNeighbors` that `session.cpp` uses: the 3x3 array `tiles`
(slot 3 * (dy + 1) + (dx + 1), the center being slot 4) and `target`. -/
structure RenderTileNeighbors where
  tiles : List RenderTile := List.replicate 9 {}
  target : RenderTile := {}
deriving DecidableEq, Repr, Inhabited

/-- The index `RenderTileNeighbors::CENTER`. -/
def RenderTileNeighbors.CENTER : Nat := 4

/-- The `image_region` of `Session::map_neighbor_tiles` as (x, y, z, w). -/
def image_region (s : TileSession) : Int × Int × Int × Int :=
  (s.tile_manager.state.buffer.full_x,
   s.tile_manager.state.buffer.full_y,
   s.tile_manager.state.buffer.full_x + s.tile_manager.state.buffer.width,
   s.tile_manager.state.buffer.full_y + s.tile_manager.state.buffer.height)

/-- One round of the double loop of `Session::map_neighbor_tiles`, for slot
`i = 3 * (dy + 1) + (dx + 1)`: a slot whose neighbour exists takes that tile's rectangle
and buffers, any other slot becomes a placeholder around the center tile.
`get_neighbor_index` is `tile_manager.get_neighbor_index`, which is not among the
sources.  The result is `none` where the source does not get through the round: the
neighbour index lies outside `tile_manager.state.tiles`, or the session has no buffers and
the tile has none either (`assert(tile->buffers)`, then a read through the null
pointer). -/
def map_neighbor_slot (s : TileSession) (get_neighbor_index : Int → Nat → Int)
    (center_idx : Int) (tiles : List RenderTile) (i : Nat) : Option (List RenderTile) :=
  let dy : Int := ((i / 3 : Nat) : Int) - 1
  let dx : Int := ((i % 3 : Nat) : Int) - 1
  let rtile := tiles.getD i {}
  let nindex := get_neighbor_index center_idx i
  if 0 ≤ nindex then
    match s.tile_manager.state.tiles.get? nindex.toNat with
    | none => none
    | some tile =>
      let rtile := { rtile with
        x := (image_region s).1 + tile.x,
        y := (image_region s).2.1 + tile.y,
        w := tile.w,
        h := tile.h }
      if s.buffers.isSome then
        some (tiles.set i { rtile with buffer := s.buffers, buffers := s.buffers })
      else
        match tile.buffers with
        | none => none
        | some b => some (tiles.set i { rtile with buffer := some b, buffers := some b })
  else
    let center_tile := tiles.getD RenderTileNeighbors.CENTER {}
    let px := center_tile.x + dx * 64
    let py := center_tile.y + dy * 64
    some (tiles.set i { rtile with
      x := clamp px (image_region s).1 (image_region s).2.2.1,
      y := clamp py (image_region s).2.1 (image_region s).2.2.2,
      w := 0,
      h := 0,
      buffer := none,
      buffers := none })

/-- The double loop of `Session::map_neighbor_tiles` over the slots `slots`, in order;
`none` as soon as one round fails. -/
def map_neighbor_slots (s : TileSession) (get_neighbor_index : Int → Nat → Int)
    (center_idx : Int) : List Nat → List RenderTile → Option (List RenderTile)
  | [], tiles => some tiles
  | i :: slots, tiles =>
    match map_neighbor_slot s get_neighbor_index center_idx tiles i with
    | none => none
    | some tiles => map_neighbor_slots s get_neighbor_index center_idx slots tiles

/-- The slice fix-up of the center tile when tiles are not denoised one by one. -/
def fix_center_slice (s : TileSession) (center_tile : RenderTile) : RenderTile :=
  if s.tile_manager.slice_overlap ≠ 0 then
    let y := max (center_tile.y - s.tile_manager.slice_overlap) (image_region s).2.1
    let h := min (center_tile.y + center_tile.h + s.tile_manager.slice_overlap)
      (image_region s).2.2.2 - y
    { center_tile with h := h, y := y }
  else center_tile

/-- Embedding of `Session::map_neighbor_tiles`.  The device call that follows the loop is
recorded; `set_bounds_from_center` belongs to `RenderTileNeighbors` and is recorded too.
The result is `none` where the source fails an assertion or reads through a bad pointer:
with per-tile denoising, when the center index lies outside the tile table or the center
tile is not in state DENOISE (`assert` at the head of the branch), or when a round of the
loop fails; in both branches, when the center tile ends without buffers
(`assert(center_tile.buffers)`). -/
def map_neighbor_tiles (s : TileSession) (neighbors : RenderTileNeighbors)
    (get_neighbor_index : Int → Nat → Int) : Option (RenderTileNeighbors × TileSession) :=
  let r : Option (List RenderTile × TileSession) :=
    if !s.tile_manager.schedule_denoising then
      some (neighbors.tiles.set RenderTileNeighbors.CENTER
          (fix_center_slice s (neighbors.tiles.getD RenderTileNeighbors.CENTER {})),
        s.emit TileEvent.set_bounds_from_center)
    else
      let center_idx := (neighbors.tiles.getD RenderTileNeighbors.CENTER {}).tile_index
      if 0 ≤ center_idx then
        match s.tile_manager.state.tiles.get? center_idx.toNat with
        | none => none
        | some center =>
          if center.state = TileState.DENOISE then
            (map_neighbor_slots s get_neighbor_index center_idx (List.range 9)
              neighbors.tiles).map (fun tiles => (tiles, s))
          else none
      else none
  match r with
  | none => none
  | some (tiles, s) =>
    let center_tile := tiles.getD RenderTileNeighbors.CENTER {}
    if center_tile.buffers.isSome then
      some ({ neighbors with tiles := tiles, target := center_tile },
        s.emit TileEvent.device_map_neighbor_tiles)
    else none

/-- Two tiles of 8x8 pixels side by side, nothing acquired yet. -/
def two_tile_session : TileSession :=
  { tile_manager :=
      { state :=
          { buffer := { width := 16, height := 8 },
            tiles := [{ index := 0, w := 8, h := 8 }, { index := 1, x := 8, w := 8, h := 8 }] }
        schedule_denoising := true } }

/-- A CPU device takes tile 0; a GPU device finds no tile left and steals it (the CPU
device notices and releases its tile during the wait); the GPU device releases it. -/
def steal_scenario : List DeviceCall :=
  [DeviceCall.acquire true { path_trace := true } { next_tiles := [some 0] },
   DeviceCall.acquire false { path_trace := true }
     { next_tiles := [none],
       wakes := [[TileOp.notice_steal 0, TileOp.release 0 false false false]] },
   DeviceCall.step (TileOp.release 0 false true false)]

/-- A render tile of four samples that its device marked as stolen after the first one. -/
def stolen_render_tile : RenderTile :=
  { w := 8, h := 8, num_samples := 4, sample := 1,
    stealing_state := StealingState.WAS_STOLEN }

/-- The two-tile session while one stealable tile is in flight and its device has answered
`get_tile_stolen()`: the state in which a stolen tile is released. -/
def releasing_session : TileSession :=
  { two_tile_session with
    stealable_tiles := 1
    tile_stealing_state := TileStealingState.RELEASING_TILE }

/-- Two tiles of 8x8 pixels side by side, both rendered, waiting to be denoised, each with
its own buffers. -/
def denoise_row_session : TileSession :=
  { tile_manager :=
      { state :=
          { buffer := { width := 16, height := 8 },
            tiles := [{ index := 0, w := 8, h := 8, state := TileState.DENOISE,
                        buffers := some 1 },
                      { index := 1, x := 8, w := 8, h := 8, state := TileState.DENOISE,
                        buffers := some 2 }] }
        schedule_denoising := true } }

/-- Neighbour lookup for a single row of two tiles: slot 4 is tile 0, slot 5 is tile 1,
every other neighbour is missing. -/
def row_neighbor_index (_center : Int) (i : Nat) : Int :=
  if i = 4 then 0 else if i = 5 then 1 else -1

/-- What one slot holds after its round of the loop: a placeholder for a missing
neighbour, else the rectangle of the neighbour tile offset by the image origin, with the
buffers of the session or of the tile. -/
def SlotFilled (s : TileSession) (g : Int → Nat → Int) (c : Int) (i : Nat)
    (t : RenderTile) : Prop :=
  if g c i < 0 then
    t.w = 0 ∧ t.h = 0 ∧ t.buffer = none ∧ t.buffers = none ∧
    (∃ px, t.x = clamp px s.tile_manager.state.buffer.full_x
      (s.tile_manager.state.buffer.full_x + s.tile_manager.state.buffer.width)) ∧
    (∃ py, t.y = clamp py s.tile_manager.state.buffer.full_y
      (s.tile_manager.state.buffer.full_y + s.tile_manager.state.buffer.height))
  else
    ∃ tile, s.tile_manager.state.tiles.get? (g c i).toNat = some tile ∧
      t.x = s.tile_manager.state.buffer.full_x + tile.x ∧
      t.y = s.tile_manager.state.buffer.full_y + tile.y ∧
      t.w = tile.w ∧ t.h = tile.h ∧
      t.buffers = (if s.buffers.isSome then s.buffers else tile.buffers) ∧
      t.buffers.isSome = true


/-! ## Views and inputs for the cancel checks and the scene update -/

/-- The call of `run_wait_for_work` made by the loop iteration that starts in `s`: it
receives the state, inputs and work that `run_update_for_next_iteration` leaves. -/
def iteration_wait (s : Session) (env : Env) : Option Bool × Session × Env :=
  run_wait_for_work (run_update_for_next_iteration s env).2.1
    (run_update_for_next_iteration s env).2.2 (run_update_for_next_iteration s env).1

/-- The dispatch made by the loop iteration that starts in `s`, had it reached it. -/
def iteration_dispatch (s : Session) (env : Env) : Session × Env :=
  dispatch_render_work (iteration_wait s env).2.1 (iteration_wait s env).2.2
    (run_update_for_next_iteration s env).1

/-- A session at sample 3 of 8. -/
def sample_3_of_8 : Session :=
  { progress := { current_sample := 3 }, tile_manager := { num_samples := 8 } }

/-- An interactive session with a worker thread, not paused. -/
def idle_interactive_session : Session :=
  { params := { background := false }, session_thread := some () }

/-- One wake-up, caused by a foreground reset to 4 samples. -/
def reset_on_wake : Env :=
  { wakes := [[Call.reset {} 4]] }

/-- A wake-up at which the foreground has called `cancel()`. -/
def cancel_on_wake : Env :=
  { works := [one_sample 0], wakes := [[Call.cancel]] }

/-- The arguments (width, height, resolution) of the `update_scene` calls recorded, in
order. -/
def scene_updates : List Event → List (Int × Int × Int)
  | [] => []
  | Event.update_scene w h r :: es => (w, h, r) :: scene_updates es
  | _ :: es => scene_updates es

/-- The buffer parameters `tile_manager.params` that `run_update_for_next_iteration` reads
after its reset block: those of a pending reset, otherwise the ones already in place. -/
def params_after_reset (s : Session) : BufferParams :=
  if s.delayed_reset.do_reset then s.delayed_reset.params else s.tile_manager.params

end Cycles

/-! # ID properties from Python: shallow embedding of `python/generic/idprop_py_api.c`

A group is an `IDProperty` whose members are a list; a pointer to a member is its position
in that list.  Python objects are the values of `PyObject`. -/

namespace IDProp

/-- Python values that the conversions of idprop_py_api.c produce or receive. -/
inductive PyObject where
  | none
  | bytes (s : String)
  | str (s : String)
  | int (v : Int)
  | float (v : Int)
  | id (pointer : Nat)
  | list (items : List PyObject)
  | dict (items : List (String × PyObject))
deriving Repr

/-- The type codes that `BPy_IDGroup_MapDataToPy` switches on; `bad` is any other code. -/
inductive IDPType where
  | IDP_STRING
  | IDP_INT
  | IDP_FLOAT
  | IDP_DOUBLE
  | IDP_ID
  | IDP_ARRAY
  | IDP_IDPARRAY
  | IDP_GROUP
  | bad (code : Int)
deriving DecidableEq, Repr

/-- An `IDProperty`: name, type code, subtype code (of an array), whether a string has the
byte subtype, and the payload: the text of a string, the number of an int, float, double
or the pointer of an ID, the items of an array, the members of a group or IDP array.
A float or double payload is kept as an integer that stands for it. -/
inductive IDProperty where
  | mk (name : String) (type : IDPType) (subtype : IDPType) (bytes_subtype : Bool)
      (text : String) (value : Int) (array : List Int) (children : List IDProperty)
deriving Repr

/-- The field `prop->name`. -/
def IDProperty.name : IDProperty → String
  | IDProperty.mk n _ _ _ _ _ _ _ => n

/-- The members `prop->data.group` of a group. -/
def IDProperty.children : IDProperty → List IDProperty
  | IDProperty.mk _ _ _ _ _ _ _ c => c

/-- The effect of `PyDict_SetItemString` on the items of a dict: replace the value of an
existing key, else add the item. -/
def PyDict_SetItemString (d : List (String × PyObject)) (k : String) (v : PyObject) :
    List (String × PyObject) :=
  if d.any (fun e => e.1 == k) then d.map (fun e => if e.1 == k then (k, v) else e)
  else d ++ [(k, v)]

mutual
/-- Embedding of `BPy_IDGroup_MapDataToPy`; `none` is a null result with a Python error
set.  `alloc_ok` tells whether `PyList_New` succeeds. -/
def BPy_IDGroup_MapDataToPy (alloc_ok : Bool) : IDProperty → Option PyObject
  | IDProperty.mk _ type subtype bytes_subtype text value array children =>
    match type with
    | IDPType.IDP_STRING => if bytes_subtype then some (PyObject.bytes text) else some (PyObject.str text)
    | IDPType.IDP_INT => some (PyObject.int value)
    | IDPType.IDP_FLOAT => some (PyObject.float value)
    | IDPType.IDP_DOUBLE => some (PyObject.float value)
    | IDPType.IDP_ID => some (PyObject.id value.toNat)
    | IDPType.IDP_ARRAY =>
      if !alloc_ok then none
      else
        match subtype with
        | IDPType.IDP_FLOAT => some (PyObject.list (array.map PyObject.float))
        | IDPType.IDP_DOUBLE => some (PyObject.list (array.map PyObject.float))
        | IDPType.IDP_INT => some (PyObject.list (array.map PyObject.int))
        | _ => none
    | IDPType.IDP_IDPARRAY =>
      if !alloc_ok then none
      else (map_items alloc_ok children).map PyObject.list
    | IDPType.IDP_GROUP => (map_group alloc_ok children []).map PyObject.dict
    | IDPType.bad _ => none
/-- The loop of the IDP_IDPARRAY case: convert each item, stop at the first failure. -/
def map_items (alloc_ok : Bool) : List IDProperty → Option (List PyObject)
  | [] => some []
  | p :: ps =>
    match BPy_IDGroup_MapDataToPy alloc_ok p with
    | none => none
    | some w =>
      match map_items alloc_ok ps with
      | none => none
      | some ws => some (w :: ws)
/-- The loop of the IDP_GROUP case: convert each member into the dict under its name, stop
at the first failure. -/
def map_group (alloc_ok : Bool) : List IDProperty → List (String × PyObject) →
    Option (List (String × PyObject))
  | [], d => some d
  | p :: ps, d =>
    match BPy_IDGroup_MapDataToPy alloc_ok p with
    | none => none
    | some w => map_group alloc_ok ps (PyDict_SetItemString d p.name w)
end


/-- The Python exceptions the group methods raise. -/
inductive PyErr where
  | KeyError (msg : String)
  | TypeError
  | ValueError
  | RuntimeError
deriving DecidableEq, Repr

/-- Modelled from the spec: `MAX_IDPROP_NAME` of DNA_ID.h (not among the sources): the size
of the buffer `IDProperty.name`, terminator included; the error texts of idprop_py_api.c
give the resulting limit of 63 characters. -/
def MAX_IDPROP_NAME : Nat := 64

/-- The UTF-8 encoding of one character, as byte values. -/
def utf8_char (c : Char) : List Nat :=
  let v := c.toNat
  if v < 128 then [v]
  else if v < 2048 then [192 + v / 64, 128 + v % 64]
  else if v < 65536 then [224 + v / 4096, 128 + v / 64 % 64, 128 + v % 64]
  else [240 + v / 262144, 128 + v / 4096 % 64, 128 + v / 64 % 64, 128 + v % 64]

/-- The UTF-8 buffer of a Python string, without the terminator that follows it. -/
def utf8 (s : String) : List Nat :=
  s.toList.flatMap utf8_char

/-- What a reader of a C string sees in a buffer: the bytes before the first null byte. -/
def c_string (buf : List Nat) : List Nat :=
  buf.takeWhile (fun b => b != 0)

/-- An object as the name conversions receive it: a Python `str` given by its code points,
or any `PyObject` value.  A `str` may hold lone surrogates (code points D800 to DFFF),
which have no UTF-8 encoding; the text of a `PyObject.str` never does. -/
inductive KeyObject where
  | unicode (code_points : List Nat)
  | object (obj : PyObject)
deriving Repr

/-- Whether a code point has a UTF-8 encoding: it is at most 10FFFF and no surrogate. -/
def has_utf8 (v : Nat) : Bool :=
  decide (v < 55296) || (decide (57343 < v) && decide (v < 1114112))

/-- The UTF-8 encoding of one code point, as byte values. -/
def utf8_bytes (v : Nat) : List Nat :=
  if v < 128 then [v]
  else if v < 2048 then [192 + v / 64, 128 + v % 64]
  else if v < 65536 then [224 + v / 4096, 128 + v / 64 % 64, 128 + v % 64]
  else [240 + v / 262144, 128 + v / 4096 % 64, 128 + v / 64 % 64, 128 + v % 64]

/-- The CPython call `_PyUnicode_AsStringAndSize(obj, &size)`: for a string that has a
UTF-8 encoding, its UTF-8 buffer (the size is the length of the buffer and counts embedded
null characters); a null result for a string holding a code point without encoding and
for every object that is not a string. -/
def PyUnicode_AsStringAndSize : KeyObject → Option (List Nat)
  | KeyObject.unicode code_points =>
    if code_points.all has_utf8 then some (code_points.flatMap utf8_bytes) else none
  | KeyObject.object (PyObject.str s) => some (utf8 s)
  | KeyObject.object _ => none

/-- The text of `Py_TYPE(obj)->tp_name` used in error messages (the class of an ID is not
modelled and reads "ID"). -/
def tp_name : PyObject → String
  | PyObject.none => "NoneType"
  | PyObject.bytes _ => "bytes"
  | PyObject.str _ => "str"
  | PyObject.int _ => "int"
  | PyObject.float _ => "float"
  | PyObject.id _ => "ID"
  | PyObject.list _ => "list"
  | PyObject.dict _ => "dict"

/-- The text of `Py_TYPE(name_obj)->tp_name` for a key object. -/
def key_tp_name : KeyObject → String
  | KeyObject.unicode _ => "str"
  | KeyObject.object obj => tp_name obj

/-- Embedding of `idp_try_read_name`: the buffer the returned pointer designates, or the
exception raised with a null result; `name_obj` is `none` for a null key object. -/
def idp_try_read_name (name_obj : Option KeyObject) : Except PyErr (List Nat) :=
  match name_obj with
  | some obj =>
    match PyUnicode_AsStringAndSize obj with
    | none =>
      Except.error (PyErr.KeyError
        ("invalid id-property key, expected a string, not a " ++ key_tp_name obj))
    | some name =>
      if name.length ≥ MAX_IDPROP_NAME then
        Except.error (PyErr.KeyError
          "the length of IDProperty names is limited to 63 characters")
      else Except.ok name
  | none => Except.ok []

/-- Embedding of `idp_from_PyObject`: the key is read first and a null name is returned as
a null property with the exception left in place; the dispatch on the type of the value
(lines 645 to 667) is passed in as `from_value`. -/
def idp_from_PyObject (from_value : List Nat → PyObject → Except PyErr IDProperty)
    (name_obj : Option KeyObject) (ob : PyObject) : Except PyErr IDProperty :=
  match idp_try_read_name name_obj with
  | Except.error e => Except.error e
  | Except.ok name => from_value name ob

/-- Embedding of `BPy_IDProperty_Map_ValidateAndCreate` as far as its result goes: false
exactly when `idp_from_PyObject` returns null; `insert` stands for the branch that stores
the new property in the group. -/
def BPy_IDProperty_Map_ValidateAndCreate
    (from_value : List Nat → PyObject → Except PyErr IDProperty)
    (insert : IDProperty → IDProperty → IDProperty)
    (name_obj : Option KeyObject) (group : IDProperty) (ob : PyObject) :
    Except PyErr Unit × IDProperty :=
  match idp_from_PyObject from_value name_obj ob with
  | Except.error e => (Except.error e, group)
  | Except.ok prop => (Except.ok (), insert group prop)

/-- Embedding of `BPy_IDGroup_GetName` on the buffer `self->prop->name`:
`PyUnicode_FromString` reads the buffer as a C string; the result is given by its UTF-8
bytes. -/
def BPy_IDGroup_GetName (name : List Nat) : List Nat :=
  c_string name

/-- The C call `memcpy(dst, src, n)` on the front of a buffer: the first `n` bytes are
replaced, the others stay. -/
def memcpy (dst src : List Nat) (n : Nat) : List Nat :=
  src.take n ++ dst.drop n

/-- Embedding of `BPy_IDGroup_SetName` on the buffer `self->prop->name`: the result (0 as
`ok`, -1 with the exception raised) and the buffer afterwards. -/
def BPy_IDGroup_SetName (name : List Nat) (value : PyObject) :
    Except PyErr Unit × List Nat :=
  match value with
  | PyObject.str _ =>
    match PyUnicode_AsStringAndSize (KeyObject.object value) with
    | none => (Except.error PyErr.TypeError, name)
    | some new_name =>
      if new_name.length ≥ MAX_IDPROP_NAME then (Except.error PyErr.TypeError, name)
      else (Except.ok (), memcpy name new_name new_name.length)
  | _ => (Except.error PyErr.TypeError, name)

/-- The buffer `name[MAX_IDPROP_NAME]` of a property created with that name: the name,
then null bytes. -/
def name_buffer (s : String) : List Nat :=
  (utf8 s).take (MAX_IDPROP_NAME - 1) ++
    List.replicate (MAX_IDPROP_NAME - ((utf8 s).take (MAX_IDPROP_NAME - 1)).length) 0

/-- A property named "abcdef" is renamed to "xy". -/
def renamed_abcdef : Except PyErr Unit × List Nat :=
  BPy_IDGroup_SetName (name_buffer "abcdef") (PyObject.str "xy")

/-- The fields of a `Py_buffer` that the conversions read: the format string, the item size
in bytes, the length in bytes, and the items of `buf` (each kept as an integer that stands
for it). -/
structure Py_buffer where
  format : String
  itemsize : Int
  len : Int
  buf : List Int
deriving DecidableEq, Repr

/-- Modelled from the spec: `PyC_StructFmt_type_from_str` of py_capi_utils.c (not among
the sources and not described by the specification; modelled from the format strings of
the Python struct module): the type character of a format string, after an optional byte
order mark. -/
def PyC_StructFmt_type_from_str (typestr : String) : Char :=
  match typestr.toList with
  | c :: rest =>
    if c = '!' ∨ c = '<' ∨ c = '=' ∨ c = '>' ∨ c = '@' then rest.headD (Char.ofNat 0) else c
  | [] => Char.ofNat 0

/-- Modelled from the spec: `PyC_StructFmt_type_is_float_any` of py_capi_utils.c (not among
the sources; modelled from the format characters of the Python struct module): the float
formats are 'f' (4 bytes), 'd' (8 bytes) and 'e' (2 bytes). -/
def PyC_StructFmt_type_is_float_any (format : Char) : Bool :=
  format = 'f' || format = 'd' || format = 'e'

/-- Modelled from the spec: `PyC_StructFmt_type_is_int_any` of py_capi_utils.c (not among
the sources; modelled from the format characters of the Python struct module): the
integer formats of every size and signedness. -/
def PyC_StructFmt_type_is_int_any (format : Char) : Bool :=
  ['i', 'I', 'l', 'L', 'h', 'H', 'b', 'B', 'q', 'Q', 'n', 'N', 'P'].contains format

/-- Embedding of `idp_array_type_from_formatstr_and_size`; `none` is the result -1. -/
def idp_array_type_from_formatstr_and_size (typestr : String) (itemsize : Int) :
    Option IDPType :=
  let format := PyC_StructFmt_type_from_str typestr
  if PyC_StructFmt_type_is_float_any format ∧ itemsize = 4 then some IDPType.IDP_FLOAT
  else if PyC_StructFmt_type_is_float_any format ∧ itemsize = 8 then some IDPType.IDP_DOUBLE
  else if PyC_StructFmt_type_is_int_any format ∧ itemsize = 4 then some IDPType.IDP_INT
  else none

/-- Embedding of `idp_from_PySequence_Buffer`: `none` is the null result of the branch
`id_type == -1`; otherwise an array property of that item type with `len / itemsize`
items, filled from the buffer. -/
def idp_from_PySequence_Buffer (name : String) (buffer : Py_buffer) : Option IDProperty :=
  match idp_array_type_from_formatstr_and_size buffer.format buffer.itemsize with
  | none => none
  | some id_type =>
    some (IDProperty.mk name IDPType.IDP_ARRAY id_type false "" 0
      (buffer.buf.take (Int.tdiv buffer.len buffer.itemsize).toNat) [])

/-- The test of `idp_from_PySequence` that sets `use_buffer` for an object that exports a
buffer. -/
def use_buffer (buffer : Py_buffer) : Bool :=
  let format := PyC_StructFmt_type_from_str buffer.format
  PyC_StructFmt_type_is_float_any format ||
    (PyC_StructFmt_type_is_int_any format && decide (buffer.itemsize = 4))

/-- Embedding of `idp_from_PySequence`: `buffer` is the buffer the object exports, if it
exports one; `fast` is the result of the `PySequence_Fast` path for the same object. -/
def idp_from_PySequence (name : String) (buffer : Option Py_buffer)
    (fast : Option IDProperty) : Option IDProperty :=
  match buffer with
  | some b => if use_buffer b then idp_from_PySequence_Buffer name b else fast
  | none => fast

/-- A buffer of three half-precision floats, as a float16 array exports it. -/
def half_floats : Py_buffer :=
  { format := "e", itemsize := 2, len := 6, buf := [1, 2, 3] }

/-- What `idp_sequence_type` can tell about the type of an item: `PyFloat_Check` and
`PyLong_Check` never both hold (float and int are built-in types with their own layouts),
and an object of any type may provide the mapping protocol. -/
inductive ItemType where
  | float (mapping : Bool)
  | long (mapping : Bool)
  | mapping
  | other
deriving DecidableEq, Repr

/-- The CPython check `PyFloat_Check`. -/
def PyFloat_Check : ItemType → Bool
  | ItemType.float _ => true
  | _ => false

/-- The CPython check `PyLong_Check`. -/
def PyLong_Check : ItemType → Bool
  | ItemType.long _ => true
  | _ => false

/-- The CPython check `PyMapping_Check`. -/
def PyMapping_Check : ItemType → Bool
  | ItemType.float m => m
  | ItemType.long m => m
  | ItemType.mapping => true
  | ItemType.other => false

/-- The `for` loop of `idp_sequence_type` from index `i` on, with the current `type`;
`none` is the result -1. -/
def idp_sequence_type_from (i : Nat) (type : IDPType) : List ItemType → Option IDPType
  | [] => some type
  | item :: rest =>
    if PyFloat_Check item then
      if type = IDPType.IDP_IDPARRAY then none
      else idp_sequence_type_from (i + 1) IDPType.IDP_DOUBLE rest
    else if PyLong_Check item then
      if type = IDPType.IDP_IDPARRAY then none
      else idp_sequence_type_from (i + 1) type rest
    else if PyMapping_Check item then
      if i ≠ 0 ∧ type ≠ IDPType.IDP_IDPARRAY then none
      else idp_sequence_type_from (i + 1) IDPType.IDP_IDPARRAY rest
    else none

/-- Embedding of `idp_sequence_type` on the items of the sequence. -/
def idp_sequence_type (seq_fast : List ItemType) : Option IDPType :=
  idp_sequence_type_from 0 IDPType.IDP_INT seq_fast

end IDProp

/-! # Sequencer transform: shallow embedding of
`editors/transform/transform_convert_sequencer.c`

A strip list is a list of `Sequence` values; a pointer to a strip is its position in the
list.  Flag words are kept as their 32-bit patterns. -/

namespace Sequencer

/-- Modelled from the spec: the selection bit `SELECT` (DNA headers are not among the
sources): bit 0. -/
def SELECT : Nat := 1

/-- Modelled from the spec: `SEQ_LEFTSEL` of DNA_sequence_types.h (not among the sources):
bit 1. -/
def SEQ_LEFTSEL : Nat := 2

/-- Modelled from the spec: `SEQ_RIGHTSEL` of DNA_sequence_types.h (not among the sources):
bit 2. -/
def SEQ_RIGHTSEL : Nat := 4

/-- Modelled from the spec: `SEQ_LOCK` of DNA_sequence_types.h (not among the sources):
bit 14. -/
def SEQ_LOCK : Nat := 16384

/-- The complement `~x` of a 32-bit flag word. -/
def bit_not (x : Nat) : Nat := 4294967295 ^^^ (x % 4294967296)

/-- The fields of a `Sequence` that the transform conversion reads; `left_handle_frame` and
`right_handle_frame` are the results of `SEQ_transform_get_left_handle_frame` and
`SEQ_transform_get_right_handle_frame` for the strip. -/
structure Sequence where
  flag : Nat := 0
  start : Int := 0
  machine : Int := 0
  startdisp : Int := 0
  enddisp : Int := 0
  left_handle_frame : Int := 0
  right_handle_frame : Int := 0
deriving DecidableEq, Repr, Inhabited

/-- The transform modes as far as the conversion tells them apart. -/
inductive TransMode where
  | TFM_TIME_EXTEND
  | other (code : Nat)
deriving DecidableEq, Repr

/-- The fields of `TransInfo` that the conversion reads and writes; `cfra` is the current
frame `CFRA` of the scene. -/
structure TransInfo where
  mode : TransMode
  frame_side : Char
  cfra : Int
deriving DecidableEq, Repr

/-- Embedding of `SeqTransInfo`: the transform info afterwards (`frame_side` is set to 'B'
outside time-extend), `*r_count` and `*r_flag`. -/
def SeqTransInfo (t : TransInfo) (seq : Sequence) : TransInfo × Nat × Nat :=
  if t.mode = TransMode.TFM_TIME_EXTEND then
    let cfra := t.cfra
    let left := seq.left_handle_frame
    let right := seq.right_handle_frame
    if seq.flag &&& SELECT = 0 ∨ seq.flag &&& SEQ_LOCK ≠ 0 then (t, 0, 0)
    else
      let r_flag := (seq.flag ||| SELECT) &&& bit_not (SEQ_LEFTSEL ||| SEQ_RIGHTSEL)
      if t.frame_side = 'R' then
        if right ≤ cfra then (t, 0, 0)
        else if left > cfra then (t, 1, r_flag)
        else (t, 1, r_flag ||| SEQ_RIGHTSEL)
      else
        if left ≥ cfra then (t, 0, 0)
        else if right < cfra then (t, 1, r_flag)
        else (t, 1, r_flag ||| SEQ_LEFTSEL)
  else
    let t := { t with frame_side := 'B' }
    if seq.flag &&& SELECT = 0 ∨ seq.flag &&& SEQ_LOCK ≠ 0 then (t, 0, 0)
    else if seq.flag &&& (SEQ_LEFTSEL ||| SEQ_RIGHTSEL) = (SEQ_LEFTSEL ||| SEQ_RIGHTSEL) then
      (t, 2, seq.flag)
    else (t, 1, seq.flag)

/-- Embedding of `SeqTransCount`: the transform info afterwards and the total. -/
def SeqTransCount (t : TransInfo) : List Sequence → TransInfo × Nat
  | [] => (t, 0)
  | seq :: rest =>
    let r := SeqTransInfo t seq
    let q := SeqTransCount r.1 rest
    (q.1, r.2.1 + q.2)

/-- One element of the parallel arrays `td`, `td2d`, `tdsq` as `SeqToTransData` fills it:
the strip (its position in the list), the flag copy, the selection flag, the start offset
(left at the zero of the allocation unless the whole strip is selected) and the location
`td2d->loc[0]`, `td2d->loc[1]`. -/
structure TransDataSeq where
  seq : Nat
  flag : Nat
  sel_flag : Nat
  start_offset : Int
  loc0 : Int
  loc1 : Int
deriving DecidableEq, Repr

/-- Embedding of `SeqToTransData`: the element written for the strip at position `pos`. -/
def SeqToTransData (pos : Nat) (seq : Sequence) (flag : Nat) (sel_flag : Nat) :
    TransDataSeq :=
  let start_left := seq.left_handle_frame
  let loc0 : Int :=
    if sel_flag = SELECT then start_left
    else if sel_flag = SEQ_LEFTSEL then start_left
    else if sel_flag = SEQ_RIGHTSEL then seq.right_handle_frame
    else 0
  let start_offset : Int := if sel_flag = SELECT then start_left - seq.start else 0
  { seq := pos, flag := flag, sel_flag := sel_flag, start_offset := start_offset,
    loc0 := loc0, loc1 := seq.machine }

/-- The body of the loop of `SeqToTransData_build` for one strip, given the flag that
`SeqTransInfo` returned: the elements written, in order. -/
def build_strip (pos : Nat) (seq : Sequence) (flag : Nat) : List TransDataSeq :=
  if flag &&& SELECT ≠ 0 then
    if flag &&& (SEQ_LEFTSEL ||| SEQ_RIGHTSEL) ≠ 0 then
      (if flag &&& SEQ_LEFTSEL ≠ 0 then [SeqToTransData pos seq flag SEQ_LEFTSEL] else []) ++
      (if flag &&& SEQ_RIGHTSEL ≠ 0 then [SeqToTransData pos seq flag SEQ_RIGHTSEL] else [])
    else [SeqToTransData pos seq flag SELECT]
  else []

/-- Embedding of `SeqToTransData_build` from list position `pos` on: the transform info
afterwards, the elements written through `td++`, `td2d++`, `tdsq++`, and the returned
total. -/
def SeqToTransData_build (t : TransInfo) (pos : Nat) :
    List Sequence → TransInfo × List TransDataSeq × Nat
  | [] => (t, [], 0)
  | seq :: rest =>
    let r := SeqTransInfo t seq
    let written := build_strip pos seq r.2.2
    let q := SeqToTransData_build r.1 (pos + 1) rest
    (q.1, written ++ q.2.1, written.length + q.2.2)

/-- The counting and filling part of `createTransSeqData` on the strip list `seqbase` as it
stands after the selection pass: `data_len`, and the elements written into the arrays
allocated with that length (none when the count is 0). -/
def createTransSeqData (t : TransInfo) (seqbase : List Sequence) :
    TransInfo × Nat × List TransDataSeq :=
  let c := SeqTransCount t seqbase
  if c.2 = 0 then (c.1, c.2, [])
  else
    let b := SeqToTransData_build c.1 0 seqbase
    (b.1, c.2, b.2.1)

/-- Embedding of `is_full_overlap`. -/
def is_full_overlap (transformed target : Sequence) : Bool :=
  decide (transformed.startdisp ≤ target.startdisp ∧ transformed.enddisp ≥ target.enddisp)

/-- Embedding of `is_inside_overlap`. -/
def is_inside_overlap (transformed target : Sequence) : Bool :=
  decide (transformed.startdisp > target.startdisp ∧ transformed.enddisp < target.enddisp)

/-- The sides of `ePartialOvelapSide`. -/
inductive ePartialOvelapSide where
  | LEFT_SIDE_OVERLAP
  | RIGHT_SIDE_OVERLAP
deriving DecidableEq, Repr

/-- Embedding of `is_partial_overlap`: `none` is false, otherwise the side stored in
`*r_side`. -/
def is_partial_overlap (transformed target : Sequence) : Option ePartialOvelapSide :=
  if transformed.startdisp ≤ target.startdisp ∧ target.startdisp ≤ transformed.enddisp then
    some ePartialOvelapSide.LEFT_SIDE_OVERLAP
  else if transformed.startdisp ≤ target.enddisp ∧ target.enddisp ≤ transformed.enddisp then
    some ePartialOvelapSide.RIGHT_SIDE_OVERLAP
  else none

/-- What `seq_transform_handle_overwrite` does with one pair of strips. -/
inductive Overwrite where
  | skipped
  | removed
  | split
  | trimmed (side : ePartialOvelapSide)
  | untouched
deriving DecidableEq, Repr

/-- Embedding of `is_same_channel`. -/
def is_same_channel (transformed target : Sequence) : Bool :=
  decide (transformed.machine = target.machine)

/-- The body of the inner loop of `seq_transform_handle_overwrite` for one pair: skipped on
another channel, else the target is flagged for removal, split around the transformed
strip, or trimmed on the overlapping side; `untouched` when no branch applies. -/
def seq_transform_handle_overwrite (transformed target : Sequence) : Overwrite :=
  if !is_same_channel transformed target then Overwrite.skipped
  else if is_full_overlap transformed target then Overwrite.removed
  else if is_inside_overlap transformed target then Overwrite.split
  else
    match is_partial_overlap transformed target with
    | some side => Overwrite.trimmed side
    | none => Overwrite.untouched

/-- Two transform infos that `SeqTransInfo` cannot tell apart: same mode and current frame,
and the same frame side when the mode is time-extend. -/
def same_view (t u : TransInfo) : Prop :=
  t.mode = u.mode ∧ t.cfra = u.cfra ∧
    (t.mode = TransMode.TFM_TIME_EXTEND → t.frame_side = u.frame_side)

/-- A transformed strip shown on frames 10 to 20. -/
def strip_10_20 : Sequence := { startdisp := 10, enddisp := 20 }

/-- A target strip shown on frames 15 to 30, same channel. -/
def strip_15_30 : Sequence := { startdisp := 15, enddisp := 30 }

/-- A transform that is not time-extend. -/
def normal_transform : TransInfo :=
  { mode := TransMode.other 0, frame_side := 'L', cfra := 12 }

/-- A time-extend transform to the right of frame 12. -/
def extend_right : TransInfo :=
  { mode := TransMode.TFM_TIME_EXTEND, frame_side := 'R', cfra := 12 }

/-- Three strips: both handles selected over frames 5 to 15, a locked selected strip, and a
selected strip over frames 20 to 30. -/
def three_strips : List Sequence :=
  [{ flag := SELECT ||| SEQ_LEFTSEL ||| SEQ_RIGHTSEL, left_handle_frame := 5,
     right_handle_frame := 15 },
   { flag := SELECT ||| SEQ_LOCK, left_handle_frame := 0, right_handle_frame := 40 },
   { flag := SELECT, left_handle_frame := 20, right_handle_frame := 30 }]

end Sequencer

/-! # Asset tags: shallow embedding of `blenkernel/intern/asset.c`

The tag list of an asset is a list of `CustomTag` values; a pointer to a tag is its
position in the list (tags are only added at the tail).  A C string is given by its bytes
before the terminator. -/

namespace Asset

/-- Modelled from the spec: the size of `CustomTag.name` (DNA_asset_types.h is not among
the sources): `char name[64]`, terminator included. -/
def MAX_NAME : Nat := 64

/-- A `CustomTag`: its name, the content of the buffer `name` before the terminator. -/
structure CustomTag where
  name : List Nat
deriving DecidableEq, Repr

/-- The field `tags` of `AssetData`. -/
structure AssetData where
  tags : List CustomTag := []
deriving DecidableEq, Repr

/-- The struct `CustomTagEnsureResult`; `tag` is `none` for a null pointer. -/
structure CustomTagEnsureResult where
  tag : Option Nat
  is_new : Bool
deriving DecidableEq, Repr

/-- Modelled from the spec: `BLI_findstring` of blenlib (listbase.c is not among the
sources; modelled from its use in asset.c): the first link of the list whose string at
the given offset equals `id`, or null. -/
def BLI_findstring (listbase : List CustomTag) (id : List Nat) : Option Nat :=
  listbase.findIdx? (fun tag => tag.name == id)

/-- Modelled from the spec: `BLI_strncpy(dst, src, maxncpy)` of blenlib (string.c is not
among the sources; modelled from its use in asset.c): `dst` receives at most
`maxncpy - 1` bytes of `src` and a terminator. -/
def BLI_strncpy (src : List Nat) (maxncpy : Nat) : List Nat :=
  src.take (maxncpy - 1)

/-- Modelled from the spec: `BLI_addtail` of blenlib (listbase.c is not among the
sources): the link is appended at the end of the list. -/
def BLI_addtail (listbase : List CustomTag) (link : CustomTag) : List CustomTag :=
  listbase ++ [link]

/-- Embedding of `BKE_assetdata_tag_ensure`: the result struct and the asset data
afterwards. -/
def BKE_assetdata_tag_ensure (asset_data : AssetData) (name : List Nat) :
    CustomTagEnsureResult × AssetData :=
  if name = [] then ({ tag := none, is_new := false }, asset_data)
  else
    match BLI_findstring asset_data.tags name with
    | some tag => ({ tag := some tag, is_new := false }, asset_data)
    | none =>
      let tag : CustomTag := { name := BLI_strncpy name MAX_NAME }
      ({ tag := some asset_data.tags.length, is_new := true },
        { asset_data with tags := BLI_addtail asset_data.tags tag })

/-- A name of 64 letters "a". -/
def long_name : List Nat := List.replicate 64 97

/-- The name "ab". -/
def name_ab : List Nat := [97, 98]

/-- An asset whose only tag is named "cd". -/
def asset_cd : AssetData := { tags := [{ name := [99, 100] }] }

end Asset

namespace Cycles

/-! ## Trace lemmas -/

theorem dispatched_append (a b : List Event) :
    dispatched (a ++ b) = dispatched a ++ dispatched b := by
  induction a with
  | nil => rfl
  | cons e es ih => cases e <;> simp [dispatched, ih]

theorem emit_trace (s : Session) (e : Event) : (s.emit e).trace = s.trace ++ [e] := rfl

theorem update_status_time_trace (s : Session) (a b : Bool) :
    (update_status_time s a b).trace = s.trace := by
  unfold update_status_time
  split
  · rfl
  · split <;> rfl

theorem update_status_time_pause (s : Session) (a b : Bool) :
    (update_status_time s a b).pause = s.pause := by
  unfold update_status_time
  split
  · rfl
  · split <;> rfl

theorem update_status_time_params (s : Session) (a b : Bool) :
    (update_status_time s a b).params = s.params := by
  unfold update_status_time
  split
  · rfl
  · split <;> rfl

theorem update_status_time_cancel (s : Session) (a b : Bool) :
    (update_status_time s a b).progress.cancel = s.progress.cancel := by
  unfold update_status_time
  split
  · rfl
  · split <;> rfl

theorem set_pause_trace (s : Session) (v : Bool) :
    (set_pause s v).trace =
      if s.session_thread.isSome && (s.pause != v) then s.trace ++ [Event.notify_all]
      else s.trace := by
  cases v <;> cases hp : s.pause <;> cases ht : s.session_thread <;>
    simp [set_pause, hp, ht, update_status_time_trace, emit_trace]

theorem set_pause_params (s : Session) (v : Bool) : (set_pause s v).params = s.params := by
  cases v <;> cases hp : s.pause <;> cases ht : s.session_thread <;>
    simp [set_pause, hp, ht, update_status_time_params, Session.emit]

theorem apply_call_dispatched (s : Session) (c : Call) :
    dispatched (apply_call s c).trace = dispatched s.trace := by
  cases c with
  | set_pause v =>
    simp only [apply_call, set_pause_trace]
    split <;> simp [dispatched_append, dispatched]
  | reset p n => simp [apply_call, reset, emit_trace, dispatched_append, dispatched]
  | set_samples n =>
    simp only [apply_call, set_samples]
    split
    · simp [emit_trace, dispatched_append, dispatched]
    · rfl
  | cancel =>
    simp only [apply_call, cancel_signal]
    split
    · simp [emit_trace, dispatched_append, dispatched]
    · rfl

theorem apply_call_background (s : Session) (c : Call) :
    (apply_call s c).params.background = s.params.background := by
  cases c with
  | set_pause v => simp only [apply_call, set_pause_params]
  | reset p n => rfl
  | set_samples n =>
    simp only [apply_call, set_samples]
    split <;> rfl
  | cancel =>
    simp only [apply_call, cancel_signal]
    split <;> rfl

theorem foreground_dispatched (calls : List Call) (s : Session) :
    dispatched (foreground s calls).trace = dispatched s.trace := by
  induction calls generalizing s with
  | nil => rfl
  | cons c cs ih =>
    simp only [foreground, List.foldl_cons] at ih ⊢
    rw [ih, apply_call_dispatched]

theorem foreground_background (calls : List Call) (s : Session) :
    (foreground s calls).params.background = s.params.background := by
  induction calls generalizing s with
  | nil => rfl
  | cons c cs ih =>
    simp only [foreground, List.foldl_cons] at ih ⊢
    rw [ih, apply_call_background]

theorem reset__dispatched (s : Session) (p : BufferParams) (n : Int) :
    dispatched (reset_ s p n).trace = dispatched s.trace := by
  simp [reset_, emit_trace, dispatched_append, dispatched, Session.emit]

theorem reset__params (s : Session) (p : BufferParams) (n : Int) :
    (reset_ s p n).params = s.params := rfl

theorem consume_delayed_reset_dispatched (s : Session) (env : Env) :
    dispatched (consume_delayed_reset s env).2.1.trace = dispatched s.trace := by
  unfold consume_delayed_reset
  split
  · simp [emit_trace, dispatched_append, dispatched, reset__dispatched]
  · rfl

theorem consume_delayed_reset_params (s : Session) (env : Env) :
    (consume_delayed_reset s env).2.1.params = s.params := by
  unfold consume_delayed_reset
  split <;> rfl

theorem provide_denoiser_params_dispatched (s : Session) :
    dispatched (provide_denoiser_params s).trace = dispatched s.trace := by
  unfold provide_denoiser_params
  split
  · simp [emit_trace, dispatched_append, dispatched]
  · rfl

theorem provide_denoiser_params_params (s : Session) :
    (provide_denoiser_params s).params = s.params := by
  unfold provide_denoiser_params
  split <;> rfl

theorem ask_scheduler_dispatched (t : Bool) (s : Session) (env : Env) :
    dispatched (ask_scheduler t s env).2.1.trace = dispatched s.trace := by
  unfold ask_scheduler
  split
  · simp [emit_trace, dispatched_append, dispatched]
  · rfl

theorem ask_scheduler_params (t : Bool) (s : Session) (env : Env) :
    (ask_scheduler t s env).2.1.params = s.params := by
  unfold ask_scheduler
  split <;> rfl

theorem update_scene_for_work_dispatched (w : RenderWork) (s : Session) :
    dispatched (update_scene_for_work w s).trace = dispatched s.trace := by
  unfold update_scene_for_work
  split
  · simp [update_scene, emit_trace, dispatched_append, dispatched]
  · rfl

theorem update_scene_for_work_params (w : RenderWork) (s : Session) :
    (update_scene_for_work w s).params = s.params := by
  unfold update_scene_for_work
  split <;> rfl

theorem run_update_dispatched (s : Session) (env : Env) :
    dispatched (run_update_for_next_iteration s env).2.1.trace = dispatched s.trace := by
  simp [run_update_for_next_iteration, update_scene_for_work_dispatched,
    ask_scheduler_dispatched, provide_denoiser_params_dispatched,
    consume_delayed_reset_dispatched]

theorem run_update_params (s : Session) (env : Env) :
    (run_update_for_next_iteration s env).2.1.params = s.params := by
  simp [run_update_for_next_iteration, update_scene_for_work_params,
    ask_scheduler_params, provide_denoiser_params_params,
    consume_delayed_reset_params]

theorem wait_while_paused_dispatched (no_work : Bool) (wakes : List (List Call))
    (s : Session) :
    dispatched (wait_while_paused no_work s wakes).2.1.trace = dispatched s.trace := by
  induction wakes generalizing s with
  | nil => simp [wait_while_paused, emit_trace, dispatched_append, dispatched]
  | cons c cs ih =>
    simp only [wait_while_paused]
    split
    · simp [update_status_time_trace, foreground_dispatched, emit_trace, dispatched_append,
        dispatched]
    · rw [ih]
      simp [update_status_time_trace, foreground_dispatched, emit_trace, dispatched_append,
        dispatched]

theorem run_wait_for_work_dispatched (s : Session) (env : Env) (w : RenderWork) :
    dispatched (run_wait_for_work s env w).2.1.trace = dispatched s.trace := by
  unfold run_wait_for_work
  split
  · rfl
  · simp only []
    split
    · rfl
    · simp [wait_while_paused_dispatched, update_status_time_trace]

theorem run_wait_for_work_false (s : Session) (env : Env) (w : RenderWork)
    (h : (run_wait_for_work s env w).1 = some false) :
    s.params.background = true ∨ w.toBool = true := by
  unfold run_wait_for_work at h
  by_cases hb : s.params.background
  · exact Or.inl hb
  · right
    simp only [hb] at h
    by_cases hw : w.toBool
    · exact hw
    · simp [hw] at h

theorem dispatch_render_work_dispatched (s : Session) (env : Env) (w : RenderWork) :
    dispatched (dispatch_render_work s env w).1.trace = dispatched s.trace ++ [w] := by
  unfold dispatch_render_work
  simp only
  split <;>
    simp [update_status_time_trace, emit_trace, dispatched_append, dispatched]

/-! ## C1: only truthy work is dispatched -/

theorem run_main_render_loop_zero (s : Session) (env : Env) :
    run_main_render_loop 0 s env =
      if s.progress.get_cancel then (Flow.returned, s, env) else (Flow.out_of_fuel, s, env) := by
  unfold run_main_render_loop
  rfl

/-- C1. In `Session::run_main_render_loop`, for every fuel, start state (any mode, pause and
cancel flags) and every environment (scheduler results, tile answers, device errors,
foreground calls at each wake-up), the works handed to `path_trace_->render` during the
loop are all truthy, so a work with sample count 0 is never dispatched. -/
theorem run_main_render_loop_dispatches_only_truthy (fuel : Nat) (s : Session) (env : Env) :
    ∃ ws, dispatched (run_main_render_loop fuel s env).2.1.trace = dispatched s.trace ++ ws ∧
      ∀ w ∈ ws, w.toBool = true ∧ w.sample_count ≠ 0 := by
  induction fuel generalizing s env with
  | zero =>
    refine ⟨[], ?_, by simp⟩
    rw [run_main_render_loop_zero]
    split <;> simp
  | succ n ih =>
    unfold run_main_render_loop
    cases hc : s.progress.get_cancel
    case true => exact ⟨[], by simp, by simp⟩
    case false =>
      simp only [Bool.false_eq_true, ↓reduceIte]
      have hu := run_update_dispatched s env
      generalize run_update_for_next_iteration s env = u at hu ⊢
      obtain ⟨w, s1, env1⟩ := u
      simp only at hu ⊢
      cases hfin : (!w.toBool && s1.params.background)
      case true => exact ⟨[], by simp [hu], by simp⟩
      case false =>
        simp only [Bool.false_eq_true, ↓reduceIte]
        have hw := run_wait_for_work_dispatched s1 env1 w
        have hf := run_wait_for_work_false s1 env1 w
        generalize run_wait_for_work s1 env1 w = r at hw hf ⊢
        obtain ⟨o, s2, env2⟩ := r
        simp only at hw hf ⊢
        match o with
        | none => exact ⟨[], by simp [hw, hu], by simp⟩
        | some true =>
          obtain ⟨ws, h1, h2⟩ := ih s2 env2
          exact ⟨ws, by simp only [h1, hw, hu], h2⟩
        | some false =>
          simp only
          cases hc2 : s2.progress.get_cancel
          case true => exact ⟨[], by simp [hw, hu], by simp⟩
          case false =>
            simp only [Bool.false_eq_true, ↓reduceIte]
            have hwt : w.toBool = true := by
              rcases hf rfl with hb | ht
              · cases hwb : w.toBool
                · simp [hwb, hb] at hfin
                · rfl
              · exact ht
            have hcnt : w.sample_count ≠ 0 := by
              have := hwt
              simp only [RenderWork.toBool, Bool.and_eq_true, decide_eq_true_eq] at this
              omega
            obtain ⟨ws, h1, h2⟩ := ih (dispatch_render_work s2 env2 w).1
              (dispatch_render_work s2 env2 w).2
            refine ⟨w :: ws, ?_, ?_⟩
            · rw [h1, dispatch_render_work_dispatched, hw, hu]
              simp
            · intro x hx
              rcases List.mem_cons.mp hx with rfl | hx
              · exact ⟨hwt, hcnt⟩
              · exact h2 x hx

/-! ## C2, C3: the delayed reset -/

theorem applied_resets_append (a b : List Event) :
    applied_resets (a ++ b) = applied_resets a ++ applied_resets b := by
  induction a with
  | nil => rfl
  | cons e es ih => cases e <;> simp [applied_resets, ih]

theorem scheduler_calls_append (a b : List Event) :
    scheduler_calls (a ++ b) = scheduler_calls a ++ scheduler_calls b := by
  induction a with
  | nil => rfl
  | cons e es ih => cases e <;> simp [scheduler_calls, ih]

theorem consume_delayed_reset_do_reset (s : Session) (env : Env) :
    (consume_delayed_reset s env).2.1.delayed_reset.do_reset = false := by
  unfold consume_delayed_reset
  cases h : s.delayed_reset.do_reset
  · simpa using h
  · rfl

theorem provide_denoiser_params_delayed_reset (s : Session) :
    (provide_denoiser_params s).delayed_reset = s.delayed_reset := by
  unfold provide_denoiser_params
  split <;> rfl

theorem ask_scheduler_delayed_reset (t : Bool) (s : Session) (env : Env) :
    (ask_scheduler t s env).2.1.delayed_reset = s.delayed_reset := by
  unfold ask_scheduler
  split <;> rfl

theorem update_scene_for_work_delayed_reset (w : RenderWork) (s : Session) :
    (update_scene_for_work w s).delayed_reset = s.delayed_reset := by
  unfold update_scene_for_work
  split <;> rfl

theorem run_update_do_reset (s : Session) (env : Env) :
    (run_update_for_next_iteration s env).2.1.delayed_reset.do_reset = false := by
  simp [run_update_for_next_iteration, update_scene_for_work_delayed_reset,
    ask_scheduler_delayed_reset, provide_denoiser_params_delayed_reset,
    consume_delayed_reset_do_reset]

theorem after_reset_events_no_reset (s : Session) (env : Env) :
    applied_resets (after_reset_events s env) = [] := by
  unfold after_reset_events
  simp only [applied_resets_append]
  repeat' split
  all_goals simp [applied_resets]

theorem run_update_trace (s : Session) (env : Env) :
    (run_update_for_next_iteration s env).2.1.trace =
      s.trace ++
        (if s.delayed_reset.do_reset then
          [Event.reset_ s.delayed_reset.params s.delayed_reset.samples] else []) ++
        after_reset_events s env := by
  unfold run_update_for_next_iteration after_reset_events update_scene_for_work
    ask_scheduler provide_denoiser_params consume_delayed_reset update_scene
  cases h1 : s.delayed_reset.do_reset <;> cases h2 : s.read_bake_tile_cb <;>
    cases h3 : env.next_tile.1 <;>
    simp [h1, h2, h3, reset_, emit_trace, Session.emit] <;>
    split <;> simp

theorem run_update_applied_resets (s : Session) (env : Env) :
    applied_resets (run_update_for_next_iteration s env).2.1.trace =
      applied_resets s.trace ++
        (if s.delayed_reset.do_reset then
          [(s.delayed_reset.params, s.delayed_reset.samples)] else []) := by
  rw [run_update_trace, applied_resets_append, applied_resets_append,
    after_reset_events_no_reset]
  split <;> simp [applied_resets]

/-- C2. In `Session::run_update_for_next_iteration`: on return `do_reset` is false; the
state in which the scheduler is asked already has `do_reset` cleared; the events of the
call start with the single `reset_(delayed_reset.params, delayed_reset.samples)` when
`do_reset` was true on entry and contain no `reset_` otherwise, so every
`get_render_work` of that iteration comes after it. -/
theorem run_update_applies_pending_reset_once (s : Session) (env : Env) :
    (run_update_for_next_iteration s env).2.1.delayed_reset.do_reset = false ∧
    (provide_denoiser_params (consume_delayed_reset s env).2.1).delayed_reset.do_reset = false ∧
    (∃ rest, (run_update_for_next_iteration s env).2.1.trace =
        s.trace ++
          (if s.delayed_reset.do_reset then
            [Event.reset_ s.delayed_reset.params s.delayed_reset.samples] else []) ++ rest ∧
        applied_resets rest = []) ∧
    applied_resets (run_update_for_next_iteration s env).2.1.trace =
      applied_resets s.trace ++
        (if s.delayed_reset.do_reset then
          [(s.delayed_reset.params, s.delayed_reset.samples)] else []) := by
  refine ⟨run_update_do_reset s env, ?_, ⟨after_reset_events s env, run_update_trace s env,
    after_reset_events_no_reset s env⟩, run_update_applied_resets s env⟩
  rw [provide_denoiser_params_delayed_reset]
  exact consume_delayed_reset_do_reset s env

theorem reset_applied_resets (s : Session) (p : BufferParams) (n : Int) :
    applied_resets (reset s p n).trace = applied_resets s.trace := by
  simp [reset, emit_trace, applied_resets_append, applied_resets]

/-- C3. Two foreground resets `reset(A, sa)` then `reset(B, sb)` with no consumption in
between leave the `DelayedReset` record of `reset(B, sb)` alone, namely
(params = B, samples = sb, do_reset = true), and the next
`run_update_for_next_iteration` applies `reset_` exactly once, with (B, sb). -/
theorem reset_supersedes (s : Session) (A B : BufferParams) (sa sb : Int) (env : Env) :
    (reset (reset s A sa) B sb).delayed_reset = (reset s B sb).delayed_reset ∧
    (reset (reset s A sa) B sb).delayed_reset =
      { do_reset := true, params := B, samples := sb } ∧
    applied_resets (run_update_for_next_iteration (reset (reset s A sa) B sb) env).2.1.trace =
      applied_resets s.trace ++ [(B, sb)] ∧
    (run_update_for_next_iteration (reset (reset s A sa) B sb) env).2.1.delayed_reset.do_reset
      = false := by
  refine ⟨rfl, rfl, ?_, run_update_do_reset _ env⟩
  rw [run_update_applied_resets, reset_applied_resets, reset_applied_resets]
  rfl

/-! ## C5, C6: cancel -/

/-- C5, counterexample. On a session that was never started (no worker thread) and is
paused, `Session::cancel` returns with the cancel flag still unset and pause still true. -/
theorem cancel_without_worker_sets_nothing :
    paused_before_start.session_thread = none ∧
    (cancel paused_before_start).progress.get_cancel = false ∧
    (cancel paused_before_start).progress.get_cancel_message ≠ "Exiting" ∧
    (cancel paused_before_start).pause = true := by
  decide

/-- C5, amended. When a worker thread exists (`session_thread` is non-null, whether or not
the worker already left its loop), after `Session::cancel` the cancel flag is set with
message "Exiting" and the pause flag is false. -/
theorem cancel_sets_flags_when_worker_exists (s : Session)
    (h : s.session_thread.isSome = true) :
    (cancel s).progress.get_cancel = true ∧
    (cancel s).progress.get_cancel_message = "Exiting" ∧
    (cancel s).pause = false := by
  simp [cancel, h, wait, cancel_signal, Session.emit, Progress.set_cancel,
    Progress.get_cancel, Progress.get_cancel_message]

/-- Witness for C5 amended: a started session. -/
theorem cancel_sets_flags_when_worker_exists_witness :
    (start {}).session_thread.isSome = true ∧
    (cancel (start {})).progress.get_cancel = true ∧
    (cancel (start {})).progress.get_cancel_message = "Exiting" ∧
    (cancel (start {})).pause = false :=
  ⟨by decide, cancel_sets_flags_when_worker_exists (start {}) (by decide)⟩

/-- C6. After `Session::cancel`, from any state, `session_thread` is null (a worker that
existed was notified and then joined by `wait()`), and a second `cancel` changes nothing. -/
theorem cancel_leaves_no_worker (s : Session) :
    (cancel s).session_thread = none ∧ cancel (cancel s) = cancel s ∧
    (cancel s).trace =
      if s.session_thread.isSome then s.trace ++ [Event.notify_all, Event.join]
      else s.trace := by
  cases h : s.session_thread with
  | none => simp [cancel, h]
  | some t => simp [cancel, h, wait, cancel_signal, Session.emit]

/-! ## C9, C10: set_pause -/

theorem set_pause_pause (s : Session) (v : Bool) : (set_pause s v).pause = v := by
  cases v <;> cases hp : s.pause <;> cases ht : s.session_thread <;>
    simp [set_pause, hp, ht, update_status_time_pause, Session.emit]

theorem set_pause_session_thread (s : Session) (v : Bool) :
    (set_pause s v).session_thread = s.session_thread := by
  cases v <;> cases hp : s.pause <;> cases ht : s.session_thread <;>
    simp [set_pause, hp, ht, update_status_time, Session.emit]

/-- C9. With a worker thread and pause false, two `set_pause(true)` calls in a row notify
the pause condition exactly once in total: the first call notifies, the second does not. -/
theorem set_pause_true_twice_notifies_once (s : Session)
    (ht : s.session_thread.isSome = true) (hp : s.pause = false) :
    notifications (set_pause s true).trace = notifications s.trace + 1 ∧
    notifications (set_pause (set_pause s true) true).trace =
      notifications (set_pause s true).trace ∧
    notifications (set_pause (set_pause s true) true).trace = notifications s.trace + 1 := by
  have h1 : notifications (set_pause s true).trace = notifications s.trace + 1 := by
    rw [set_pause_trace]
    simp [ht, hp, notifications]
  have h2 : notifications (set_pause (set_pause s true) true).trace =
      notifications (set_pause s true).trace := by
    rw [set_pause_trace (set_pause s true)]
    simp [set_pause_pause]
  exact ⟨h1, h2, h2.trans h1⟩

/-- Witness for C9: a started, unpaused session. -/
theorem set_pause_true_twice_notifies_once_witness :
    (start {}).session_thread.isSome = true ∧ (start {}).pause = false ∧
    notifications (set_pause (set_pause (start {}) true) true).trace =
      notifications (start {}).trace + 1 :=
  ⟨by decide, by decide,
    (set_pause_true_twice_notifies_once (start {}) (by decide) (by decide)).2.2⟩

/-- C10. `Session::set_pause(v)` leaves the stored pause flag equal to `v`; when the flag
already was `v` it issues no notification, and when it differed it notifies once if a
worker thread exists (and not at all otherwise). -/
theorem set_pause_stores_and_notifies_on_change (s : Session) (v : Bool) :
    (set_pause s v).pause = v ∧
    notifications (set_pause s v).trace =
      if s.pause = v then notifications s.trace
      else if s.session_thread.isSome then notifications s.trace + 1
      else notifications s.trace := by
  refine ⟨set_pause_pause s v, ?_⟩
  rw [set_pause_trace]
  cases v <;> cases hp : s.pause <;> cases ht : s.session_thread <;>
    simp [notifications]

/-! ## Frame lemmas for the worker -/

theorem run_main_render_loop_of_cancel (fuel : Nat) (s : Session) (env : Env)
    (h : s.progress.get_cancel = true) :
    run_main_render_loop fuel s env = (Flow.returned, s, env) := by
  unfold run_main_render_loop
  simp [h]

theorem run_update_errors (s : Session) (env : Env) :
    (run_update_for_next_iteration s env).2.2.errors = env.errors := by
  unfold run_update_for_next_iteration ask_scheduler consume_delayed_reset
    Env.next_work Env.next_tile
  cases h1 : s.delayed_reset.do_reset <;> cases h2 : env.tiles <;> cases h3 : env.works <;>
    simp <;> split <;> simp [h3]

theorem run_wait_for_work_errors (s : Session) (env : Env) (w : RenderWork) :
    (run_wait_for_work s env w).2.2.errors = env.errors := by
  unfold run_wait_for_work
  split
  · rfl
  · simp only []
    split <;> rfl

theorem dispatch_render_work_errors (s : Session) (env : Env) (w : RenderWork) :
    (dispatch_render_work s env w).2.errors = env.errors.tail := by
  unfold dispatch_render_work Env.next_error
  cases h : env.errors <;> simp [h]

theorem dispatch_render_work_progress (s : Session) (env : Env) (w : RenderWork) :
    (dispatch_render_work s env w).1.progress =
      if env.errors.head?.getD "" ≠ "" then
        (((update_status_time (update_status_time s false false) false false).progress).set_error
          (env.errors.head?.getD "")).set_update
      else
        ((update_status_time (update_status_time s false false) false false).progress).set_update
      := by
  unfold dispatch_render_work Env.next_error
  cases h : env.errors
  · simp [update_status_time, Session.emit]
  · simp only [update_status_time, Session.emit]
    split <;> simp_all

/-! ## C7: device errors -/

theorem dispatch_render_work_cons_progress (s : Session) (env : Env) (w : RenderWork)
    (e : String) (es : List String) (h : env.errors = e :: es) (he : e ≠ "") :
    (dispatch_render_work s env w).1.progress.cancel = true ∧
    (dispatch_render_work s env w).1.progress.cancel_message = e ∧
    (dispatch_render_work s env w).1.progress.error = true ∧
    (dispatch_render_work s env w).1.progress.error_message = e := by
  rw [dispatch_render_work_progress]
  simp [h, he, Progress.set_error, Progress.set_update]

theorem loop_device_error (fuel : Nat) : ∀ (s : Session) (env : Env) (pre : List String)
    (msg : String) (post : List String), env.errors = pre ++ msg :: post →
    (∀ e ∈ pre, e = "") → msg ≠ "" →
    (∃ pre', (run_main_render_loop fuel s env).2.2.errors = pre' ++ msg :: post) ∨
    ((run_main_render_loop fuel s env).2.2.errors = post ∧
      (run_main_render_loop fuel s env).1 = Flow.returned ∧
      (run_main_render_loop fuel s env).2.1.progress.cancel = true ∧
      (run_main_render_loop fuel s env).2.1.progress.cancel_message = msg ∧
      (run_main_render_loop fuel s env).2.1.progress.error = true ∧
      (run_main_render_loop fuel s env).2.1.progress.error_message = msg ∧
      ∃ ws, dispatched (run_main_render_loop fuel s env).2.1.trace = dispatched s.trace ++ ws ∧
        ws.length = pre.length + 1) := by
  induction fuel with
  | zero =>
    intro s env pre msg post h _ _
    left
    rw [run_main_render_loop_zero]
    split <;> exact ⟨pre, h⟩
  | succ n ih =>
    intro s env pre msg post h hpre hmsg
    unfold run_main_render_loop
    cases hc : s.progress.get_cancel
    case true => exact Or.inl ⟨pre, by simpa using h⟩
    case false =>
      simp only [Bool.false_eq_true, ↓reduceIte]
      have hu := run_update_dispatched s env
      have hue := run_update_errors s env
      generalize run_update_for_next_iteration s env = u at hu hue ⊢
      obtain ⟨w, s1, env1⟩ := u
      simp only at hu hue ⊢
      cases hfin : (!w.toBool && s1.params.background)
      case true => exact Or.inl ⟨pre, by simp [hue, h]⟩
      case false =>
        simp only [Bool.false_eq_true, ↓reduceIte]
        have hw := run_wait_for_work_dispatched s1 env1 w
        have hwe := run_wait_for_work_errors s1 env1 w
        generalize run_wait_for_work s1 env1 w = r at hw hwe ⊢
        obtain ⟨o, s2, env2⟩ := r
        simp only at hw hwe ⊢
        have h2 : env2.errors = pre ++ msg :: post := by rw [hwe, hue, h]
        match o with
        | none => exact Or.inl ⟨pre, h2⟩
        | some true =>
          rcases ih s2 env2 pre msg post h2 hpre hmsg with hl | ⟨a, b, c, d, e, f, ws, g1, g2⟩
          · exact Or.inl hl
          · exact Or.inr ⟨a, b, c, d, e, f, ws, by simp only [g1, hw, hu], g2⟩
        | some false =>
          simp only
          cases hc2 : s2.progress.get_cancel
          case true => exact Or.inl ⟨pre, by simpa using h2⟩
          case false =>
            simp only [Bool.false_eq_true, ↓reduceIte]
            have hd := dispatch_render_work_dispatched s2 env2 w
            have hde := dispatch_render_work_errors s2 env2 w
            cases pre with
            | nil =>
              right
              simp only [List.nil_append] at h2
              obtain ⟨p1, p2, p3, p4⟩ :=
                dispatch_render_work_cons_progress s2 env2 w msg post h2 hmsg
              rw [run_main_render_loop_of_cancel _ _ _ p1]
              refine ⟨by simp [hde, h2], rfl, p1, p2, p3, p4, [w], ?_, rfl⟩
              simp only [hd, hw, hu]
            | cons e pre2 =>
              have he : e = "" := hpre e (List.mem_cons_self _ _)
              have h3 : (dispatch_render_work s2 env2 w).2.errors = pre2 ++ msg :: post := by
                rw [hde, h2]; rfl
              rcases ih _ _ pre2 msg post h3
                (fun x hx => hpre x (List.mem_cons_of_mem _ hx)) hmsg with
                hl | ⟨a, b, c, d, e, f, ws, g1, g2⟩
              · exact Or.inl hl
              · refine Or.inr ⟨a, b, c, d, e, f, w :: ws, ?_, by simp [g2]⟩
                rw [g1, hd, hw, hu]
                simp

theorem run_env (fuel : Nat) (s : Session) (env : Env) :
    (run fuel s env).2.2 =
      if s.progress.get_cancel then env
      else (run_main_render_loop fuel
        { s with progress := (s.progress.set_status "Waiting for render to start" "").reset_sample }
        env).2.2 := by
  unfold run
  cases hc : s.progress.get_cancel
  · simp only [Progress.get_cancel, Progress.set_status] at hc ⊢
    simp only [hc, Bool.not_false, ↓reduceIte, Bool.false_eq_true]
    split <;> [split; skip] <;> rfl
  · simp only [Progress.get_cancel, Progress.set_status] at hc ⊢
    simp [hc]

theorem append_cons_ne_self {α : Type} (pre : List α) (x : α) (post : List α) :
    pre ++ x :: post ≠ post := by
  intro h
  have := congrArg List.length h
  simp at this
  omega

/-- C7. If the device error message read after a dispatch of the worker is non-empty
(`msg`, read after `pre.length` dispatches that read an empty message; `hread` says the
run consumed the device messages up to and including `msg`), then the run has returned,
`progress.set_error` was called with exactly `msg` (so the cancel flag is set), that
dispatch was the last one, and `Session::run` ends with the status equal to the cancel
message, which is `msg`. -/
theorem device_error_cancels_run (fuel : Nat) (s : Session) (env : Env) (pre : List String)
    (msg : String) (post : List String) (h : env.errors = pre ++ msg :: post)
    (hpre : ∀ e ∈ pre, e = "") (hmsg : msg ≠ "")
    (hread : (run fuel s env).2.2.errors = post) :
    (run fuel s env).1 = Flow.returned ∧
    (run fuel s env).2.1.progress.get_cancel = true ∧
    (run fuel s env).2.1.progress.error_message = msg ∧
    (run fuel s env).2.1.progress.get_cancel_message = msg ∧
    (run fuel s env).2.1.progress.status = msg ∧
    ∃ ws, dispatched (run fuel s env).2.1.trace = dispatched s.trace ++ ws ∧
      ws.length = pre.length + 1 := by
  rw [run_env] at hread
  cases hc : s.progress.get_cancel
  case true =>
    rw [hc] at hread
    simp only [↓reduceIte] at hread
    exact absurd (h.symm.trans hread) (append_cons_ne_self pre msg post)
  case false =>
    rw [hc] at hread
    simp only [Bool.false_eq_true, ↓reduceIte] at hread
    rcases loop_device_error fuel
      { s with progress := (s.progress.set_status "Waiting for render to start" "").reset_sample }
      env pre msg post h hpre hmsg with ⟨pre', hl⟩ | ⟨_, b, c, d, e, f, ws, g1, g2⟩
    · exact absurd (hl.symm.trans hread) (append_cons_ne_self pre' msg post)
    · unfold run
      simp only [Progress.get_cancel] at hc
      simp only [Progress.get_cancel, Progress.set_status, Progress.reset_sample, hc,
        Bool.not_false, ↓reduceIte] at b c d e f g1 ⊢
      simp only [b, c, ↓reduceIte]
      exact ⟨trivial, trivial, f, d, d, ws, g1, g2⟩

/-- Witness for C7: the second dispatch reads "Out of memory". -/
theorem device_error_cancels_run_witness :
    failing_device_env.errors = [""] ++ "Out of memory" :: [] ∧
    (run 5 background_session failing_device_env).2.2.errors = [] ∧
    (run 5 background_session failing_device_env).1 = Flow.returned ∧
    (run 5 background_session failing_device_env).2.1.progress.get_cancel = true ∧
    (run 5 background_session failing_device_env).2.1.progress.status = "Out of memory" ∧
    (dispatched (run 5 background_session failing_device_env).2.1.trace).length = 2 := by
  have h := device_error_cancels_run 5 background_session failing_device_env [""]
    "Out of memory" [] rfl (by decide) (by decide) (by decide)
  obtain ⟨h1, h2, _, _, h5, ws, h6, h7⟩ := h
  refine ⟨rfl, by decide, h1, h2, h5, ?_⟩
  rw [h6]
  simp [h7, background_session, dispatched]


/-! ## C8: background completion -/

theorem pause_waits_append (a b : List Event) :
    pause_waits (a ++ b) = pause_waits a + pause_waits b := by
  simp [pause_waits]

theorem next_work_fst (env : Env) : env.next_work.1 = env.works.head?.getD {} := by
  unfold Env.next_work
  cases env.works <;> rfl

theorem next_work_works (env : Env) : env.next_work.2.works = env.works.tail := by
  unfold Env.next_work
  cases h : env.works <;> simp [h]

theorem next_work_errors (env : Env) : env.next_work.2.errors = env.errors := by
  unfold Env.next_work
  cases h : env.works <;> simp

theorem consume_delayed_reset_have_tiles (s : Session) (env : Env)
    (hr : s.delayed_reset.do_reset = true → env.next_tile.1 = true) :
    (consume_delayed_reset s env).1 = true := by
  unfold consume_delayed_reset
  cases h : s.delayed_reset.do_reset
  · simp
  · simpa using hr h

theorem consume_delayed_reset_works (s : Session) (env : Env) :
    (consume_delayed_reset s env).2.2.works = env.works := by
  unfold consume_delayed_reset Env.next_tile
  cases h : s.delayed_reset.do_reset <;> cases h2 : env.tiles <;> simp

theorem consume_delayed_reset_cancel (s : Session) (env : Env) :
    (consume_delayed_reset s env).2.1.progress.cancel = s.progress.cancel := by
  unfold consume_delayed_reset
  cases h : s.delayed_reset.do_reset <;>
    simp [reset_, Session.emit, Progress.reset_sample, Progress.set_total_pixel_samples]

theorem provide_denoiser_params_progress (s : Session) :
    (provide_denoiser_params s).progress = s.progress := by
  unfold provide_denoiser_params
  split <;> rfl

theorem ask_scheduler_progress (t : Bool) (s : Session) (env : Env) :
    (ask_scheduler t s env).2.1.progress = s.progress := by
  unfold ask_scheduler
  split <;> rfl

theorem update_scene_for_work_progress (w : RenderWork) (s : Session) :
    (update_scene_for_work w s).progress = s.progress := by
  unfold update_scene_for_work
  split <;> rfl

theorem run_update_cancel (s : Session) (env : Env) :
    (run_update_for_next_iteration s env).2.1.progress.cancel = s.progress.cancel := by
  simp [run_update_for_next_iteration, update_scene_for_work_progress,
    ask_scheduler_progress, provide_denoiser_params_progress, consume_delayed_reset_cancel]

theorem after_reset_events_pause_waits (s : Session) (env : Env) :
    pause_waits (after_reset_events s env) = 0 := by
  unfold after_reset_events
  simp only [pause_waits_append]
  repeat' split
  all_goals simp [pause_waits]

theorem after_reset_events_scheduler_calls (s : Session) (env : Env) :
    scheduler_calls (after_reset_events s env) =
      if (consume_delayed_reset s env).1 then
        [(consume_delayed_reset s env).2.2.next_work.1] else [] := by
  unfold after_reset_events
  simp only [scheduler_calls_append]
  repeat' split
  all_goals simp_all [scheduler_calls]

theorem run_update_pause_waits (s : Session) (env : Env) :
    pause_waits (run_update_for_next_iteration s env).2.1.trace = pause_waits s.trace := by
  rw [run_update_trace, pause_waits_append, pause_waits_append, after_reset_events_pause_waits]
  split <;> simp [pause_waits]

theorem run_update_work (s : Session) (env : Env)
    (hr : s.delayed_reset.do_reset = true → env.next_tile.1 = true) :
    (run_update_for_next_iteration s env).1 = env.works.head?.getD {} ∧
    (run_update_for_next_iteration s env).2.2.works = env.works.tail ∧
    scheduler_calls (run_update_for_next_iteration s env).2.1.trace =
      scheduler_calls s.trace ++ [env.works.head?.getD {}] := by
  have ht := consume_delayed_reset_have_tiles s env hr
  have hw := consume_delayed_reset_works s env
  refine ⟨?_, ?_, ?_⟩
  · simp [run_update_for_next_iteration, ask_scheduler, ht, next_work_fst, hw]
  · simp [run_update_for_next_iteration, ask_scheduler, ht, next_work_works, hw]
  · rw [run_update_trace, scheduler_calls_append, scheduler_calls_append,
      after_reset_events_scheduler_calls, ht, next_work_fst, hw]
    split <;> simp [scheduler_calls]

theorem run_wait_for_work_background (s : Session) (env : Env) (w : RenderWork)
    (hb : s.params.background = true) :
    run_wait_for_work s env w = (some false, s, env) := by
  unfold run_wait_for_work
  simp [hb]

theorem dispatch_render_work_frame (s : Session) (env : Env) (w : RenderWork) :
    (dispatch_render_work s env w).1.params = s.params ∧
    (dispatch_render_work s env w).1.delayed_reset = s.delayed_reset ∧
    (dispatch_render_work s env w).2.works = env.works ∧
    scheduler_calls (dispatch_render_work s env w).1.trace = scheduler_calls s.trace ∧
    pause_waits (dispatch_render_work s env w).1.trace = pause_waits s.trace := by
  unfold dispatch_render_work Env.next_error
  cases h : env.errors with
  | nil =>
    simp [update_status_time, Session.emit, scheduler_calls_append, scheduler_calls,
      pause_waits]
  | cons e es =>
    simp only [update_status_time, Session.emit]
    split <;> simp [scheduler_calls_append, scheduler_calls, pause_waits]

theorem dispatch_render_work_no_error (s : Session) (env : Env) (w : RenderWork)
    (h : env.errors.head?.getD "" = "") :
    (dispatch_render_work s env w).1.progress.cancel = s.progress.cancel := by
  rw [dispatch_render_work_progress]
  simp [h, Progress.set_update, update_status_time_cancel]

theorem background_loop_finishes (ws : List RenderWork) : ∀ (fuel : Nat) (s : Session)
    (env : Env) (f : RenderWork) (rest : List RenderWork),
    s.params.background = true → s.progress.cancel = false →
    (s.delayed_reset.do_reset = true → env.next_tile.1 = true) →
    env.works = ws ++ f :: rest → (∀ w ∈ ws, w.toBool = true) → f.toBool = false →
    (∀ e ∈ env.errors.take ws.length, e = "") → ws.length < fuel →
    (run_main_render_loop fuel s env).1 = Flow.returned ∧
    (run_main_render_loop fuel s env).2.1.progress.status = "Finished" ∧
    (run_main_render_loop fuel s env).2.1.progress.cancel = false ∧
    dispatched (run_main_render_loop fuel s env).2.1.trace = dispatched s.trace ++ ws ∧
    scheduler_calls (run_main_render_loop fuel s env).2.1.trace =
      scheduler_calls s.trace ++ ws ++ [f] ∧
    pause_waits (run_main_render_loop fuel s env).2.1.trace = pause_waits s.trace ∧
    (run_main_render_loop fuel s env).2.2.works = rest := by
  induction ws with
  | nil =>
    intro fuel s env f rest hb hc hr hw _ hf _ hfuel
    obtain ⟨n, rfl⟩ : ∃ n, fuel = n + 1 := ⟨fuel - 1, by simp at hfuel; omega⟩
    unfold run_main_render_loop
    obtain ⟨u1, u2, u3⟩ := run_update_work s env hr
    have u4 := run_update_params s env
    have u5 := run_update_cancel s env
    have u6 := run_update_dispatched s env
    have u7 := run_update_pause_waits s env
    simp only [List.nil_append] at hw
    rw [hw] at u1 u2 u3
    simp only [List.head?_cons, Option.getD_some, List.tail_cons] at u1 u2 u3
    generalize run_update_for_next_iteration s env = u at u1 u2 u3 u4 u5 u6 u7 ⊢
    obtain ⟨w, s1, env1⟩ := u
    simp only at u1 u2 u3 u4 u5 u6 u7 ⊢
    subst u1
    simp [Progress.get_cancel, hc, hf, u4, hb, Progress.set_status, u5, u6, u3, u7, u2]
  | cons w0 ws ih =>
    intro fuel s env f rest hb hc hr hw hws hf he hfuel
    obtain ⟨n, rfl⟩ : ∃ n, fuel = n + 1 := ⟨fuel - 1, by simp at hfuel; omega⟩
    unfold run_main_render_loop
    obtain ⟨u1, u2, u3⟩ := run_update_work s env hr
    have u4 := run_update_params s env
    have u5 := run_update_cancel s env
    have u6 := run_update_dispatched s env
    have u7 := run_update_pause_waits s env
    have u8 := run_update_do_reset s env
    have u9 := run_update_errors s env
    rw [hw] at u1 u2 u3
    simp only [List.cons_append, List.head?_cons, Option.getD_some, List.tail_cons] at u1 u2 u3
    generalize run_update_for_next_iteration s env = u at u1 u2 u3 u4 u5 u6 u7 u8 u9 ⊢
    obtain ⟨w, s1, env1⟩ := u
    simp only at u1 u2 u3 u4 u5 u6 u7 u8 u9 ⊢
    subst u1
    have hwt : w.toBool = true := hws w (List.mem_cons_self _ _)
    have hb1 : s1.params.background = true := by rw [u4]; exact hb
    rw [run_wait_for_work_background s1 env1 w hb1]
    obtain ⟨d1, d2, d3, d4, d5⟩ := dispatch_render_work_frame s1 env1 w
    have d6 := dispatch_render_work_dispatched s1 env1 w
    have d7 := dispatch_render_work_errors s1 env1 w
    have hhead : env1.errors.head?.getD "" = "" := by
      rw [u9]
      cases hE : env.errors with
      | nil => rfl
      | cons e es =>
        have := he e (by simp [hE])
        simp [this]
    have d8 := dispatch_render_work_no_error s1 env1 w hhead
    have hrec := ih n (dispatch_render_work s1 env1 w).1 (dispatch_render_work s1 env1 w).2
      f rest (by rw [d1]; exact hb1) (by rw [d8, u5]; exact hc)
      (by rw [d2, u8]; intro h; cases h) (by rw [d3, u2]) 
      (fun x hx => hws x (List.mem_cons_of_mem _ hx)) hf
      (by
        intro e hmem
        rw [d7, u9] at hmem
        apply he e
        cases hE : env.errors with
        | nil => simp [hE] at hmem
        | cons e0 es =>
          simp only [hE, List.tail_cons] at hmem
          simp only [List.length_cons, List.take_succ_cons, List.mem_cons]
          exact Or.inr hmem)
      (by simp at hfuel; omega)
    obtain ⟨r1, r2, r3, r4, r5, r6, r7⟩ := hrec
    simp only [Progress.get_cancel, hc, u5, hwt, Bool.not_true, Bool.false_and,
      Bool.false_eq_true, ↓reduceIte]
    refine ⟨r1, r2, r3, ?_, ?_, ?_, r7⟩
    · rw [r4, d6, u6]; simp
    · rw [r5, d4, u3]; simp
    · rw [r6, d5, u7]

/-- C8. In background mode with the cancel flag unset and no device error, when the
scheduler returns the truthy works `ws` and then a falsy work `f` (a pending reset, if any,
finding a first big tile), `run_main_render_loop` and `Session::run` return with status
"Finished", exactly the works `ws` were dispatched (not `f`), and the worker never waited
on the pause condition, whatever the pause flag is. -/
theorem background_run_finishes (fuel : Nat) (s : Session) (env : Env)
    (ws : List RenderWork) (f : RenderWork) (rest : List RenderWork)
    (hb : s.params.background = true) (hc : s.progress.get_cancel = false)
    (hr : s.delayed_reset.do_reset = true → env.next_tile.1 = true)
    (hw : env.works = ws ++ f :: rest) (hws : ∀ w ∈ ws, w.toBool = true)
    (hf : f.toBool = false) (he : ∀ e ∈ env.errors.take ws.length, e = "")
    (hfuel : ws.length < fuel) :
    ((run_main_render_loop fuel s env).1 = Flow.returned ∧
      (run_main_render_loop fuel s env).2.1.progress.status = "Finished" ∧
      dispatched (run_main_render_loop fuel s env).2.1.trace = dispatched s.trace ++ ws ∧
      pause_waits (run_main_render_loop fuel s env).2.1.trace = pause_waits s.trace) ∧
    (run fuel s env).1 = Flow.returned ∧
    (run fuel s env).2.1.progress.status = "Finished" ∧
    (run fuel s env).2.1.progress.get_cancel = false ∧
    dispatched (run fuel s env).2.1.trace = dispatched s.trace ++ ws ∧
    scheduler_calls (run fuel s env).2.1.trace = scheduler_calls s.trace ++ ws ++ [f] ∧
    pause_waits (run fuel s env).2.1.trace = pause_waits s.trace := by
  obtain ⟨a1, a2, _, a4, _, a6, _⟩ :=
    background_loop_finishes ws fuel s env f rest hb hc hr hw hws hf he hfuel
  refine ⟨⟨a1, a2, a4, a6⟩, ?_⟩
  obtain ⟨b1, b2, b3, b4, b5, b6, _⟩ :=
    background_loop_finishes ws fuel
      { s with progress := (s.progress.set_status "Waiting for render to start" "").reset_sample }
      env f rest hb hc hr hw hws hf he hfuel
  unfold run
  simp only [Progress.get_cancel] at hc
  simp only [Progress.get_cancel, Progress.set_status, Progress.reset_sample, hc,
    Bool.not_false, ↓reduceIte] at b1 b2 b3 b4 b5 b6 ⊢
  simp only [b1, b3, Bool.false_eq_true, ↓reduceIte, Progress.set_update]
  exact ⟨trivial, b2, trivial, b4, b5, b6⟩

/-- Witness for C8: a paused background session, two works and then no work. -/
theorem background_run_finishes_witness :
    paused_background_session.pause = true ∧
    (run 3 paused_background_session two_samples_env).1 = Flow.returned ∧
    (run 3 paused_background_session two_samples_env).2.1.progress.status = "Finished" ∧
    dispatched (run 3 paused_background_session two_samples_env).2.1.trace =
      [one_sample 0, one_sample 1] ∧
    pause_waits (run 3 paused_background_session two_samples_env).2.1.trace = 0 := by
  have h := background_run_finishes 3 paused_background_session two_samples_env
    [one_sample 0, one_sample 1] {} [] (by decide) (by decide) (by decide) rfl
    (by decide) (by decide) (by decide) (by decide)
  exact ⟨rfl, h.2.1, h.2.2.1, h.2.2.2.2.1, h.2.2.2.2.2.2⟩

/-! ## C4: sample coverage of the scheduler -/

theorem range_map_add (k c : Nat) :
    (List.range c).map (fun (i : Nat) => ((k : Int) + (i : Int))) =
      (List.range' k c).map Int.ofNat := by
  rw [List.range'_eq_map_range, List.map_map]
  apply List.map_congr_left
  intro i _
  simp

theorem get_render_work_step (r : RenderScheduler) (chunk : Int) (halve : Bool)
    (h : r.samples_rendered_so_far < r.total_samples) :
    r.get_render_work false chunk halve =
      ({ resolution_divider := r.resolution_divider,
         sample_start := r.samples_rendered_so_far,
         sample_count := max 1 (min chunk (r.total_samples - r.samples_rendered_so_far)) },
       { r with
         samples_rendered_so_far := r.samples_rendered_so_far +
           max 1 (min chunk (r.total_samples - r.samples_rendered_so_far)),
         resolution_divider :=
           if halve then max 1 (Int.tdiv r.resolution_divider 2)
           else r.resolution_divider }) := by
  unfold RenderScheduler.get_render_work
  have : ¬ r.samples_rendered_so_far ≥ r.total_samples := not_le.mpr h
  simp [this]

theorem get_render_work_done (r : RenderScheduler) (chunk : Int) (halve : Bool)
    (h : r.total_samples ≤ r.samples_rendered_so_far) :
    r.get_render_work false chunk halve =
      ({ resolution_divider := r.resolution_divider,
         sample_start := r.samples_rendered_so_far, sample_count := 0 }, r) := by
  unfold RenderScheduler.get_render_work
  simp [h]

theorem scheduler_results_cover (inputs : List (Int × Bool)) : ∀ (r : RenderScheduler)
    (k N : Nat), r.samples_rendered_so_far = k → r.total_samples = N → k ≤ N →
    1 ≤ r.resolution_divider → N - k < inputs.length →
    (((scheduler_results r inputs).takeWhile RenderWork.toBool).flatMap RenderWork.samples =
      (List.range' k (N - k)).map Int.ofNat) ∧
    ∃ f rest, scheduler_results r inputs =
        (scheduler_results r inputs).takeWhile RenderWork.toBool ++ f :: rest ∧
      f.toBool = false ∧
      ((scheduler_results r inputs).takeWhile RenderWork.toBool).length ≤ N - k := by
  induction inputs with
  | nil => intro r k N _ _ _ _ h; simp at h
  | cons c cs ih =>
    intro r k N hk hN hkN hd hlen
    by_cases hdone : k = N
    · subst hdone
      have hge : r.total_samples ≤ r.samples_rendered_so_far := by rw [hk, hN]
      simp only [scheduler_results, get_render_work_done r c.1 c.2 hge]
      simp [RenderWork.toBool]
    · have hlt : r.samples_rendered_so_far < r.total_samples := by
        rw [hk, hN]; omega
      obtain ⟨cnt, hcnt, hc1, hc2⟩ : ∃ cnt : Nat,
          max 1 (min c.1 (r.total_samples - r.samples_rendered_so_far)) = (cnt : Int) ∧
          1 ≤ cnt ∧ cnt ≤ N - k := by
        refine ⟨(max 1 (min c.1 (r.total_samples - r.samples_rendered_so_far))).toNat, ?_, ?_, ?_⟩
        · rw [Int.toNat_of_nonneg]; omega
        · rw [hk, hN]; omega
        · rw [hk, hN]; omega
      have hq := get_render_work_step r c.1 c.2 hlt
      rw [hcnt] at hq
      have hstep := ih (r.get_render_work false c.1 c.2).2 (k + cnt) N
        (by rw [hq]; simp [hk])
        (by rw [hq]; exact hN)
        (by omega)
        (by
          rw [hq]
          show 1 ≤ (if c.2 = true then max 1 (Int.tdiv r.resolution_divider 2)
            else r.resolution_divider)
          split
          · exact le_max_left _ _
          · exact hd)
        (by simp at hlen; omega)
      have htruthy : (r.get_render_work false c.1 c.2).1.toBool = true := by
        rw [hq]
        simp only [RenderWork.toBool, Bool.and_eq_true, decide_eq_true_eq]
        omega
      have hsamples : (r.get_render_work false c.1 c.2).1.samples =
          (List.range' k cnt).map Int.ofNat := by
        rw [hq]
        simp only [RenderWork.samples, hk, Int.toNat_ofNat]
        exact range_map_add k cnt
      obtain ⟨h1, f, rest, h2, h3, h4⟩ := hstep
      simp only [scheduler_results, List.takeWhile_cons, htruthy, ↓reduceIte,
        List.flatMap_cons, hsamples, h1]
      refine ⟨?_, f, rest, ?_, h3, ?_⟩
      · rw [← List.map_append]
        congr 1
        have : N - k = (N - (k + cnt)) + cnt := by omega
        rw [this, List.range'_append_1]
      · rw [List.cons_append, ← h2]
      · simp only [List.length_cons]; omega

/-- C4. Against the spec-modelled scheduler: for a sample target `N`, whatever the policy
inputs of the successive `get_render_work()` calls, the sample ranges of the results
returned before the first falsy one enumerate 0, ..., N-1, each index exactly once; a
falsy result follows them; and the background session loop asks the scheduler for exactly
these results, in order, and dispatches each truthy one once. -/
theorem scheduler_covers_each_sample_once (N : Nat) (r : RenderScheduler)
    (inputs : List (Int × Bool)) (fuel : Nat) (s : Session) (env : Env)
    (h0 : r.samples_rendered_so_far = 0) (hN : r.total_samples = N)
    (hd : 1 ≤ r.resolution_divider) (hlen : N < inputs.length)
    (hb : s.params.background = true) (hc : s.progress.get_cancel = false)
    (hr : s.delayed_reset.do_reset = false) (hw : env.works = scheduler_results r inputs)
    (he : ∀ e ∈ env.errors, e = "") (hfuel : N < fuel) :
    ((scheduler_results r inputs).takeWhile RenderWork.toBool).flatMap RenderWork.samples =
      (List.range N).map Int.ofNat ∧
    ∃ f rest, scheduler_results r inputs =
        (scheduler_results r inputs).takeWhile RenderWork.toBool ++ f :: rest ∧
      f.toBool = false ∧
      scheduler_calls (run_main_render_loop fuel s env).2.1.trace =
        scheduler_calls s.trace ++
          (scheduler_results r inputs).takeWhile RenderWork.toBool ++ [f] ∧
      dispatched (run_main_render_loop fuel s env).2.1.trace =
        dispatched s.trace ++ (scheduler_results r inputs).takeWhile RenderWork.toBool := by
  obtain ⟨h1, f, rest, h2, h3, h4⟩ :=
    scheduler_results_cover inputs r 0 N (by simpa using h0) hN (Nat.zero_le _) hd
      (by simpa using hlen)
  refine ⟨?_, f, rest, h2, h3, ?_⟩
  · rw [h1, List.range_eq_range']
    simp
  · obtain ⟨_, _, _, a4, a5, _, _⟩ :=
      background_loop_finishes ((scheduler_results r inputs).takeWhile RenderWork.toBool)
        fuel s env f rest hb hc (by rw [hr]; intro h; cases h) (hw.trans h2)
        (fun w hw => (List.mem_takeWhile_imp hw))
        h3 (fun e hmem => he e (List.mem_of_mem_take hmem))
        (by simp at h4; omega)
    exact ⟨a5, a4⟩

/-- Witness for C4: three samples, handed out as two samples and then one. -/
theorem scheduler_covers_each_sample_once_witness :
    ((scheduler_results three_sample_scheduler four_calls).takeWhile
        RenderWork.toBool).flatMap RenderWork.samples = [0, 1, 2] ∧
    dispatched (run_main_render_loop 4 background_session
        { works := scheduler_results three_sample_scheduler four_calls }).2.1.trace =
      [{ resolution_divider := 1, sample_start := 0, sample_count := 2 },
       { resolution_divider := 1, sample_start := 2, sample_count := 1 }] := by
  have h := scheduler_covers_each_sample_once 3 three_sample_scheduler four_calls 4
    background_session { works := scheduler_results three_sample_scheduler four_calls }
    rfl rfl (by decide) (by decide) rfl rfl rfl rfl (by simp) (by decide)
  obtain ⟨h1, f, rest, h2, h3, h4, h5⟩ := h
  refine ⟨by rw [h1]; rfl, ?_⟩
  rw [h5]
  decide

/-! ## C11, C12, C13: pause, sample count and worker life cycle from the foreground -/

/-- C11. With no worker thread, `set_pause(true)` issues no notification and sets the
progress status to "Rendering Paused"; `set_pause(false)` issues no notification and
leaves the progress status unchanged. -/
theorem set_pause_without_worker (s : Session) (h : s.session_thread = none) :
    notifications (set_pause s true).trace = notifications s.trace ∧
    (set_pause s true).progress.status = "Rendering Paused" ∧
    notifications (set_pause s false).trace = notifications s.trace ∧
    (set_pause s false).progress.status = s.progress.status ∧
    (set_pause s false).progress = s.progress := by
  refine ⟨?_, ?_, ?_, ?_, ?_⟩
  · rw [set_pause_trace]; simp [h]
  · cases hp : s.pause <;>
      simp [set_pause, h, hp, update_status_time, Progress.set_status]
  · rw [set_pause_trace]; simp [h]
  · cases hp : s.pause <;> simp [set_pause, h, hp]
  · cases hp : s.pause <;> simp [set_pause, h, hp]

/-- Witness for C11: a session that was never started. -/
theorem set_pause_without_worker_witness :
    ({} : Session).session_thread = none ∧
    notifications (set_pause ({} : Session) true).trace = 0 ∧
    (set_pause ({} : Session) true).progress.status = "Rendering Paused" :=
  ⟨rfl, (set_pause_without_worker {} rfl).1, (set_pause_without_worker {} rfl).2.1⟩

/-- C12, counterexample. After the worker consumed a reset to 32 samples on a session
configured with 16, `set_samples(16)` leaves the scheduler target and the tile manager
sample count at 32. -/
theorem set_samples_same_value_keeps_reset_target :
    session_after_reset_to_32.params.samples = 16 ∧
    (set_samples session_after_reset_to_32 16).render_scheduler_.total_samples = 32 ∧
    (set_samples session_after_reset_to_32 16).tile_manager.num_samples = 32 ∧
    (set_samples session_after_reset_to_32 16).params.samples = 16 := by
  decide

/-- C12, amended. For every state and every `n`: when `n` differs from `params.samples`,
after `set_samples(n)` the scheduler target, `params.samples` and the tile manager sample
count are `n`; when `n` equals `params.samples` the call changes nothing at all, so a
scheduler target and a tile manager count that differ from `params.samples` stay as they
are; in both cases the `DelayedReset` record and the progress counters are unchanged. -/
theorem set_samples_updates_when_changed (s : Session) (n : Int) :
    (n ≠ s.params.samples →
      (set_samples s n).render_scheduler_.total_samples = n ∧
      (set_samples s n).params.samples = n ∧
      (set_samples s n).tile_manager.num_samples = n) ∧
    (n = s.params.samples → set_samples s n = s) ∧
    (set_samples s n).delayed_reset = s.delayed_reset ∧
    (set_samples s n).progress = s.progress := by
  by_cases h : n = s.params.samples
  · simp [set_samples, h]
  · simp [set_samples, h, Session.emit, RenderScheduler.set_total_samples,
      TileManager.set_samples]

/-- Witness for C12 amended: on a session configured with 16 samples whose scheduler was
reset to 32, raising the samples to 64 reaches the scheduler and setting 16 again changes
nothing. -/
theorem set_samples_updates_when_changed_witness :
    (64 : Int) ≠ session_after_reset_to_32.params.samples ∧
    (set_samples session_after_reset_to_32 64).render_scheduler_.total_samples = 64 ∧
    (set_samples session_after_reset_to_32 64).tile_manager.num_samples = 64 ∧
    (16 : Int) = session_after_reset_to_32.params.samples ∧
    set_samples session_after_reset_to_32 16 = session_after_reset_to_32 :=
  ⟨by decide,
    ((set_samples_updates_when_changed session_after_reset_to_32 64).1 (by decide)).1,
    ((set_samples_updates_when_changed session_after_reset_to_32 64).1 (by decide)).2.2,
    by decide, (set_samples_updates_when_changed session_after_reset_to_32 16).2.1 (by decide)⟩

theorem live_workers_append (a b : List Event) :
    live_workers (a ++ b) = live_workers a + live_workers b := by
  simp only [live_workers, List.count_append]
  push_cast
  ring

theorem apply_lifecycle_live (s : Session) (c : LifecycleCall) :
    live_workers (apply_lifecycle s c).trace -
        (if (apply_lifecycle s c).session_thread.isSome then 1 else 0) =
      live_workers s.trace - (if s.session_thread.isSome then 1 else 0) := by
  cases c <;> cases h : s.session_thread <;>
    simp [apply_lifecycle, start, cancel, wait, cancel_signal, h, emit_trace, Session.emit,
      live_workers_append] <;>
    simp [live_workers] <;> ring

theorem lifecycle_live (calls : List LifecycleCall) (s : Session) :
    live_workers (lifecycle s calls).trace -
        (if (lifecycle s calls).session_thread.isSome then 1 else 0) =
      live_workers s.trace - (if s.session_thread.isSome then 1 else 0) := by
  induction calls generalizing s with
  | nil => rfl
  | cons c cs ih =>
    simp only [lifecycle, List.foldl_cons] at ih ⊢
    rw [ih, apply_lifecycle_live]

/-- C13. `Session::start` spawns a worker only when none exists: `start(); start()` equals
`start()`, a session that has a worker is left unchanged, and after any sequence of
`start` / `cancel` / `wait` calls on a new session the number of workers spawned and not
yet joined is 1 if `session_thread` is set and 0 otherwise, hence at most one. -/
theorem start_spawns_at_most_one_worker (s : Session) (p : SessionParams)
    (calls : List LifecycleCall) :
    start (start s) = start s ∧
    (if s.session_thread.isSome then start s = s
      else (start s).session_thread = some () ∧ (start s).trace = s.trace ++ [Event.spawn]) ∧
    live_workers (lifecycle { params := p } calls).trace =
      (if (lifecycle { params := p } calls).session_thread.isSome then 1 else 0) ∧
    live_workers (lifecycle { params := p } calls).trace ≤ 1 := by
  have h := lifecycle_live calls { params := p }
  have h3 : live_workers (lifecycle { params := p } calls).trace =
      (if (lifecycle { params := p } calls).session_thread.isSome then 1 else 0) := by
    have e1 : live_workers ({ params := p } : Session).trace = 0 := rfl
    have e2 : ({ params := p } : Session).session_thread.isSome = false := rfl
    rw [e1, e2] at h
    simp only [Bool.false_eq_true, if_false] at h
    linarith
  refine ⟨?_, ?_, h3, ?_⟩
  · cases h : s.session_thread <;> simp [start, h, Session.emit]
  · cases h : s.session_thread <;> simp [start, h, Session.emit]
  · rw [h3]; split <;> simp

/-! ## C15, C16: waiting for work -/

theorem update_status_time_paused (s : Session) (b : Bool) :
    (update_status_time s true b).progress.status = "Rendering Paused" := by
  simp [update_status_time, Progress.set_status]

theorem apply_call_pause_waits (s : Session) (c : Call) :
    pause_waits (apply_call s c).trace = pause_waits s.trace := by
  cases c with
  | set_pause v =>
    simp only [apply_call, set_pause_trace]
    split <;> simp [pause_waits]
  | reset p n => simp [apply_call, reset, emit_trace, pause_waits]
  | set_samples n =>
    simp only [apply_call, set_samples]
    split
    · simp [emit_trace, pause_waits]
    · rfl
  | cancel =>
    simp only [apply_call, cancel_signal]
    split
    · simp [emit_trace, pause_waits]
    · rfl

theorem foreground_pause_waits (calls : List Call) (s : Session) :
    pause_waits (foreground s calls).trace = pause_waits s.trace := by
  induction calls generalizing s with
  | nil => rfl
  | cons c cs ih =>
    simp only [foreground, List.foldl_cons] at ih ⊢
    rw [ih, apply_call_pause_waits]

theorem woken_pause (no_work : Bool) (s : Session) (calls : List Call) :
    (woken no_work s calls).pause = (foreground (s.emit Event.wait_pause) calls).pause := by
  simp [woken, update_status_time_pause]

theorem woken_pause_waits (no_work : Bool) (s : Session) (calls : List Call) :
    pause_waits (woken no_work s calls).trace = pause_waits s.trace + 1 := by
  simp [woken, update_status_time_trace, foreground_pause_waits, emit_trace,
    pause_waits_append]
  simp [pause_waits]

theorem woken_status (no_work : Bool) (s : Session) (calls : List Call)
    (h : (woken no_work s calls).pause = true) :
    (woken no_work s calls).progress.status = "Rendering Paused" := by
  rw [woken_pause] at h
  simp [woken, h, update_status_time, Progress.set_status, Progress.set_update]

theorem wait_while_paused_cons (no_work : Bool) (s : Session) (calls : List Call)
    (rest : List (List Call)) :
    wait_while_paused no_work s (calls :: rest) =
      if (woken no_work s calls).pause = true then
        wait_while_paused no_work (woken no_work s calls) rest
      else (true, woken no_work s calls, rest) := by
  cases hp : (woken no_work s calls).pause <;>
    simp [wait_while_paused, hp] <;> simp [woken] at hp ⊢ <;> simp [hp]

theorem wait_while_paused_waits (no_work : Bool) (wakes : List (List Call)) (s : Session) :
    pause_waits (wait_while_paused no_work s wakes).2.1.trace =
      pause_waits s.trace + (wakes.length - (wait_while_paused no_work s wakes).2.2.length) +
        (if (wait_while_paused no_work s wakes).1 then 0 else 1) ∧
    (wait_while_paused no_work s wakes).2.2.length +
      (if (wait_while_paused no_work s wakes).1 then 1 else 0) ≤ wakes.length := by
  induction wakes generalizing s with
  | nil => simp [wait_while_paused, emit_trace, pause_waits]
  | cons c cs ih =>
    rw [wait_while_paused_cons]
    split
    · obtain ⟨h1, h2⟩ := ih (woken no_work s c)
      refine ⟨?_, by simp; omega⟩
      rw [h1, woken_pause_waits]
      simp only [List.length_cons]
      omega
    · simp [woken_pause_waits]

theorem wait_while_paused_outcome (no_work : Bool) (wakes : List (List Call)) (s : Session)
    (hp : s.pause = true) (hs : s.progress.status = "Rendering Paused") :
    ((wait_while_paused no_work s wakes).1 = false →
      (wait_while_paused no_work s wakes).2.1.pause = true ∧
      (wait_while_paused no_work s wakes).2.1.progress.status = "Rendering Paused" ∧
      (wait_while_paused no_work s wakes).2.2 = []) ∧
    ((wait_while_paused no_work s wakes).1 = true →
      (wait_while_paused no_work s wakes).2.1.pause = false) := by
  induction wakes generalizing s with
  | nil => simp [wait_while_paused, Session.emit, hp, hs]
  | cons c cs ih =>
    rw [wait_while_paused_cons]
    split
    · rename_i h
      exact ih (woken no_work s c) h (woken_status no_work s c h)
    · rename_i h
      simpa using h

theorem wait_while_paused_returns (no_work : Bool) (wakes : List (List Call)) (s : Session) :
    (wait_while_paused no_work s wakes).1 = true →
      (wait_while_paused no_work s wakes).2.1.pause = false := by
  induction wakes generalizing s with
  | nil => simp [wait_while_paused]
  | cons c cs ih =>
    rw [wait_while_paused_cons]
    split
    · exact ih (woken no_work s c)
    · rename_i h
      intro _
      simpa using h

theorem run_wait_for_work_interactive (s : Session) (env : Env) (w : RenderWork)
    (h : (!s.params.background && (s.pause || !w.toBool)) = true) :
    run_wait_for_work s env w =
      (if (wait_while_paused (!w.toBool) (update_status_time s s.pause (!w.toBool))
            env.wakes).1 then some (!w.toBool) else none,
        (wait_while_paused (!w.toBool) (update_status_time s s.pause (!w.toBool))
          env.wakes).2.1,
        { env with wakes := (wait_while_paused (!w.toBool)
            (update_status_time s s.pause (!w.toBool)) env.wakes).2.2 }) := by
  unfold run_wait_for_work
  cases hb : s.params.background <;> cases hp : s.pause <;> cases hw : w.toBool <;>
    simp [hb, hp, hw] at h ⊢

theorem run_wait_for_work_waits (s : Session) (env : Env) (w : RenderWork)
    (h : (!s.params.background && (s.pause || !w.toBool)) = true) :
    pause_waits s.trace < pause_waits (run_wait_for_work s env w).2.1.trace ∧
    ((run_wait_for_work s env w).1 = none ∨
      (run_wait_for_work s env w).1 = some (!w.toBool)) := by
  rw [run_wait_for_work_interactive s env w h]
  obtain ⟨h1, h2⟩ := wait_while_paused_waits (!w.toBool) env.wakes
    (update_status_time s s.pause (!w.toBool))
  refine ⟨?_, ?_⟩
  · simp only
    rw [h1, update_status_time_trace]
    split at h2 <;> simp_all <;> omega
  · simp only
    split <;> simp

theorem wait_while_paused_blocked (no_work : Bool) (wakes : List (List Call)) (s : Session)
    (h : (wait_while_paused no_work s wakes).1 = false) :
    (wait_while_paused no_work s wakes).2.2 = [] ∧
    (wakes = [] ∨ (wait_while_paused no_work s wakes).2.1.pause = true) := by
  cases wakes with
  | nil => simp [wait_while_paused]
  | cons c cs =>
    rw [wait_while_paused_cons] at h ⊢
    by_cases hp : (woken no_work s c).pause = true
    · rw [if_pos hp] at h ⊢
      obtain ⟨o1, _⟩ := wait_while_paused_outcome no_work cs (woken no_work s c) hp
        (woken_status no_work s c hp)
      obtain ⟨p1, _, p3⟩ := o1 h
      exact ⟨p3, Or.inr p1⟩
    · rw [if_neg hp] at h
      cases h

theorem run_main_render_loop_continue (fuel : Nat) (s : Session) (env : Env)
    (hc : s.progress.get_cancel = false)
    (hfin : (!(run_update_for_next_iteration s env).1.toBool &&
      (run_update_for_next_iteration s env).2.1.params.background) = false)
    (hr : (iteration_wait s env).1 = some true) :
    run_main_render_loop (fuel + 1) s env =
      run_main_render_loop fuel (iteration_wait s env).2.1 (iteration_wait s env).2.2 := by
  unfold iteration_wait at hr ⊢
  rw [run_main_render_loop]
  simp only [hc, Bool.false_eq_true, ↓reduceIte]
  generalize run_update_for_next_iteration s env = u at hfin hr ⊢
  obtain ⟨w, s1, env1⟩ := u
  simp only at hfin hr ⊢
  simp only [hfin, Bool.false_eq_true, ↓reduceIte]
  generalize run_wait_for_work s1 env1 w = r at hr ⊢
  obtain ⟨o, s2, env2⟩ := r
  simp only at hr ⊢
  subst hr
  rfl

/-- C16. `Session::run_wait_for_work` waits on the pause condition iff the session is
interactive and (pause is set or the work is falsy).  When it does not wait it returns
false and changes nothing.  When it waits: it waits at least once; at each wake-up it
returns `no_work` (true exactly when the work was falsy) as soon as pause is clear, with
the state in which it woke, and waits again while pause is set; it stays blocked only
when no wake-up is left and, unless it was never woken, pause is still set; when it
returns, pause is clear.  When it returns true the loop goes on to its next iteration from
that state, with nothing dispatched. -/
theorem run_wait_for_work_blocks_iff (s : Session) (env : Env) (w : RenderWork) :
    (if (!s.params.background && (s.pause || !w.toBool)) = true then
      pause_waits s.trace < pause_waits (run_wait_for_work s env w).2.1.trace ∧
      ((run_wait_for_work s env w).1 = none ∨
        (run_wait_for_work s env w).1 = some (!w.toBool)) ∧
      (env.wakes = [] → (run_wait_for_work s env w).1 = none) ∧
      (∀ (calls : List Call) (rest : List (List Call)), env.wakes = calls :: rest →
        (woken (!w.toBool) (update_status_time s s.pause (!w.toBool)) calls).pause = false →
        run_wait_for_work s env w =
          (some (!w.toBool),
            woken (!w.toBool) (update_status_time s s.pause (!w.toBool)) calls,
            { env with wakes := rest })) ∧
      (∀ (calls : List Call) (rest : List (List Call)), env.wakes = calls :: rest →
        (woken (!w.toBool) (update_status_time s s.pause (!w.toBool)) calls).pause = true →
        run_wait_for_work s env w =
          (if (wait_while_paused (!w.toBool)
              (woken (!w.toBool) (update_status_time s s.pause (!w.toBool)) calls) rest).1
            then some (!w.toBool) else none,
            (wait_while_paused (!w.toBool)
              (woken (!w.toBool) (update_status_time s s.pause (!w.toBool)) calls) rest).2.1,
            { env with wakes := (wait_while_paused (!w.toBool)
              (woken (!w.toBool) (update_status_time s s.pause (!w.toBool)) calls)
                rest).2.2 })) ∧
      ((run_wait_for_work s env w).1 = none →
        (run_wait_for_work s env w).2.2.wakes = [] ∧
        (env.wakes = [] ∨ (run_wait_for_work s env w).2.1.pause = true)) ∧
      (∀ b, (run_wait_for_work s env w).1 = some b →
        (run_wait_for_work s env w).2.1.pause = false)
    else run_wait_for_work s env w = (some false, s, env)) ∧
    (∀ (fuel : Nat) (s0 : Session) (env0 : Env), s0.progress.get_cancel = false →
      (!(run_update_for_next_iteration s0 env0).1.toBool &&
        (run_update_for_next_iteration s0 env0).2.1.params.background) = false →
      (iteration_wait s0 env0).1 = some true →
      run_main_render_loop (fuel + 1) s0 env0 =
        run_main_render_loop fuel (iteration_wait s0 env0).2.1 (iteration_wait s0 env0).2.2 ∧
      dispatched (iteration_wait s0 env0).2.1.trace = dispatched s0.trace) := by
  constructor
  · split
    · rename_i h
      obtain ⟨k1, k2⟩ := run_wait_for_work_waits s env w h
      refine ⟨k1, k2, ?_, ?_, ?_, ?_, ?_⟩
      · intro he
        rw [run_wait_for_work_interactive s env w h, he]
        simp [wait_while_paused]
      · intro calls rest he hp
        rw [run_wait_for_work_interactive s env w h, he, wait_while_paused_cons]
        simp [hp]
      · intro calls rest he hp
        rw [run_wait_for_work_interactive s env w h, he, wait_while_paused_cons, if_pos hp]
      · rw [run_wait_for_work_interactive s env w h]
        simp only
        intro hnone
        have hf : (wait_while_paused (!w.toBool) (update_status_time s s.pause (!w.toBool))
            env.wakes).1 = false := by
          cases hx : (wait_while_paused (!w.toBool)
            (update_status_time s s.pause (!w.toBool)) env.wakes).1
          · rfl
          · simp [hx] at hnone
        exact wait_while_paused_blocked _ _ _ hf
      · rw [run_wait_for_work_interactive s env w h]
        simp only
        intro b hsome
        have ht : (wait_while_paused (!w.toBool) (update_status_time s s.pause (!w.toBool))
            env.wakes).1 = true := by
          cases hx : (wait_while_paused (!w.toBool)
            (update_status_time s s.pause (!w.toBool)) env.wakes).1
          · simp [hx] at hsome
          · rfl
        exact wait_while_paused_returns _ _ _ ht
    · rename_i h
      unfold run_wait_for_work
      cases hb : s.params.background <;> cases hp : s.pause <;> cases hw : w.toBool <;>
        simp [hb, hp, hw] at h ⊢
  · intro fuel s0 env0 hc hfin hr
    refine ⟨run_main_render_loop_continue fuel s0 env0 hc hfin hr, ?_⟩
    unfold iteration_wait
    rw [run_wait_for_work_dispatched, run_update_dispatched]

/-- Witness for C16: an idle interactive worker (no work, pause clear) is woken by a reset
and returns true after one wait; a worker with work and no pause does not wait. -/
theorem run_wait_for_work_blocks_iff_witness :
    (run_wait_for_work idle_interactive_session reset_on_wake {}).1 = some true ∧
    pause_waits (run_wait_for_work idle_interactive_session reset_on_wake {}).2.1.trace = 1 ∧
    (run_wait_for_work idle_interactive_session reset_on_wake {}).2.2.wakes = [] ∧
    run_wait_for_work idle_interactive_session reset_on_wake (one_sample 0) =
      (some false, idle_interactive_session, reset_on_wake) := by
  have h := (run_wait_for_work_blocks_iff idle_interactive_session reset_on_wake {}).1
  rw [if_pos (by decide)] at h
  have h4 := h.2.2.2.1 [Call.reset {} 4] [] rfl (by decide)
  have g := (run_wait_for_work_blocks_iff idle_interactive_session reset_on_wake
    (one_sample 0)).1
  rw [if_neg (by decide)] at g
  refine ⟨?_, ?_, ?_, g⟩
  · rw [h4]; rfl
  · rw [h4]; decide
  · rw [h4]

/-- C15. In interactive mode with pause set on entry, `Session::run_wait_for_work` enters
its wait loop with the status already "Rendering Paused" and waits at least once; after a
wake-up at which pause is still true it waits again with the status "Rendering Paused";
while it has not returned, pause is true and the status is "Rendering Paused"; and when it
returns, pause is false and the result is `no_work`. -/
theorem run_wait_for_work_paused (s : Session) (env : Env) (w : RenderWork)
    (hb : s.params.background = false) (hp : s.pause = true) :
    (update_status_time s s.pause (!w.toBool)).progress.status = "Rendering Paused" ∧
    (run_wait_for_work s env w).2.1 =
      (wait_while_paused (!w.toBool) (update_status_time s s.pause (!w.toBool))
        env.wakes).2.1 ∧
    pause_waits s.trace < pause_waits (run_wait_for_work s env w).2.1.trace ∧
    (∀ (s1 : Session) (calls : List Call) (rest : List (List Call)),
      (woken (!w.toBool) s1 calls).pause = true →
        wait_while_paused (!w.toBool) s1 (calls :: rest) =
          wait_while_paused (!w.toBool) (woken (!w.toBool) s1 calls) rest ∧
        (woken (!w.toBool) s1 calls).progress.status = "Rendering Paused") ∧
    ((run_wait_for_work s env w).1 = none →
      (run_wait_for_work s env w).2.1.pause = true ∧
      (run_wait_for_work s env w).2.1.progress.status = "Rendering Paused" ∧
      (run_wait_for_work s env w).2.2.wakes = [] ∧
      pause_waits (run_wait_for_work s env w).2.1.trace =
        pause_waits s.trace + env.wakes.length + 1) ∧
    (∀ b, (run_wait_for_work s env w).1 = some b →
      (run_wait_for_work s env w).2.1.pause = false ∧ b = !w.toBool) := by
  have hcond : (!s.params.background && (s.pause || !w.toBool)) = true := by simp [hb, hp]
  have hst : (update_status_time s s.pause (!w.toBool)).progress.status = "Rendering Paused" := by
    rw [hp]; exact update_status_time_paused s _
  have hpp : (update_status_time s s.pause (!w.toBool)).pause = true := by
    rw [update_status_time_pause]; exact hp
  have hblk := run_wait_for_work_waits s env w hcond
  obtain ⟨o1, o2⟩ := wait_while_paused_outcome (!w.toBool) env.wakes
    (update_status_time s s.pause (!w.toBool)) hpp hst
  obtain ⟨c1, c2⟩ := wait_while_paused_waits (!w.toBool) env.wakes
    (update_status_time s s.pause (!w.toBool))
  rw [run_wait_for_work_interactive s env w hcond] at hblk ⊢
  refine ⟨hst, rfl, hblk.1, ?_, ?_, ?_⟩
  · intro s1 calls rest h
    rw [wait_while_paused_cons, if_pos h]
    exact ⟨rfl, woken_status _ s1 calls h⟩
  · simp only
    intro hnone
    have hf : (wait_while_paused (!w.toBool) (update_status_time s s.pause (!w.toBool))
        env.wakes).1 = false := by
      cases hx : (wait_while_paused (!w.toBool) (update_status_time s s.pause (!w.toBool))
        env.wakes).1
      · rfl
      · simp [hx] at hnone
    obtain ⟨p1, p2, p3⟩ := o1 hf
    refine ⟨p1, p2, p3, ?_⟩
    rw [c1, hf, p3, update_status_time_trace]
    simp
  · simp only
    intro b hsome
    have ht : (wait_while_paused (!w.toBool) (update_status_time s s.pause (!w.toBool))
        env.wakes).1 = true := by
      cases hx : (wait_while_paused (!w.toBool) (update_status_time s s.pause (!w.toBool))
        env.wakes).1
      · simp [hx] at hsome
      · rfl
    refine ⟨o2 ht, ?_⟩
    rw [ht] at hsome
    simp only [↓reduceIte, Option.some.injEq] at hsome
    exact hsome.symm

/-- Witness for C15: paused, woken once with pause still set, then resumed. -/
theorem run_wait_for_work_paused_witness :
    paused_interactive_session.params.background = false ∧
    paused_interactive_session.pause = true ∧
    (run_wait_for_work paused_interactive_session resume_on_second_wake (one_sample 0)).1 =
      some false ∧
    (run_wait_for_work paused_interactive_session resume_on_second_wake
      (one_sample 0)).2.1.pause = false ∧
    pause_waits (run_wait_for_work paused_interactive_session resume_on_second_wake
      (one_sample 0)).2.1.trace = 2 := by
  have h := run_wait_for_work_paused paused_interactive_session resume_on_second_wake
    (one_sample 0) rfl rfl
  exact ⟨rfl, rfl, by decide, (h.2.2.2.2.2 false (by decide)).1, by decide⟩

/-! ## C14: what the foreground reset touches -/

theorem foreground_applied_resets (calls : List Call) (s : Session) :
    applied_resets (foreground s calls).trace = applied_resets s.trace := by
  induction calls generalizing s with
  | nil => rfl
  | cons c cs ih =>
    simp only [foreground, List.foldl_cons] at ih ⊢
    rw [ih]
    cases c with
    | set_pause v =>
      simp only [apply_call, set_pause_trace]
      split <;> simp [applied_resets_append, applied_resets]
    | reset p n => exact reset_applied_resets s p n
    | set_samples n =>
      simp only [apply_call, set_samples]
      split
      · simp [emit_trace, applied_resets_append, applied_resets]
      · rfl
    | cancel =>
      simp only [apply_call, cancel_signal]
      split
      · simp [emit_trace, applied_resets_append, applied_resets]
      · rfl

/-- C14. The foreground `Session::reset(buffer_params, samples)` only records the
`DelayedReset` (params, samples, do_reset = true) and records the device task cancel, the
path-trace cancel and the notification: scheduler, tile manager, progress, pause flag and
`params` are unchanged and no `reset_` is applied, by this or any other foreground call.
The worker's consumption then applies `reset_` to the state in which `buffers_mutex` is
held, which `reset_` keeps held, and releases it afterwards. -/
theorem reset_only_records (s : Session) (bp : BufferParams) (n : Int) (env : Env)
    (calls : List Call) :
    reset s bp n =
      { s with
        delayed_reset := { do_reset := true, params := bp, samples := n },
        trace := s.trace ++
          [Event.task_cancel, Event.path_trace_cancel, Event.notify_all] } ∧
    ((reset s bp n).render_scheduler_ = s.render_scheduler_ ∧
      (reset s bp n).tile_manager = s.tile_manager ∧
      (reset s bp n).progress = s.progress ∧
      (reset s bp n).pause = s.pause ∧
      (reset s bp n).params = s.params) ∧
    applied_resets (reset s bp n).trace = applied_resets s.trace ∧
    applied_resets (foreground s calls).trace = applied_resets s.trace ∧
    (consume_delayed_reset (reset s bp n) env).2.1 =
      unlock_buffers
        (({ reset_ (lock_buffers (reset s bp n)) bp n with
            delayed_reset := { do_reset := false, params := bp, samples := n } }).emit
          (Event.tile_next env.next_tile.1)) ∧
    (lock_buffers (reset s bp n)).buffers_mutex = true ∧
    (reset_ (lock_buffers (reset s bp n)) bp n).buffers_mutex = true ∧
    (consume_delayed_reset (reset s bp n) env).2.1.render_scheduler_ =
      s.render_scheduler_.reset bp n ∧
    (consume_delayed_reset (reset s bp n) env).2.1.tile_manager =
      s.tile_manager.reset bp n ∧
    (consume_delayed_reset (reset s bp n) env).2.1.progress.current_sample = 0 := by
  refine ⟨?_, ⟨rfl, rfl, rfl, rfl, rfl⟩, reset_applied_resets s bp n,
    foreground_applied_resets calls s, ?_, rfl, rfl, ?_, ?_, ?_⟩
  · simp [reset, Session.emit]
  · rfl
  · rfl
  · rfl
  · rfl

/-! ## C17: the stealable tile counter -/

theorem stealable_held_append (a b : List RenderTile) :
    stealable_held (a ++ b) = stealable_held a + stealable_held b := by
  simp [stealable_held, List.countP_append]

theorem stealable_held_cons (t : RenderTile) (l : List RenderTile) :
    stealable_held (t :: l) =
      stealable_held l + (if t.stealing_state ≠ StealingState.NO_STEALING then 1 else 0) := by
  simp only [stealable_held, List.countP_cons]
  split <;> simp_all

theorem stealable_held_eraseIdx (l : List RenderTile) (i : Nat) (t : RenderTile)
    (h : l.get? i = some t) :
    (stealable_held (l.eraseIdx i) : Int) =
      stealable_held l - (if t.stealing_state ≠ StealingState.NO_STEALING then 1 else 0) := by
  induction l generalizing i with
  | nil => simp at h
  | cons a l ih =>
    cases i with
    | zero =>
      simp at h
      subst h
      rw [List.eraseIdx_cons_zero, stealable_held_cons]
      split <;> simp
    | succ j =>
      simp at h
      have h' : l.get? j = some t := by simpa using h
      rw [List.eraseIdx_cons_succ, stealable_held_cons, stealable_held_cons]
      have := ih j h'
      push_cast
      rw [this]
      ring

theorem stealable_held_set (l : List RenderTile) (i : Nat) (t t' : RenderTile)
    (h : l.get? i = some t)
    (ht : (t.stealing_state ≠ StealingState.NO_STEALING) ↔
      (t'.stealing_state ≠ StealingState.NO_STEALING)) :
    stealable_held (l.set i t') = stealable_held l := by
  induction l generalizing i with
  | nil => simp at h
  | cons a l ih =>
    cases i with
    | zero =>
      simp at h
      subst h
      rw [List.set_cons_zero, stealable_held_cons, stealable_held_cons]
      simp only [ht]
    | succ j =>
      have h' : l.get? j = some t := by simpa using h
      rw [List.set_cons_succ, stealable_held_cons, stealable_held_cons, ih j h']

theorem release_tile_finish_frame (s : TileSession) (rtile : RenderTile) (nd f d : Bool) :
    (release_tile_finish s rtile nd f d).stealable_tiles = s.stealable_tiles ∧
    (release_tile_finish s rtile nd f d).held = s.held := by
  unfold release_tile_finish set_tile_buffers
  cases f <;> cases d <;> cases hw : s.write_render_tile_cb <;>
    cases hu : s.update_render_tile_cb <;>
    simp [TileSession.emit, hw, hu] <;> split <;> simp

theorem release_tile_frame (s : TileSession) (rtile : RenderTile) (nd f d : Bool) :
    (release_tile s rtile nd f d).stealable_tiles =
      s.stealable_tiles -
        (if rtile.stealing_state ≠ StealingState.NO_STEALING then 1 else 0) ∧
    (release_tile s rtile nd f d).held = s.held := by
  unfold release_tile
  cases h : rtile.stealing_state
  · simp [h, release_tile_finish_frame]
  · simp only [h, ne_eq, reduceCtorEq, not_false_eq_true, ↓reduceIte]
    split <;> simp [release_tile_finish_frame, TileSession.emit]
  · simp [h, TileSession.emit]

theorem device_release_inv (s : TileSession) (i : Nat) (nd f d : Bool) (h : TileInv s) :
    TileInv (device_release s i nd f d) := by
  unfold device_release
  cases hg : s.held.get? i with
  | none => simpa using h
  | some rtile =>
    simp only
    unfold TileInv at h ⊢
    obtain ⟨h1, h2⟩ := release_tile_frame { s with held := s.held.eraseIdx i } rtile nd f d
    rw [h1, h2]
    simp only
    rw [stealable_held_eraseIdx s.held i rtile hg, h]

theorem device_notice_steal_inv (s : TileSession) (i : Nat) (h : TileInv s) :
    TileInv (device_notice_steal s i) := by
  unfold device_notice_steal
  cases hg : s.held.get? i with
  | none => simpa using h
  | some rtile =>
    simp only
    split
    · rename_i hc
      unfold get_tile_stolen
      split
      · simp only [↓reduceIte]
        unfold TileInv at h ⊢
        simp only
        rw [stealable_held_set s.held i rtile _ hg (by simp [hc]), h]
      · simpa using h
    · exact h

theorem apply_tile_op_inv (s : TileSession) (op : TileOp) (h : TileInv s) :
    TileInv (apply_tile_op s op) := by
  cases op with
  | release i nd f d => exact device_release_inv s i nd f d h
  | notice_steal i => exact device_notice_steal_inv s i h
  | set_cancel msg => exact h

theorem other_threads_inv (ops : List TileOp) (s : TileSession) (h : TileInv s) :
    TileInv (other_threads s ops) := by
  induction ops generalizing s with
  | nil => exact h
  | cons o os ih =>
    simp only [other_threads, List.foldl_cons] at ih ⊢
    exact ih _ (apply_tile_op_inv s o h)

theorem emit_inv (s : TileSession) (e : TileEvent) (h : TileInv s) : TileInv (s.emit e) := h

theorem wait_for_not_stealing_inv (wakes : List (List TileOp)) (s : TileSession)
    (h : TileInv s) : TileInv (wait_for_not_stealing s wakes).2.1 := by
  induction wakes generalizing s with
  | nil =>
    unfold wait_for_not_stealing
    split <;> exact h
  | cons o os ih =>
    unfold wait_for_not_stealing
    split
    · exact ih _ (other_threads_inv o _ (emit_inv s _ h))
    · exact h

theorem wait_for_stolen_tile_inv (wakes : List (List TileOp)) (s : TileSession)
    (h : TileInv s) : TileInv (wait_for_stolen_tile s wakes).2.1 := by
  induction wakes generalizing s with
  | nil =>
    unfold wait_for_stolen_tile
    split <;> exact h
  | cons o os ih =>
    unfold wait_for_stolen_tile
    split
    · exact ih _ (other_threads_inv o _ (emit_inv s _ h))
    · exact h

theorem steal_tile_inv (s : TileSession) (rtile : RenderTile) (cpu : Bool)
    (wakes : List (List TileOp)) (h : TileInv s) :
    TileInv (steal_tile s rtile cpu wakes).2.2.1 ∧
    ((steal_tile s rtile cpu wakes).1 = some true →
      (steal_tile s rtile cpu wakes).2.1.stealing_state = StealingState.NO_STEALING) ∧
    ((steal_tile s rtile cpu wakes).1 ≠ some true →
      (steal_tile s rtile cpu wakes).2.1 = rtile) := by
  unfold steal_tile
  split
  · exact ⟨h, by simp, by simp⟩
  · have h1 := wait_for_not_stealing_inv wakes s h
    generalize wait_for_not_stealing s wakes = r at h1 ⊢
    obtain ⟨b1, s1, w1⟩ := r
    simp only at h1 ⊢
    cases b1
    · exact ⟨h1, by simp, by simp⟩
    · simp only [Bool.not_true, Bool.false_eq_true, ↓reduceIte]
      split
      · exact ⟨h1, by simp, by simp⟩
      · have h2 := wait_for_stolen_tile_inv w1
          { s1 with tile_stealing_state := TileStealingState.WAITING_FOR_TILE } h1
        generalize wait_for_stolen_tile
          { s1 with tile_stealing_state := TileStealingState.WAITING_FOR_TILE } w1 = q at h2 ⊢
        obtain ⟨b2, s2, w2⟩ := q
        simp only at h2 ⊢
        cases b2
        · exact ⟨h2, by simp, by simp⟩
        · simp only [Bool.not_true, Bool.false_eq_true, ↓reduceIte]
          split
          · exact ⟨h2, by simp, by simp⟩
          · exact ⟨h2, by simp, by simp⟩

theorem acquire_next_inv (cpu : Bool) (types : TileTypes) (nexts : List (Option Nat)) :
    ∀ (s : TileSession) (rtile : RenderTile) (hs : List Bool) (wakes : List (List TileOp)),
    TileInv s →
    TileInv (acquire_next cpu types nexts s rtile hs wakes).2.2.1 ∧
    ((acquire_next cpu types nexts s rtile hs wakes).1 = NextTile.stolen →
      (acquire_next cpu types nexts s rtile hs wakes).2.1.stealing_state =
        StealingState.NO_STEALING) := by
  induction nexts with
  | nil => intro s rtile hs wakes h; exact ⟨h, by simp [acquire_next]⟩
  | cons a rest ih =>
    intro s rtile hs wakes h
    cases a with
    | some pos => exact ⟨h, by simp [acquire_next]⟩
    | none =>
      unfold acquire_next
      have hst : ∀ st : Option Bool × RenderTile × TileSession × List (List TileOp),
          st = (if (types.path_trace || types.bake) = true then steal_tile s rtile cpu wakes
            else (some false, rtile, s, wakes)) →
          TileInv st.2.2.1 ∧ (st.1 = some true →
            st.2.1.stealing_state = StealingState.NO_STEALING) := by
        intro st hst
        subst hst
        split
        · exact ⟨(steal_tile_inv s rtile cpu wakes h).1, (steal_tile_inv s rtile cpu wakes h).2.1⟩
        · exact ⟨h, by simp⟩
      generalize (if (types.path_trace || types.bake) = true then steal_tile s rtile cpu wakes
            else (some false, rtile, s, wakes)) = st at hst ⊢
      obtain ⟨h1, h2⟩ := hst st rfl
      obtain ⟨o, rt, s1, w1⟩ := st
      simp only at h1 h2 ⊢
      match o with
      | none => exact ⟨h1, by simp⟩
      | some true => exact ⟨h1, fun _ => h2 rfl⟩
      | some false =>
        simp only
        split
        · split
          · cases w1 with
            | nil => exact ⟨emit_inv _ _ h1, by simp⟩
            | cons ops wrest =>
              exact ih _ _ _ _ (other_threads_inv ops _ (emit_inv _ _ h1))
          · exact ⟨h1, by simp⟩
        · exact ⟨h1, by simp⟩

theorem fill_render_tile_counter (s : TileSession) (rtile : RenderTile) (tile : Tile)
    (cpu : Bool) :
    (fill_render_tile s rtile tile cpu).2.stealable_tiles =
      s.stealable_tiles +
        (if (fill_render_tile s rtile tile cpu).1.stealing_state ≠ StealingState.NO_STEALING
          then 1 else 0) ∧
    (fill_render_tile s rtile tile cpu).2.held = s.held := by
  unfold fill_render_tile
  cases cpu <;> cases hb : s.read_bake_tile_cb <;> cases ht : tile.state <;> simp [hb]

theorem set_tile_buffers_frame (s : TileSession) (i : Int) (v : Option Nat) :
    (set_tile_buffers s i v).stealable_tiles = s.stealable_tiles ∧
    (set_tile_buffers s i v).held = s.held := by
  unfold set_tile_buffers
  split <;> simp

theorem attach_tile_buffers_frame (s : TileSession) (rtile : RenderTile) (pos : Nat)
    (tile : Tile) (other : Bool) :
    (attach_tile_buffers s rtile pos tile other).2.stealable_tiles = s.stealable_tiles ∧
    (attach_tile_buffers s rtile pos tile other).2.held = s.held ∧
    (attach_tile_buffers s rtile pos tile other).1.stealing_state = rtile.stealing_state := by
  unfold attach_tile_buffers update_tile_sample
  cases hb : s.buffers.isSome
  · cases hn : tile.buffers.isNone <;> cases other <;> cases hk : s.read_bake_tile_cb <;>
      cases hu : s.update_render_tile_cb <;>
      simp [hb, hn, hk, hu, TileSession.emit, set_tile_buffers_frame, set_tile_buffers] <;>
      (repeat' split) <;> simp_all [TileSession.emit]
  · simp [hb, TileSession.emit]

theorem device_acquire_inv (s : TileSession) (cpu : Bool) (types : TileTypes) (env : TileEnv)
    (h : TileInv s) : TileInv (device_acquire s cpu types env) := by
  unfold device_acquire acquire_tile
  cases hc : s.progress.get_cancel
  · simp only [Bool.false_eq_true, ↓reduceIte]
    obtain ⟨h1, h2⟩ := acquire_next_inv cpu types env.next_tiles s {} env.has_tiles env.wakes h
    generalize acquire_next cpu types env.next_tiles s {} env.has_tiles env.wakes = r at h1 h2 ⊢
    obtain ⟨o, rt, s1, rest⟩ := r
    simp only at h1 h2 ⊢
    cases o with
    | blocked => simpa using h1
    | no_tile => simpa using h1
    | stolen =>
      simp only [↓reduceIte]
      unfold TileInv at h1 ⊢
      simp only [stealable_held_append, stealable_held_cons, h2 rfl]
      simpa [stealable_held] using h1
    | got pos =>
      simp only [↓reduceIte]
      obtain ⟨f1, f2⟩ := fill_render_tile_counter s1 rt
        (s1.tile_manager.state.tiles.getD pos {}) cpu
      obtain ⟨a1, a2, a3⟩ := attach_tile_buffers_frame
        (fill_render_tile s1 rt (s1.tile_manager.state.tiles.getD pos {}) cpu).2
        (fill_render_tile s1 rt (s1.tile_manager.state.tiles.getD pos {}) cpu).1 pos
        (s1.tile_manager.state.tiles.getD pos {}) env.buffer_on_other_device
      unfold TileInv at h1 ⊢
      simp only [stealable_held_append, stealable_held_cons, a1, a2, a3, f1, f2, h1]
      simp only [stealable_held, List.countP_nil]
      push_cast
      split <;> simp
  · simpa [hc] using h

theorem device_calls_inv (calls : List DeviceCall) (s : TileSession) (h : TileInv s) :
    TileInv (device_calls s calls) := by
  induction calls generalizing s with
  | nil => exact h
  | cons c cs ih =>
    simp only [device_calls, List.foldl_cons] at ih ⊢
    apply ih
    cases c with
    | acquire cpu types env => exact device_acquire_inv s cpu types env h
    | step op => exact apply_tile_op_inv s op h

/-- C17. Starting with no tile held and `stealable_tiles = 0`, after any sequence of
`acquire_tile` calls and device steps (each release is of a held tile, which it removes,
and a tile is marked WAS_STOLEN only by the device that holds it as CAN_BE_STOLEN and
won `get_tile_stolen`), `stealable_tiles` is the number of held tiles that can be or were
stolen: it is never negative, and it is 0 once no tile is held, also when tiles went
through the stolen-tile path. -/
theorem stealable_tiles_balance (s : TileSession) (calls : List DeviceCall)
    (h0 : s.stealable_tiles = 0) (h1 : s.held = []) :
    0 ≤ (device_calls s calls).stealable_tiles ∧
    (device_calls s calls).stealable_tiles = stealable_held (device_calls s calls).held ∧
    ((device_calls s calls).held = [] → (device_calls s calls).stealable_tiles = 0) := by
  have h : TileInv (device_calls s calls) :=
    device_calls_inv calls s (by unfold TileInv; rw [h0, h1]; rfl)
  unfold TileInv at h
  refine ⟨by rw [h]; exact Int.natCast_nonneg _, h, ?_⟩
  intro he
  rw [h, he]
  rfl

/-- Witness for C17: a tile goes through the stolen-tile path and is released. -/
theorem stealable_tiles_balance_witness :
    two_tile_session.stealable_tiles = 0 ∧ two_tile_session.held = [] ∧
    (device_calls two_tile_session (steal_scenario.take 1)).stealable_tiles = 1 ∧
    (device_calls two_tile_session steal_scenario).held = [] ∧
    (device_calls two_tile_session steal_scenario).stealable_tiles = 0 :=
  ⟨rfl, rfl, by decide, by decide,
    (stealable_tiles_balance two_tile_session steal_scenario rfl rfl).2.2 (by decide)⟩

/-! ## C18, C19: releasing tiles and mapping neighbours -/

theorem clamp_mem (a mn mx : Int) (h : mn ≤ mx) : mn ≤ clamp a mn mx ∧ clamp a mn mx ≤ mx := by
  unfold clamp
  constructor
  · exact le_min (le_max_right _ _) h
  · exact min_le_right _ _

theorem map_neighbor_slot_some (s : TileSession) (g : Int → Nat → Int) (c : Int)
    (T : List RenderTile) (i : Nat)
    (hn : 0 ≤ g c i → ∃ t, s.tile_manager.state.tiles.get? (g c i).toNat = some t ∧
      (s.buffers.isSome = true ∨ t.buffers.isSome = true)) :
    ∃ T2, map_neighbor_slot s g c T i = some T2 ∧ T2.length = T.length ∧
      (∀ j, j ≠ i → T2.getD j {} = T.getD j {}) ∧
      (i < T.length → SlotFilled s g c i (T2.getD i {})) := by
  unfold map_neighbor_slot SlotFilled
  simp only
  by_cases h0 : 0 ≤ g c i
  · have h0' : ¬ g c i < 0 := not_lt.mpr h0
    obtain ⟨t, ht, hb⟩ := hn h0
    simp only [h0, h0', ↓reduceIte, ht, image_region]
    by_cases hsb : s.buffers.isSome = true
    · simp only [hsb, ↓reduceIte]
      refine ⟨_, rfl, by simp, ?_, ?_⟩
      · intro j hj
        simp [List.getD_eq_getElem?_getD, List.getElem?_set_ne (Ne.symm hj)]
      · intro hi
        refine ⟨t, rfl, ?_⟩
        simp [List.getD_eq_getElem?_getD, List.getElem?_set_self, hi, hsb]
    · have htb : t.buffers.isSome = true := hb.resolve_left hsb
      obtain ⟨b, hbb⟩ := Option.isSome_iff_exists.mp htb
      simp only [hsb, Bool.false_eq_true, ↓reduceIte, hbb]
      refine ⟨_, rfl, by simp, ?_, ?_⟩
      · intro j hj
        simp [List.getD_eq_getElem?_getD, List.getElem?_set_ne (Ne.symm hj)]
      · intro hi
        refine ⟨t, rfl, ?_⟩
        simp [List.getD_eq_getElem?_getD, List.getElem?_set_self, hi, hbb]
  · have h0' : g c i < 0 := not_le.mp h0
    simp only [h0, h0', ↓reduceIte, image_region]
    refine ⟨_, rfl, by simp, ?_, ?_⟩
    · intro j hj
      simp [List.getD_eq_getElem?_getD, List.getElem?_set_ne (Ne.symm hj)]
    · intro hi
      simp only [List.getD_eq_getElem?_getD, List.getElem?_set_self, hi]
      simp only [Option.getD_some, true_and]
      exact ⟨⟨_, rfl⟩, ⟨_, rfl⟩⟩

theorem map_neighbor_slots_some (s : TileSession) (g : Int → Nat → Int) (c : Int)
    (slots : List Nat)
    (hn : ∀ i ∈ slots, 0 ≤ g c i →
      ∃ t, s.tile_manager.state.tiles.get? (g c i).toNat = some t ∧
        (s.buffers.isSome = true ∨ t.buffers.isSome = true)) :
    ∀ T : List RenderTile, slots.Nodup → (∀ i ∈ slots, i < T.length) →
    ∃ T2, map_neighbor_slots s g c slots T = some T2 ∧ T2.length = T.length ∧
      (∀ j, j ∉ slots → T2.getD j {} = T.getD j {}) ∧
      (∀ i ∈ slots, SlotFilled s g c i (T2.getD i {})) := by
  induction slots with
  | nil =>
    intro T _ _
    exact ⟨T, rfl, rfl, fun _ _ => rfl, fun i hi => absurd hi (List.not_mem_nil i)⟩
  | cons k ks ih =>
    intro T hnd hlt
    rw [List.nodup_cons] at hnd
    obtain ⟨T1, e1, l1, o1, f1⟩ := map_neighbor_slot_some s g c T k
      (hn k (List.mem_cons_self _ _))
    obtain ⟨T2, e2, l2, o2, f2⟩ := ih (fun i hi => hn i (List.mem_cons_of_mem _ hi)) T1 hnd.2
      (fun i hi => by rw [l1]; exact hlt i (List.mem_cons_of_mem _ hi))
    refine ⟨T2, ?_, l2.trans l1, ?_, ?_⟩
    · simp only [map_neighbor_slots, e1]
      exact e2
    · intro j hj
      simp only [List.mem_cons, not_or] at hj
      rw [o2 j hj.2, o1 j hj.1]
    · intro i hi
      rcases List.mem_cons.mp hi with rfl | hmem
      · rw [o2 i hnd.1]
        exact f1 (hlt i (List.mem_cons_self _ _))
      · exact f2 i hmem

theorem map_neighbor_tiles_aborts_without_buffers :
    map_neighbor_tiles two_tile_session {} row_neighbor_index = none ∧
    map_neighbor_slot denoise_row_session row_neighbor_index 0 (List.replicate 9 {}) 5 ≠ none ∧
    map_neighbor_slot two_tile_session row_neighbor_index 0 (List.replicate 9 {}) 5 = none := by
  decide

/-- C19. In `Session::map_neighbor_tiles` with per-tile denoising scheduled, on a state in
which the function gets through its assertions (the center tile is in state DENOISE, every
existing neighbour lies in the tile table and has buffers unless the session has its own,
the center slot has a tile) and with a buffer of non-negative width and height: the call
returns, and every slot `i` of the 3x3 neighbourhood whose neighbour index is negative
ends as a placeholder (w = h = 0, null buffer pointers, x and y inside the image region),
and every other slot ends with the rectangle of its tile offset by the image origin. -/
theorem map_neighbor_tiles_slots (s : TileSession) (nb : RenderTileNeighbors)
    (g : Int → Nat → Int)
    (hs : s.tile_manager.schedule_denoising = true) (hl : nb.tiles.length = 9)
    (hw : 0 ≤ s.tile_manager.state.buffer.width)
    (hh : 0 ≤ s.tile_manager.state.buffer.height)
    (hc : 0 ≤ (nb.tiles.getD RenderTileNeighbors.CENTER {}).tile_index ∧
      ∃ t, s.tile_manager.state.tiles.get?
          (nb.tiles.getD RenderTileNeighbors.CENTER {}).tile_index.toNat = some t ∧
        t.state = TileState.DENOISE)
    (hn : ∀ i, i < 9 → 0 ≤ g (nb.tiles.getD RenderTileNeighbors.CENTER {}).tile_index i →
      ∃ t, s.tile_manager.state.tiles.get?
          (g (nb.tiles.getD RenderTileNeighbors.CENTER {}).tile_index i).toNat = some t ∧
        (s.buffers.isSome = true ∨ t.buffers.isSome = true))
    (h4 : 0 ≤ g (nb.tiles.getD RenderTileNeighbors.CENTER {}).tile_index
      RenderTileNeighbors.CENTER) :
    ∃ out, map_neighbor_tiles s nb g = some out ∧
      out.1.tiles.length = 9 ∧
      out.1.target = out.1.tiles.getD RenderTileNeighbors.CENTER {} ∧
      out.2 = s.emit TileEvent.device_map_neighbor_tiles ∧
      ∀ i, i < 9 →
        if g (nb.tiles.getD RenderTileNeighbors.CENTER {}).tile_index i < 0 then
          (out.1.tiles.getD i {}).w = 0 ∧
          (out.1.tiles.getD i {}).h = 0 ∧
          (out.1.tiles.getD i {}).buffer = none ∧
          (out.1.tiles.getD i {}).buffers = none ∧
          s.tile_manager.state.buffer.full_x ≤ (out.1.tiles.getD i {}).x ∧
          (out.1.tiles.getD i {}).x ≤
            s.tile_manager.state.buffer.full_x + s.tile_manager.state.buffer.width ∧
          s.tile_manager.state.buffer.full_y ≤ (out.1.tiles.getD i {}).y ∧
          (out.1.tiles.getD i {}).y ≤
            s.tile_manager.state.buffer.full_y + s.tile_manager.state.buffer.height
        else
          ∃ tile, s.tile_manager.state.tiles.get?
              (g (nb.tiles.getD RenderTileNeighbors.CENTER {}).tile_index i).toNat =
                some tile ∧
            (out.1.tiles.getD i {}).x = s.tile_manager.state.buffer.full_x + tile.x ∧
            (out.1.tiles.getD i {}).y = s.tile_manager.state.buffer.full_y + tile.y ∧
            (out.1.tiles.getD i {}).w = tile.w ∧
            (out.1.tiles.getD i {}).h = tile.h := by
  obtain ⟨hc0, ct, hct, hst⟩ := hc
  obtain ⟨T2, e2, l2, _, f2⟩ := map_neighbor_slots_some s g
    (nb.tiles.getD RenderTileNeighbors.CENTER {}).tile_index (List.range 9)
    (fun i hi => hn i (List.mem_range.mp hi)) nb.tiles (List.nodup_range 9)
    (fun i hi => by rw [hl]; exact List.mem_range.mp hi)
  have hcb : (T2.getD RenderTileNeighbors.CENTER {}).buffers.isSome = true := by
    have := f2 RenderTileNeighbors.CENTER (List.mem_range.mpr (by decide))
    unfold SlotFilled at this
    rw [if_neg (not_lt.mpr h4)] at this
    obtain ⟨_, _, _, _, _, _, _, hb⟩ := this
    exact hb
  refine ⟨({ nb with tiles := T2, target := T2.getD RenderTileNeighbors.CENTER {} },
    s.emit TileEvent.device_map_neighbor_tiles), ?_, by rw [l2, hl], rfl, rfl, ?_⟩
  · unfold map_neighbor_tiles
    simp only [hs, Bool.not_true, Bool.false_eq_true, ↓reduceIte, hc0, hct, hst, e2,
      Option.map_some', hcb]
  · intro i hi
    have hf := f2 i (List.mem_range.mpr hi)
    unfold SlotFilled at hf
    split
    · rename_i hneg
      rw [if_pos hneg] at hf
      obtain ⟨a, b, c, d, ⟨px, ex⟩, ⟨py, ey⟩⟩ := hf
      refine ⟨a, b, c, d, ?_, ?_, ?_, ?_⟩
      · rw [ex]; exact (clamp_mem _ _ _ (by omega)).1
      · rw [ex]; exact (clamp_mem _ _ _ (by omega)).2
      · rw [ey]; exact (clamp_mem _ _ _ (by omega)).1
      · rw [ey]; exact (clamp_mem _ _ _ (by omega)).2
    · rename_i hneg
      rw [if_neg hneg] at hf
      obtain ⟨tile, ht, x1, x2, x3, x4, _, _⟩ := hf
      exact ⟨tile, ht, x1, x2, x3, x4⟩

/-- Witness for C19: in a one-row image of two tiles awaiting denoising, each with buffers,
the call returns; slot 2 is a placeholder at the right edge and slot 5 is tile 1. -/
theorem map_neighbor_tiles_slots_witness :
    denoise_row_session.tile_manager.schedule_denoising = true ∧
    ∃ out, map_neighbor_tiles denoise_row_session {} row_neighbor_index = some out ∧
      (out.1.tiles.getD 2 {}).w = 0 ∧ (out.1.tiles.getD 2 {}).x ≤ 16 ∧
      (out.1.tiles.getD 5 {}).x = 8 ∧ (out.1.tiles.getD 5 {}).w = 8 := by
  obtain ⟨out, he, _, _, _, hslots⟩ := map_neighbor_tiles_slots denoise_row_session {}
    row_neighbor_index rfl rfl (by decide) (by decide)
    ⟨by decide, _, rfl, rfl⟩
    (by
      intro i hi h0
      interval_cases i
      all_goals first
        | exact absurd h0 (by decide)
        | exact ⟨_, rfl, Or.inr rfl⟩)
    (by decide)
  have h2 := hslots 2 (by decide)
  rw [if_pos (by decide)] at h2
  have h5 := hslots 5 (by decide)
  rw [if_neg (by decide)] at h5
  obtain ⟨tile, ht, x1, _, x3, _⟩ := h5
  have htile : tile = denoise_row_session.tile_manager.state.tiles.getD 1 {} :=
    Option.some.inj (Eq.trans (Eq.symm ht)
      (rfl : _ = some (denoise_row_session.tile_manager.state.tiles.getD 1 {})))
  refine ⟨rfl, out, he, h2.1, h2.2.2.2.2.2.1, ?_, ?_⟩
  · rw [x1, htile]; rfl
  · rw [x3, htile]; rfl

theorem set_tile_buffers_trace (s : TileSession) (i : Int) (v : Option Nat) :
    (set_tile_buffers s i v).trace = s.trace ∧
    (set_tile_buffers s i v).progress = s.progress := by
  unfold set_tile_buffers
  split <;> simp

theorem release_tile_finish_progress (s : TileSession) (rtile : RenderTile)
    (nd f d : Bool) :
    (release_tile_finish s rtile nd f d).progress =
      s.progress.add_finished_tile (decide (rtile.task = TileTask.DENOISE)) := by
  unfold release_tile_finish
  cases f <;> cases d <;> cases hw : s.write_render_tile_cb <;>
    cases hu : s.update_render_tile_cb <;>
    simp [TileSession.emit, hw, hu, set_tile_buffers_trace]

theorem release_tile_finish_trace (s : TileSession) (rtile : RenderTile)
    (nd f d : Bool) :
    ∃ mid, (release_tile_finish s rtile nd f d).trace =
      s.trace ++ [TileEvent.add_finished_tile (decide (rtile.task = TileTask.DENOISE)),
        TileEvent.finish_tile rtile.tile_index nd] ++ mid ++
        [TileEvent.update_status_time, TileEvent.denoising_notify_all] := by
  unfold release_tile_finish
  cases f <;> cases d <;> cases hw : s.write_render_tile_cb <;>
    cases hu : s.update_render_tile_cb <;>
    simp only [TileSession.emit, hw, hu, set_tile_buffers_trace, ↓reduceIte,
      Bool.false_eq_true, List.append_assoc, List.cons_append, List.nil_append,
      List.append_cancel_left_eq, List.cons.injEq, true_and]
  all_goals first
    | exact ⟨[], rfl⟩
    | exact ⟨[_], rfl⟩
    | exact ⟨[_, _], rfl⟩

/-- C18, counterexample. In the state in which a stolen tile is released (one stealable
tile in flight, `tile_stealing_state` RELEASING_TILE, samples left on the tile, so both
assertions of the branch hold), `release_tile` on the tile marked WAS_STOLEN leaves the
progress counts unchanged and records only the notification of the stealing waiters:
neither `add_finished_tile` nor the notification of the denoising waiters happens. -/
theorem release_stolen_tile_skips_progress :
    releasing_session.tile_stealing_state = TileStealingState.RELEASING_TILE ∧
    stolen_render_tile.sample < stolen_render_tile.start_sample + stolen_render_tile.num_samples ∧
    releasing_session.stealable_tiles = 1 ∧
    (release_tile releasing_session stolen_render_tile false true false).stealable_tiles = 0 ∧
    (release_tile releasing_session stolen_render_tile false true false).progress =
      releasing_session.progress ∧
    (release_tile releasing_session stolen_render_tile false true false).trace =
      [TileEvent.steal_notify_all] ∧
    TileEvent.denoising_notify_all ∉
      (release_tile releasing_session stolen_render_tile false true false).trace := by
  decide

/-- C18, amended. For every tile whose `stealing_state` is not WAS_STOLEN,
`Session::release_tile` counts the tile in the progress (`add_finished_tile`, as denoised
iff its task is DENOISE) and ends by notifying the denoising waiters.  For every tile
marked WAS_STOLEN it hands the tile over instead: the stealable count drops by one,
`stolen_tile` is the tile, `tile_stealing_state` is GOT_TILE, the only call recorded is the
notification of the stealing waiters, and the progress and the tile manager are left as
they were. -/
theorem release_tile_updates_progress (s : TileSession) (rtile : RenderTile)
    (need_denoise finished delete_tile : Bool) :
    (rtile.stealing_state ≠ StealingState.WAS_STOLEN →
      (release_tile s rtile need_denoise finished delete_tile).progress =
        s.progress.add_finished_tile (decide (rtile.task = TileTask.DENOISE)) ∧
      TileEvent.add_finished_tile (decide (rtile.task = TileTask.DENOISE)) ∈
        (release_tile s rtile need_denoise finished delete_tile).trace ∧
      ∃ pre, (release_tile s rtile need_denoise finished delete_tile).trace =
        s.trace ++ pre ++ [TileEvent.denoising_notify_all]) ∧
    (rtile.stealing_state = StealingState.WAS_STOLEN →
      (release_tile s rtile need_denoise finished delete_tile).trace =
        s.trace ++ [TileEvent.steal_notify_all] ∧
      (release_tile s rtile need_denoise finished delete_tile).progress = s.progress ∧
      (release_tile s rtile need_denoise finished delete_tile).tile_manager =
        s.tile_manager ∧
      (release_tile s rtile need_denoise finished delete_tile).stolen_tile = rtile ∧
      (release_tile s rtile need_denoise finished delete_tile).tile_stealing_state =
        TileStealingState.GOT_TILE ∧
      (release_tile s rtile need_denoise finished delete_tile).stealable_tiles =
        s.stealable_tiles - 1 ∧
      (release_tile s rtile need_denoise finished delete_tile).held = s.held) := by
  constructor
  · intro h
    have hfin : ∀ s' : TileSession,
        (release_tile_finish s' rtile need_denoise finished delete_tile).progress =
          s'.progress.add_finished_tile (decide (rtile.task = TileTask.DENOISE)) ∧
        TileEvent.add_finished_tile (decide (rtile.task = TileTask.DENOISE)) ∈
          (release_tile_finish s' rtile need_denoise finished delete_tile).trace ∧
        ∃ pre, (release_tile_finish s' rtile need_denoise finished delete_tile).trace =
          s'.trace ++ pre ++ [TileEvent.denoising_notify_all] := by
      intro s'
      obtain ⟨mid, hmid⟩ := release_tile_finish_trace s' rtile need_denoise finished delete_tile
      refine ⟨release_tile_finish_progress s' rtile need_denoise finished delete_tile, ?_, ?_⟩
      · rw [hmid]; simp
      · exact ⟨[TileEvent.add_finished_tile (decide (rtile.task = TileTask.DENOISE)),
          TileEvent.finish_tile rtile.tile_index need_denoise] ++ mid ++
          [TileEvent.update_status_time], by rw [hmid]; simp⟩
    unfold release_tile
    cases hst : rtile.stealing_state
    · simp only [ne_eq, not_true_eq_false, ↓reduceIte]
      exact hfin s
    · simp only [ne_eq, reduceCtorEq, not_false_eq_true, ↓reduceIte]
      split
      · obtain ⟨a, b, pre, c⟩ := hfin
          ({ s with stealable_tiles := s.stealable_tiles - 1 }.emit TileEvent.steal_notify_all)
        refine ⟨a, b, TileEvent.steal_notify_all :: pre, ?_⟩
        rw [c]
        simp [TileSession.emit]
      · exact hfin { s with stealable_tiles := s.stealable_tiles - 1 }
    · exact absurd hst h
  · intro h
    simp [release_tile, h, TileSession.emit]

/-- Witness for C18 amended: releasing a tile that cannot be stolen counts it; releasing
the stolen tile hands it over. -/
theorem release_tile_updates_progress_witness :
    ({} : RenderTile).stealing_state ≠ StealingState.WAS_STOLEN ∧
    (release_tile two_tile_session {} false true false).progress.rendered_tiles = 1 ∧
    TileEvent.add_finished_tile false ∈
      (release_tile two_tile_session {} false true false).trace ∧
    stolen_render_tile.stealing_state = StealingState.WAS_STOLEN ∧
    (release_tile releasing_session stolen_render_tile false true false).stolen_tile =
      stolen_render_tile ∧
    (release_tile releasing_session stolen_render_tile false true false).tile_stealing_state =
      TileStealingState.GOT_TILE :=
  ⟨by decide, by decide,
    ((release_tile_updates_progress two_tile_session {} false true false).1
      (by decide)).2.1,
    rfl,
    ((release_tile_updates_progress releasing_session stolen_render_tile false true
      false).2 rfl).2.2.2.1,
    ((release_tile_updates_progress releasing_session stolen_render_tile false true
      false).2 rfl).2.2.2.2.1⟩

/-! ## C22, C23, C24: cancel checks, status text and scene update -/

theorem apply_call_session_thread (s : Session) (c : Call) :
    (apply_call s c).session_thread = s.session_thread := by
  cases c with
  | set_pause v => exact set_pause_session_thread s v
  | reset p n => rfl
  | set_samples n =>
    simp only [apply_call, set_samples]
    split <;> rfl
  | cancel =>
    simp only [apply_call, cancel_signal]
    split <;> rfl

theorem foreground_session_thread (calls : List Call) (s : Session) :
    (foreground s calls).session_thread = s.session_thread := by
  induction calls generalizing s with
  | nil => rfl
  | cons c cs ih =>
    simp only [foreground, List.foldl_cons] at ih ⊢
    rw [ih, apply_call_session_thread]

theorem foreground_append (s : Session) (a b : List Call) :
    foreground s (a ++ b) = foreground (foreground s a) b := by
  simp [foreground, List.foldl_append]

theorem run_update_session_thread (s : Session) (env : Env) :
    (run_update_for_next_iteration s env).2.1.session_thread = s.session_thread ∧
    (run_update_for_next_iteration s env).2.1.pause = s.pause ∧
    (run_update_for_next_iteration s env).2.2.wakes = env.wakes := by
  unfold run_update_for_next_iteration update_scene_for_work
    ask_scheduler provide_denoiser_params consume_delayed_reset update_scene
    Env.next_work Env.next_tile
  cases h1 : s.delayed_reset.do_reset <;> cases h2 : s.read_bake_tile_cb <;>
    cases h3 : env.tiles <;> cases h4 : env.works <;>
    simp [h1, h2, h3, h4, reset_, Session.emit] <;>
    repeat' split
  all_goals simp_all

theorem apply_call_cancel (s : Session) (ht : s.session_thread.isSome = true) :
    (apply_call s Call.cancel).pause = false ∧
    (apply_call s Call.cancel).progress.cancel = true := by
  simp [apply_call, ht, cancel_signal, Session.emit, Progress.set_cancel]

theorem woken_after_cancel (no_work : Bool) (s : Session) (calls : List Call)
    (ht : s.session_thread.isSome = true) :
    (woken no_work s (calls ++ [Call.cancel])).pause = false ∧
    (woken no_work s (calls ++ [Call.cancel])).progress.get_cancel = true := by
  have h1 : (foreground (s.emit Event.wait_pause) calls).session_thread.isSome = true := by
    rw [foreground_session_thread]; exact ht
  have h2 := apply_call_cancel _ h1
  constructor
  · rw [woken_pause, foreground_append]
    exact h2.1
  · simp only [woken, Progress.get_cancel, Progress.set_update]
    rw [update_status_time_cancel, foreground_append]
    exact h2.2

theorem run_main_render_loop_cancel_after_wait (fuel : Nat) (s : Session) (env : Env)
    (hc : s.progress.get_cancel = false)
    (hfin : (!(run_update_for_next_iteration s env).1.toBool &&
      (run_update_for_next_iteration s env).2.1.params.background) = false)
    (b : Bool)
    (hr : (run_wait_for_work (run_update_for_next_iteration s env).2.1
      (run_update_for_next_iteration s env).2.2 (run_update_for_next_iteration s env).1).1 =
        some b)
    (hc2 : (run_wait_for_work (run_update_for_next_iteration s env).2.1
      (run_update_for_next_iteration s env).2.2
      (run_update_for_next_iteration s env).1).2.1.progress.get_cancel = true) :
    run_main_render_loop (fuel + 1) s env =
      (Flow.returned,
        (run_wait_for_work (run_update_for_next_iteration s env).2.1
          (run_update_for_next_iteration s env).2.2
          (run_update_for_next_iteration s env).1).2.1,
        (run_wait_for_work (run_update_for_next_iteration s env).2.1
          (run_update_for_next_iteration s env).2.2
          (run_update_for_next_iteration s env).1).2.2) := by
  rw [run_main_render_loop]
  simp only [hc, Bool.false_eq_true, ↓reduceIte]
  generalize run_update_for_next_iteration s env = u at hfin hr hc2 ⊢
  obtain ⟨w, s1, env1⟩ := u
  simp only at hfin hr hc2 ⊢
  simp only [hfin, Bool.false_eq_true, ↓reduceIte]
  generalize run_wait_for_work s1 env1 w = r at hr hc2 ⊢
  obtain ⟨o, s2, env2⟩ := r
  simp only at hr hc2 ⊢
  subst hr
  cases b
  · simp [hc2]
  · simp only
    exact run_main_render_loop_of_cancel fuel s2 env2 hc2

theorem run_main_render_loop_dispatch_step (fuel : Nat) (s : Session) (env : Env)
    (hc : s.progress.get_cancel = false)
    (hfin : (!(run_update_for_next_iteration s env).1.toBool &&
      (run_update_for_next_iteration s env).2.1.params.background) = false)
    (hr : (run_wait_for_work (run_update_for_next_iteration s env).2.1
      (run_update_for_next_iteration s env).2.2 (run_update_for_next_iteration s env).1).1 =
        some false)
    (hc2 : (run_wait_for_work (run_update_for_next_iteration s env).2.1
      (run_update_for_next_iteration s env).2.2
      (run_update_for_next_iteration s env).1).2.1.progress.get_cancel = false) :
    run_main_render_loop (fuel + 1) s env =
      run_main_render_loop fuel
        (dispatch_render_work
          (run_wait_for_work (run_update_for_next_iteration s env).2.1
            (run_update_for_next_iteration s env).2.2
            (run_update_for_next_iteration s env).1).2.1
          (run_wait_for_work (run_update_for_next_iteration s env).2.1
            (run_update_for_next_iteration s env).2.2
            (run_update_for_next_iteration s env).1).2.2
          (run_update_for_next_iteration s env).1).1
        (dispatch_render_work
          (run_wait_for_work (run_update_for_next_iteration s env).2.1
            (run_update_for_next_iteration s env).2.2
            (run_update_for_next_iteration s env).1).2.1
          (run_wait_for_work (run_update_for_next_iteration s env).2.1
            (run_update_for_next_iteration s env).2.2
            (run_update_for_next_iteration s env).1).2.2
          (run_update_for_next_iteration s env).1).2 := by
  rw [run_main_render_loop]
  simp only [hc, Bool.false_eq_true, ↓reduceIte]
  generalize run_update_for_next_iteration s env = u at hfin hr hc2 ⊢
  obtain ⟨w, s1, env1⟩ := u
  simp only at hfin hr hc2 ⊢
  simp only [hfin, Bool.false_eq_true, ↓reduceIte]
  generalize run_wait_for_work s1 env1 w = r at hr hc2 ⊢
  obtain ⟨o, s2, env2⟩ := r
  simp only at hr hc2 ⊢
  subst hr
  simp [hc2]

theorem run_main_render_loop_no_dispatch (fuel : Nat) (s : Session) (env : Env)
    (h : s.progress.get_cancel = true ∨
      (run_wait_for_work (run_update_for_next_iteration s env).2.1
        (run_update_for_next_iteration s env).2.2
        (run_update_for_next_iteration s env).1).2.1.progress.get_cancel = true) :
    dispatched (run_main_render_loop (fuel + 1) s env).2.1.trace = dispatched s.trace := by
  cases hc : s.progress.get_cancel
  case true => rw [run_main_render_loop_of_cancel _ _ _ hc]
  case false =>
    have hc2 := h.resolve_left (by simp [hc])
    have hu := run_update_dispatched s env
    have hw := run_wait_for_work_dispatched (run_update_for_next_iteration s env).2.1
      (run_update_for_next_iteration s env).2.2 (run_update_for_next_iteration s env).1
    cases hfin : (!(run_update_for_next_iteration s env).1.toBool &&
      (run_update_for_next_iteration s env).2.1.params.background)
    case true =>
      rw [run_main_render_loop]
      simp only [hc, Bool.false_eq_true, ↓reduceIte, hfin]
      exact hu
    case false =>
      cases hr : (run_wait_for_work (run_update_for_next_iteration s env).2.1
        (run_update_for_next_iteration s env).2.2 (run_update_for_next_iteration s env).1).1
      case some b =>
        rw [run_main_render_loop_cancel_after_wait fuel s env hc hfin b hr hc2, hw, hu]
      case none =>
        rw [run_main_render_loop]
        simp only [hc, Bool.false_eq_true, ↓reduceIte, hfin, hr]
        rw [hw, hu]

theorem iteration_wait_cancel_on_wake (s : Session) (env : Env) (calls : List Call)
    (rest : List (List Call))
    (hb : s.params.background = false) (hp : s.pause = true)
    (ht : s.session_thread.isSome = true)
    (hw : env.wakes = (calls ++ [Call.cancel]) :: rest) :
    (iteration_wait s env).1 = some (!(run_update_for_next_iteration s env).1.toBool) ∧
    (iteration_wait s env).2.1.pause = false ∧
    (iteration_wait s env).2.1.progress.get_cancel = true ∧
    (iteration_wait s env).2.2.wakes = rest ∧
    pause_waits (iteration_wait s env).2.1.trace = pause_waits s.trace + 1 := by
  obtain ⟨h1, h2, h3⟩ := run_update_session_thread s env
  have h4 := run_update_params s env
  have h5 := run_update_pause_waits s env
  unfold iteration_wait
  generalize run_update_for_next_iteration s env = u at h1 h2 h3 h4 h5 ⊢
  obtain ⟨w, s1, env1⟩ := u
  simp only at h1 h2 h3 h4 h5 ⊢
  have hcond : (!s1.params.background && (s1.pause || !w.toBool)) = true := by
    simp [h4, hb, h2, hp]
  have ht1 : (update_status_time s1 s1.pause (!w.toBool)).session_thread.isSome = true := by
    have : (update_status_time s1 s1.pause (!w.toBool)).session_thread = s1.session_thread := by
      unfold update_status_time
      split
      · rfl
      · split <;> rfl
    rw [this, h1]; exact ht
  obtain ⟨k1, k2⟩ := woken_after_cancel (!w.toBool)
    (update_status_time s1 s1.pause (!w.toBool)) calls ht1
  rw [run_wait_for_work_interactive s1 env1 w hcond, h3, hw, wait_while_paused_cons]
  simp only [k1, Bool.false_eq_true, ↓reduceIte]
  refine ⟨trivial, trivial, k2, trivial, ?_⟩
  rw [woken_pause_waits, update_status_time_trace, h5]

/-- C22. In every iteration of `Session::run_main_render_loop` (the loop entered with any
fuel, state and inputs): with the cancel flag set at the top the loop returns at once;
with the flag set in the state that `run_wait_for_work` returns, the loop returns that
state without rendering; the iteration renders exactly when the wait returned false and
both checks saw the flag unset, and then it renders the work of that iteration; so if
either check of the iteration sees the flag, nothing is rendered from then on.  A paused
interactive worker whose wake-up ends with `cancel()` returns from the wait with the flag
set and pause cleared, and the loop returns without rendering. -/
theorem run_main_render_loop_checks_cancel_twice (fuel : Nat) (s : Session) (env : Env) :
    (s.progress.get_cancel = true →
      run_main_render_loop (fuel + 1) s env = (Flow.returned, s, env)) ∧
    (s.progress.get_cancel = false →
      (!(run_update_for_next_iteration s env).1.toBool &&
        (run_update_for_next_iteration s env).2.1.params.background) = false →
      (∀ b, (iteration_wait s env).1 = some b →
        (iteration_wait s env).2.1.progress.get_cancel = true →
        run_main_render_loop (fuel + 1) s env =
          (Flow.returned, (iteration_wait s env).2.1, (iteration_wait s env).2.2)) ∧
      ((iteration_wait s env).1 = some false →
        (iteration_wait s env).2.1.progress.get_cancel = false →
        run_main_render_loop (fuel + 1) s env =
          run_main_render_loop fuel (iteration_dispatch s env).1 (iteration_dispatch s env).2 ∧
        dispatched (iteration_dispatch s env).1.trace =
          dispatched s.trace ++ [(run_update_for_next_iteration s env).1])) ∧
    (s.progress.get_cancel = true ∨ (iteration_wait s env).2.1.progress.get_cancel = true →
      dispatched (run_main_render_loop (fuel + 1) s env).2.1.trace = dispatched s.trace) ∧
    (∀ (calls : List Call) (rest : List (List Call)),
      s.progress.get_cancel = false → s.params.background = false → s.pause = true →
      s.session_thread.isSome = true → env.wakes = (calls ++ [Call.cancel]) :: rest →
      (iteration_wait s env).2.1.pause = false ∧
      (iteration_wait s env).2.1.progress.get_cancel = true ∧
      pause_waits (iteration_wait s env).2.1.trace = pause_waits s.trace + 1 ∧
      run_main_render_loop (fuel + 1) s env =
        (Flow.returned, (iteration_wait s env).2.1, (iteration_wait s env).2.2) ∧
      dispatched (run_main_render_loop (fuel + 1) s env).2.1.trace = dispatched s.trace) := by
  refine ⟨fun h => run_main_render_loop_of_cancel _ s env h, ?_, ?_, ?_⟩
  · intro hc hfin
    refine ⟨fun b hr hc2 => run_main_render_loop_cancel_after_wait fuel s env hc hfin b hr hc2,
      fun hr hc2 => ⟨run_main_render_loop_dispatch_step fuel s env hc hfin hr hc2, ?_⟩⟩
    unfold iteration_dispatch iteration_wait
    rw [dispatch_render_work_dispatched, run_wait_for_work_dispatched, run_update_dispatched]
  · exact fun h => run_main_render_loop_no_dispatch fuel s env h
  · intro calls rest hc hb hp ht hw
    obtain ⟨k1, k2, k3, _, k5⟩ := iteration_wait_cancel_on_wake s env calls rest hb hp ht hw
    have hfin : (!(run_update_for_next_iteration s env).1.toBool &&
        (run_update_for_next_iteration s env).2.1.params.background) = false := by
      rw [run_update_params, hb]; simp
    exact ⟨k2, k3, k5, run_main_render_loop_cancel_after_wait fuel s env hc hfin _ k1 k3,
      run_main_render_loop_no_dispatch fuel s env (Or.inr k3)⟩

/-- Witness for C22: a paused interactive worker is woken by `cancel()` while a truthy work
is pending; the loop returns with the cancel flag set, pause cleared, one wait and no
render. -/
theorem run_main_render_loop_checks_cancel_twice_witness :
    paused_interactive_session.progress.get_cancel = false ∧
    paused_interactive_session.pause = true ∧
    cancel_on_wake.wakes = ([] ++ [Call.cancel]) :: [] ∧
    (run_main_render_loop 1 paused_interactive_session cancel_on_wake).1 = Flow.returned ∧
    (run_main_render_loop 1 paused_interactive_session cancel_on_wake).2.1.pause = false ∧
    (run_main_render_loop 1 paused_interactive_session
      cancel_on_wake).2.1.progress.get_cancel = true ∧
    dispatched (run_main_render_loop 1 paused_interactive_session cancel_on_wake).2.1.trace =
      [] := by
  have h := (run_main_render_loop_checks_cancel_twice 0 paused_interactive_session
    cancel_on_wake).2.2.2 [] [] rfl rfl rfl rfl rfl
  refine ⟨rfl, rfl, rfl, ?_, ?_, ?_, h.2.2.2.2⟩
  · rw [h.2.2.2.1]
  · rw [h.2.2.2.1]; exact h.1
  · rw [h.2.2.2.1]; exact h.2.1

theorem scene_updates_append (a b : List Event) :
    scene_updates (a ++ b) = scene_updates a ++ scene_updates b := by
  induction a with
  | nil => rfl
  | cons e es ih => cases e <;> simp [scene_updates, ih]

theorem consume_delayed_reset_scene (s : Session) (env : Env) :
    scene_updates (consume_delayed_reset s env).2.1.trace = scene_updates s.trace ∧
    (consume_delayed_reset s env).2.1.tile_manager.params = params_after_reset s := by
  unfold consume_delayed_reset params_after_reset
  split
  · simp [reset_, Session.emit, scene_updates_append, scene_updates, TileManager.reset]
  · simp

theorem provide_denoiser_params_scene (s : Session) :
    scene_updates (provide_denoiser_params s).trace = scene_updates s.trace ∧
    (provide_denoiser_params s).tile_manager = s.tile_manager := by
  unfold provide_denoiser_params
  split
  · simp [Session.emit, scene_updates_append, scene_updates]
  · simp

theorem ask_scheduler_scene (t : Bool) (s : Session) (env : Env) :
    scene_updates (ask_scheduler t s env).2.1.trace = scene_updates s.trace ∧
    (ask_scheduler t s env).2.1.tile_manager = s.tile_manager := by
  unfold ask_scheduler
  split
  · simp [Session.emit, scene_updates_append, scene_updates]
  · simp

/-- C24. `Session::run_update_for_next_iteration` calls `update_scene` exactly when the
work it returns is truthy (once, whether or not the buffer size changed) and never for
a falsy work; the arguments are width = max(1, full_width / divider) and height =
max(1, full_height / divider) with the truncating division of C++, taken from the tile
manager parameters in force after the reset block, and the divider of the work; both
sizes are at least 1, and for a truthy work the divider is positive. -/
theorem run_update_scene_update (s : Session) (env : Env) :
    scene_updates (run_update_for_next_iteration s env).2.1.trace =
      scene_updates s.trace ++
        (if (run_update_for_next_iteration s env).1.toBool then
          [(max 1 (Int.tdiv (params_after_reset s).full_width
              (run_update_for_next_iteration s env).1.resolution_divider),
            max 1 (Int.tdiv (params_after_reset s).full_height
              (run_update_for_next_iteration s env).1.resolution_divider),
            (run_update_for_next_iteration s env).1.resolution_divider)]
        else []) ∧
    (∀ e ∈ scene_updates (run_update_for_next_iteration s env).2.1.trace,
      e ∈ scene_updates s.trace ∨ (1 ≤ e.1 ∧ 1 ≤ e.2.1 ∧ 0 < e.2.2)) := by
  have key : scene_updates (run_update_for_next_iteration s env).2.1.trace =
      scene_updates s.trace ++
        (if (run_update_for_next_iteration s env).1.toBool then
          [(max 1 (Int.tdiv (params_after_reset s).full_width
              (run_update_for_next_iteration s env).1.resolution_divider),
            max 1 (Int.tdiv (params_after_reset s).full_height
              (run_update_for_next_iteration s env).1.resolution_divider),
            (run_update_for_next_iteration s env).1.resolution_divider)]
        else []) := by
    obtain ⟨c1, c2⟩ := consume_delayed_reset_scene s env
    obtain ⟨p1, p2⟩ := provide_denoiser_params_scene (consume_delayed_reset s env).2.1
    obtain ⟨a1, a2⟩ := ask_scheduler_scene (consume_delayed_reset s env).1
      (provide_denoiser_params (consume_delayed_reset s env).2.1)
      (consume_delayed_reset s env).2.2
    simp only [run_update_for_next_iteration, update_scene_for_work]
    split
    · simp only [update_scene, emit_trace, scene_updates_append, a1, p1, c1, a2, p2, c2]
      simp [scene_updates]
    · simp [a1, p1, c1]
  refine ⟨key, ?_⟩
  intro e he
  rw [key] at he
  rcases List.mem_append.mp he with h | h
  · exact Or.inl h
  · right
    split at h
    · rename_i ht
      simp only [List.mem_singleton] at h
      subst h
      simp only [RenderWork.toBool, Bool.and_eq_true, decide_eq_true_eq] at ht
      exact ⟨le_max_left _ _, le_max_left _ _, ht.2⟩
    · simp at h

theorem update_status_time_example :
    (update_status_time sample_3_of_8 true true).progress.status = "Rendering Paused" ∧
    (update_status_time sample_3_of_8 true true).progress.substatus = "Sample 3/8" ∧
    (update_status_time sample_3_of_8 true true).progress.end_time_set = false ∧
    (update_status_time sample_3_of_8 false true).progress.status = "Rendering Done" ∧
    (update_status_time sample_3_of_8 false true).progress.end_time_set = true ∧
    (update_status_time sample_3_of_8 false false).progress.status = "Sample 3/8" ∧
    (update_status_time sample_3_of_8 false false).progress.substatus = "" := by
  decide

/-- C23. `Session::update_status_time(show_pause, show_done)` sets the status to
"Rendering Paused" when `show_pause`, else to "Rendering Done" when `show_done`, else to
"Sample <current>/<effective total>"; the substatus is that sample text in the paused and
done cases and empty otherwise; the end time is recorded exactly in the done case that is
not paused; nothing else of the session or of the progress changes. -/
theorem update_status_time_status (s : Session) (show_pause show_done : Bool) :
    (update_status_time s show_pause show_done).progress.status =
      (if show_pause then "Rendering Paused"
       else if show_done then "Rendering Done"
       else "Sample " ++ toString s.progress.get_current_sample ++ "/" ++
         toString s.tile_manager.get_num_effective_samples) ∧
    (update_status_time s show_pause show_done).progress.substatus =
      (if show_pause || show_done then
        "Sample " ++ toString s.progress.get_current_sample ++ "/" ++
          toString s.tile_manager.get_num_effective_samples
       else "") ∧
    (update_status_time s show_pause show_done).progress.end_time_set =
      (s.progress.end_time_set || (!show_pause && show_done)) ∧
    update_status_time s show_pause show_done =
      { s with progress :=
        { s.progress with
          status := (update_status_time s show_pause show_done).progress.status,
          substatus := (update_status_time s show_pause show_done).progress.substatus,
          end_time_set :=
            (update_status_time s show_pause show_done).progress.end_time_set } } := by
  cases show_pause <;> cases show_done <;>
    simp [update_status_time, Progress.set_status, Progress.set_end_time]

end Cycles

namespace IDProp

/-! ## C20: pop on a group -/

theorem utf8_char_ne_zero (c : Char) (h : c.toNat ≠ 0) : ∀ b ∈ utf8_char c, b ≠ 0 := by
  intro b hb
  unfold utf8_char at hb
  simp only at hb
  split at hb
  · simp only [List.mem_singleton] at hb
    omega
  · split at hb
    · simp only [List.mem_cons, List.mem_singleton, List.mem_nil_iff, or_false] at hb
      omega
    · split at hb
      · simp only [List.mem_cons, List.mem_singleton, List.mem_nil_iff, or_false] at hb
        omega
      · simp only [List.mem_cons, List.mem_singleton, List.mem_nil_iff, or_false] at hb
        omega

theorem c_string_of_no_zero (l : List Nat) (h : ∀ b ∈ l, b ≠ 0) : c_string l = l := by
  unfold c_string
  rw [List.takeWhile_eq_self_iff]
  intro b hb
  simpa using h b hb

theorem c_string_utf8 (s : String) (h : ∀ c ∈ s.toList, c.toNat ≠ 0) :
    c_string (utf8 s) = utf8 s := by
  apply c_string_of_no_zero
  intro b hb
  simp only [utf8, List.mem_flatMap] at hb
  obtain ⟨c, hc, hb⟩ := hb
  exact utf8_char_ne_zero c (h c hc) b hb

theorem utf8_char_eq (c : Char) : utf8_char c = utf8_bytes c.toNat := rfl

theorem char_has_utf8 (c : Char) : has_utf8 c.toNat = true := by
  have h : c.val.toNat < 55296 ∨ (57343 < c.val.toNat ∧ c.val.toNat < 1114112) := c.valid
  have e : c.toNat = c.val.toNat := rfl
  simp only [has_utf8, Bool.or_eq_true, Bool.and_eq_true, decide_eq_true_eq, e]
  exact h

theorem utf8_bytes_ne_zero (v : Nat) (h : v ≠ 0) : ∀ b ∈ utf8_bytes v, b ≠ 0 := by
  intro b hb
  unfold utf8_bytes at hb
  split at hb
  · simp only [List.mem_singleton] at hb
    omega
  · split at hb
    · simp only [List.mem_cons, List.mem_singleton, List.mem_nil_iff, or_false] at hb
      omega
    · split at hb
      · simp only [List.mem_cons, List.mem_singleton, List.mem_nil_iff, or_false] at hb
        omega
      · simp only [List.mem_cons, List.mem_singleton, List.mem_nil_iff, or_false] at hb
        omega

theorem utf8_eq_code_points (s : String) :
    utf8 s = (s.toList.map Char.toNat).flatMap utf8_bytes := by
  unfold utf8
  induction s.toList with
  | nil => rfl
  | cons c cs ih => simp [List.flatMap_cons, utf8_char_eq, ih]

theorem AsStringAndSize_unicode (code_points : List Nat) :
    PyUnicode_AsStringAndSize (KeyObject.unicode code_points) =
      if code_points.all has_utf8 then some (code_points.flatMap utf8_bytes) else none := rfl

theorem AsStringAndSize_str (s : String) :
    PyUnicode_AsStringAndSize (KeyObject.object (PyObject.str s)) =
      PyUnicode_AsStringAndSize (KeyObject.unicode (s.toList.map Char.toNat)) := by
  have hall : (s.toList.map Char.toNat).all has_utf8 = true := by
    simp only [List.all_eq_true, List.mem_map]
    rintro v ⟨c, _, rfl⟩
    exact char_has_utf8 c
  rw [AsStringAndSize_unicode, if_pos hall, ← utf8_eq_code_points]
  rfl

theorem AsStringAndSize_not_str (obj : PyObject) (h : ∀ s, obj ≠ PyObject.str s) :
    PyUnicode_AsStringAndSize (KeyObject.object obj) = none := by
  cases obj with
  | str s => exact absurd rfl (h s)
  | _ => rfl

theorem idp_try_read_name_eq (key : KeyObject) :
    idp_try_read_name (some key) =
      match PyUnicode_AsStringAndSize key with
      | none => Except.error (PyErr.KeyError
          ("invalid id-property key, expected a string, not a " ++ key_tp_name key))
      | some name =>
        if name.length ≥ MAX_IDPROP_NAME then
          Except.error (PyErr.KeyError
            "the length of IDProperty names is limited to 63 characters")
        else Except.ok name := rfl

/-- C21, counterexample. The key made of the lone surrogate U+DC80 is a `str` of one code
point; it has no UTF-8 encoding, so `idp_try_read_name` raises KeyError for it although it
is a string and no encoding of 64 bytes or more exists. -/
theorem surrogate_key_raises_KeyError :
    [56448].length = 1 ∧
    PyUnicode_AsStringAndSize (KeyObject.unicode [56448]) = none ∧
    idp_try_read_name (some (KeyObject.unicode [56448])) =
      Except.error (PyErr.KeyError
        "invalid id-property key, expected a string, not a str") :=
  ⟨rfl, rfl, rfl⟩

/-- C21, amended. `idp_try_read_name` returns the empty name for a null key object; for a
string key that has a UTF-8 encoding of at most 63 bytes it returns that buffer, which a
reader of C strings sees whole when the key holds no null character; it fails with
KeyError for a string whose encoding has 64 bytes or more, for a string holding a code
point without UTF-8 encoding (a lone surrogate), and for every key that is not a string,
and in no other case and with no other exception.  `idp_from_PyObject` and
`BPy_IDProperty_Map_ValidateAndCreate` fail with the same exception, whatever the value,
and leave the group as it was; with a key that is accepted they go on to convert the
value. -/
theorem idp_try_read_name_cases :
    idp_try_read_name none = Except.ok [] ∧
    (∀ code_points : List Nat, (∀ v ∈ code_points, has_utf8 v = true) →
      (code_points.flatMap utf8_bytes).length ≤ 63 →
      idp_try_read_name (some (KeyObject.unicode code_points)) =
        Except.ok (code_points.flatMap utf8_bytes) ∧
      ((∀ v ∈ code_points, v ≠ 0) →
        c_string (code_points.flatMap utf8_bytes) = code_points.flatMap utf8_bytes)) ∧
    (∀ code_points : List Nat, (∀ v ∈ code_points, has_utf8 v = true) →
      64 ≤ (code_points.flatMap utf8_bytes).length →
      idp_try_read_name (some (KeyObject.unicode code_points)) = Except.error (PyErr.KeyError
        "the length of IDProperty names is limited to 63 characters")) ∧
    (∀ (code_points : List Nat) (v : Nat), v ∈ code_points → has_utf8 v = false →
      idp_try_read_name (some (KeyObject.unicode code_points)) = Except.error (PyErr.KeyError
        "invalid id-property key, expected a string, not a str")) ∧
    (∀ s : String,
      idp_try_read_name (some (KeyObject.object (PyObject.str s))) =
        idp_try_read_name (some (KeyObject.unicode (s.toList.map Char.toNat))) ∧
      (∀ v ∈ s.toList.map Char.toNat, has_utf8 v = true) ∧
      (s.toList.map Char.toNat).flatMap utf8_bytes = utf8 s) ∧
    (∀ obj : PyObject, (∀ s, obj ≠ PyObject.str s) →
      idp_try_read_name (some (KeyObject.object obj)) = Except.error (PyErr.KeyError
        ("invalid id-property key, expected a string, not a " ++ tp_name obj))) ∧
    (∀ (name_obj : Option KeyObject) (e : PyErr),
      idp_try_read_name name_obj = Except.error e →
      (∃ msg, e = PyErr.KeyError msg) ∧
      ∃ key, name_obj = some key ∧
        ((∃ obj, key = KeyObject.object obj ∧ ∀ s, obj ≠ PyObject.str s) ∨
          (∃ code_points v, key = KeyObject.unicode code_points ∧ v ∈ code_points ∧
            has_utf8 v = false) ∨
          ∃ name, PyUnicode_AsStringAndSize key = some name ∧ 64 ≤ name.length)) ∧
    (∀ (from_value : List Nat → PyObject → Except PyErr IDProperty)
      (insert : IDProperty → IDProperty → IDProperty) (name_obj : Option KeyObject)
      (group : IDProperty) (ob : PyObject),
      (∀ e, idp_try_read_name name_obj = Except.error e →
        idp_from_PyObject from_value name_obj ob = Except.error e ∧
        BPy_IDProperty_Map_ValidateAndCreate from_value insert name_obj group ob =
          (Except.error e, group)) ∧
      (∀ name, idp_try_read_name name_obj = Except.ok name →
        idp_from_PyObject from_value name_obj ob = from_value name ob)) := by
  have hall : ∀ cps : List Nat, (∀ v ∈ cps, has_utf8 v = true) → cps.all has_utf8 = true :=
    fun cps h => List.all_eq_true.mpr h
  refine ⟨rfl, ?_, ?_, ?_, ?_, ?_, ?_, ?_⟩
  · intro cps hv hlen
    refine ⟨?_, fun hz => ?_⟩
    · rw [idp_try_read_name_eq, AsStringAndSize_unicode, if_pos (hall cps hv)]
      simp only [MAX_IDPROP_NAME]
      rw [if_neg (by omega)]
    · apply c_string_of_no_zero
      intro b hb
      obtain ⟨v, hvm, hb⟩ := List.mem_flatMap.mp hb
      exact utf8_bytes_ne_zero v (hz v hvm) b hb
  · intro cps hv hlen
    rw [idp_try_read_name_eq, AsStringAndSize_unicode, if_pos (hall cps hv)]
    simp only [MAX_IDPROP_NAME]
    rw [if_pos (by omega)]
  · intro cps v hvm hno
    have hnall : ¬ cps.all has_utf8 = true := by
      intro h
      have := List.all_eq_true.mp h v hvm
      rw [hno] at this
      cases this
    rw [idp_try_read_name_eq, AsStringAndSize_unicode, if_neg hnall]
    rfl
  · intro s
    refine ⟨?_, ?_, (utf8_eq_code_points s).symm⟩
    · rw [idp_try_read_name_eq, idp_try_read_name_eq, AsStringAndSize_str]
      rfl
    · intro v hv
      obtain ⟨c, _, rfl⟩ := List.mem_map.mp hv
      exact char_has_utf8 c
  · intro obj hns
    rw [idp_try_read_name_eq, AsStringAndSize_not_str obj hns]
    rfl
  · intro name_obj e he
    cases name_obj with
    | none => simp [idp_try_read_name] at he
    | some key =>
      rw [idp_try_read_name_eq] at he
      cases hk : PyUnicode_AsStringAndSize key with
      | some name =>
        rw [hk] at he
        simp only at he
        split at he
        · rename_i hlen
          simp only [Except.error.injEq] at he
          refine ⟨⟨_, he.symm⟩, key, rfl, Or.inr (Or.inr ⟨name, hk, ?_⟩)⟩
          simpa [MAX_IDPROP_NAME] using hlen
        · cases he
      | none =>
        rw [hk] at he
        simp only [Except.error.injEq] at he
        refine ⟨⟨_, he.symm⟩, key, rfl, ?_⟩
        cases key with
        | unicode cps =>
          right; left
          rw [AsStringAndSize_unicode] at hk
          split at hk
          · cases hk
          · rename_i hnall
            simp only [List.all_eq_true, not_forall, Bool.not_eq_true] at hnall
            obtain ⟨v, hvm, hv⟩ := hnall
            exact ⟨cps, v, rfl, hvm, hv⟩
        | object obj =>
          left
          refine ⟨obj, rfl, fun s hs => ?_⟩
          subst hs
          simp [PyUnicode_AsStringAndSize] at hk
  · intro from_value insert name_obj group ob
    refine ⟨fun e he => ?_, fun name hn => ?_⟩
    · simp [BPy_IDProperty_Map_ValidateAndCreate, idp_from_PyObject, he]
    · simp [idp_from_PyObject, hn]

/-- Witness for C21 as amended: the key "abc" is accepted with its text, a key of 64 letters,
the key 3 and a key with a lone surrogate are refused with KeyError. -/
theorem idp_try_read_name_cases_witness :
    idp_try_read_name (some (KeyObject.unicode [97, 98, 99])) = Except.ok [97, 98, 99] ∧
    idp_try_read_name (some (KeyObject.object (PyObject.str "abc"))) =
      Except.ok [97, 98, 99] ∧
    idp_try_read_name (some (KeyObject.unicode (List.replicate 64 97))) =
      Except.error (PyErr.KeyError
        "the length of IDProperty names is limited to 63 characters") ∧
    idp_try_read_name (some (KeyObject.unicode [97, 56448])) =
      Except.error (PyErr.KeyError
        "invalid id-property key, expected a string, not a str") ∧
    idp_try_read_name (some (KeyObject.object (PyObject.int 3))) =
      Except.error (PyErr.KeyError
        "invalid id-property key, expected a string, not a int") := by
  have h := idp_try_read_name_cases
  refine ⟨(h.2.1 [97, 98, 99] (by decide) (by decide)).1, ?_,
    h.2.2.1 (List.replicate 64 97) (by decide) (by decide),
    h.2.2.2.1 [97, 56448] 56448 (by decide) (by decide),
    h.2.2.2.2.2.1 (PyObject.int 3) (fun s hs => by cases hs)⟩
  rw [(h.2.2.2.2.1 "abc").1]
  exact (h.2.1 [97, 98, 99] (by decide) (by decide)).1

theorem c_string_memcpy_name (name new_name : List Nat) :
    BPy_IDGroup_GetName (memcpy name new_name new_name.length) =
      c_string (new_name ++ name.drop new_name.length) := by
  simp [BPy_IDGroup_GetName, memcpy]

theorem c_string_append_zero (new_name rest : List Nat) (h : ∀ b ∈ new_name, b ≠ 0) :
    c_string (new_name ++ 0 :: rest) = new_name := by
  unfold c_string
  induction new_name with
  | nil => simp
  | cons b bs ih =>
    have hb : b ≠ 0 := h b (List.mem_cons_self _ _)
    simp only [List.cons_append, List.takeWhile_cons, bne_iff_ne, ne_eq, hb, not_false_eq_true,
      decide_True, ↓reduceIte, List.cons.injEq, true_and]
    exact ih (fun x hx => h x (List.mem_cons_of_mem _ hx))

theorem BPy_IDGroup_SetName_round_trip (name rest : List Nat) (s : String)
    (hlen : (utf8 s).length ≤ 63) (hs : ∀ c ∈ s.toList, c.toNat ≠ 0)
    (hz : name.drop (utf8 s).length = 0 :: rest) :
    (BPy_IDGroup_SetName name (PyObject.str s)).1 = Except.ok () ∧
    BPy_IDGroup_GetName (BPy_IDGroup_SetName name (PyObject.str s)).2 = utf8 s := by
  have hnz : ∀ b ∈ utf8 s, b ≠ 0 := by
    intro b hb
    simp only [utf8, List.mem_flatMap] at hb
    obtain ⟨c, hc, hb⟩ := hb
    exact utf8_char_ne_zero c (hs c hc) b hb
  have hlt : ¬ (utf8 s).length ≥ MAX_IDPROP_NAME := by
    simp only [MAX_IDPROP_NAME]
    omega
  simp only [BPy_IDGroup_SetName, PyUnicode_AsStringAndSize, if_neg hlt]
  refine ⟨trivial, ?_⟩
  rw [c_string_memcpy_name, hz]
  exact c_string_append_zero _ rest hnz

/-- C28, evaluated on a group named "abcdef" that is renamed to "xy":
`BPy_IDGroup_SetName` succeeds, copies the two bytes without a terminator, and
`BPy_IDGroup_GetName` then reads "xycdef", which is not "xy".  A value that is not a string
or has 64 bytes or more is refused with TypeError and the buffer is unchanged. -/
theorem BPy_IDGroup_SetName_keeps_old_tail :
    BPy_IDGroup_GetName (name_buffer "abcdef") = utf8 "abcdef" ∧
    renamed_abcdef.1 = Except.ok () ∧
    BPy_IDGroup_GetName renamed_abcdef.2 = utf8 "xycdef" ∧
    BPy_IDGroup_GetName renamed_abcdef.2 ≠ utf8 "xy" ∧
    (∀ (name : List Nat) (value : PyObject),
      ((∀ s, value ≠ PyObject.str s) ∨ ∃ s, value = PyObject.str s ∧ 64 ≤ (utf8 s).length) →
      BPy_IDGroup_SetName name value = (Except.error PyErr.TypeError, name)) := by
  refine ⟨by decide, rfl, by decide, by decide, ?_⟩
  intro name value h
  rcases h with h | ⟨s, rfl, hs⟩
  · cases value with
    | str s => exact absurd rfl (h s)
    | _ => rfl
  · simp only [BPy_IDGroup_SetName, PyUnicode_AsStringAndSize, MAX_IDPROP_NAME]
    rw [if_pos (by simpa using hs)]

/-- C25, evaluated on a buffer of half-precision floats (format "e", item size 2):
`idp_from_PySequence` takes the buffer path, `idp_array_type_from_formatstr_and_size`
returns -1, and `idp_from_PySequence_Buffer` takes the branch marked "should never
happen" and returns null. -/
theorem half_float_buffer_has_no_array_type :
    use_buffer half_floats = true ∧
    idp_array_type_from_formatstr_and_size half_floats.format half_floats.itemsize = none ∧
    idp_from_PySequence_Buffer "v" half_floats = none ∧
    (∀ fast, idp_from_PySequence "v" (some half_floats) fast = none) := by
  refine ⟨by decide, by decide, ?_, ?_⟩
  · rfl
  · intro fast; rfl

theorem sequence_from_double (i : Nat) (l : List ItemType) :
    idp_sequence_type_from (i + 1) IDPType.IDP_DOUBLE l =
      if l.all (fun it => PyFloat_Check it || PyLong_Check it) then some IDPType.IDP_DOUBLE
      else none := by
  induction l generalizing i with
  | nil => rfl
  | cons it rest ih =>
    cases it <;> simp [idp_sequence_type_from, PyFloat_Check, PyLong_Check, PyMapping_Check, ih]

theorem sequence_from_idparray (i : Nat) (l : List ItemType) :
    idp_sequence_type_from i IDPType.IDP_IDPARRAY l =
      if l.all (fun it => !PyFloat_Check it && !PyLong_Check it && PyMapping_Check it) then
        some IDPType.IDP_IDPARRAY
      else none := by
  induction l generalizing i with
  | nil => rfl
  | cons it rest ih =>
    cases it <;> simp [idp_sequence_type_from, PyFloat_Check, PyLong_Check, PyMapping_Check, ih]

theorem sequence_from_int (i : Nat) (l : List ItemType) :
    idp_sequence_type_from (i + 1) IDPType.IDP_INT l =
      if l.all PyLong_Check then some IDPType.IDP_INT
      else if l.all (fun it => PyFloat_Check it || PyLong_Check it) then
        some IDPType.IDP_DOUBLE
      else none := by
  induction l generalizing i with
  | nil => rfl
  | cons it rest ih =>
    cases it <;>
      simp [idp_sequence_type_from, PyFloat_Check, PyLong_Check, PyMapping_Check, ih,
        sequence_from_double]

theorem idp_sequence_type_eq (l : List ItemType) :
    idp_sequence_type l =
      if l.all PyLong_Check then some IDPType.IDP_INT
      else if l.all (fun it => PyFloat_Check it || PyLong_Check it) then
        some IDPType.IDP_DOUBLE
      else if l.all (fun it => !PyFloat_Check it && !PyLong_Check it && PyMapping_Check it)
        then some IDPType.IDP_IDPARRAY
      else none := by
  cases l with
  | nil => rfl
  | cons it rest =>
    cases it <;>
      simp [idp_sequence_type, idp_sequence_type_from, PyFloat_Check, PyLong_Check,
        PyMapping_Check, sequence_from_int, sequence_from_double, sequence_from_idparray]

/-- C30. `idp_sequence_type`, for every sequence: the result is IDP_INT iff every item is an
int (also for the empty sequence), IDP_DOUBLE iff every item is an int or a float and at
least one is a float, IDP_IDPARRAY iff the sequence is non-empty and every item is a
mapping that is neither int nor float, and -1 iff none of the three holds; there is no
other result. -/
theorem idp_sequence_type_classifies (seq_fast : List ItemType) :
    (idp_sequence_type seq_fast = some IDPType.IDP_INT ↔
      ∀ it ∈ seq_fast, PyLong_Check it = true) ∧
    (idp_sequence_type seq_fast = some IDPType.IDP_DOUBLE ↔
      (∀ it ∈ seq_fast, PyLong_Check it = true ∨ PyFloat_Check it = true) ∧
      ∃ it ∈ seq_fast, PyFloat_Check it = true) ∧
    (idp_sequence_type seq_fast = some IDPType.IDP_IDPARRAY ↔
      seq_fast ≠ [] ∧
      ∀ it ∈ seq_fast, PyMapping_Check it = true ∧ PyLong_Check it = false ∧
        PyFloat_Check it = false) ∧
    (idp_sequence_type seq_fast = none ↔
      ¬ (∀ it ∈ seq_fast, PyLong_Check it = true) ∧
      ¬ ((∀ it ∈ seq_fast, PyLong_Check it = true ∨ PyFloat_Check it = true) ∧
        ∃ it ∈ seq_fast, PyFloat_Check it = true) ∧
      ¬ (seq_fast ≠ [] ∧
        ∀ it ∈ seq_fast, PyMapping_Check it = true ∧ PyLong_Check it = false ∧
          PyFloat_Check it = false)) ∧
    (idp_sequence_type seq_fast = some IDPType.IDP_INT ∨
      idp_sequence_type seq_fast = some IDPType.IDP_DOUBLE ∨
      idp_sequence_type seq_fast = some IDPType.IDP_IDPARRAY ∨
      idp_sequence_type seq_fast = none) := by
  have hexcl : ∀ it : ItemType, PyFloat_Check it = true → PyLong_Check it = false := by
    intro it h
    cases it <;> simp_all [PyFloat_Check, PyLong_Check]
  have hI : (seq_fast.all PyLong_Check = true) ↔ ∀ it ∈ seq_fast, PyLong_Check it = true := by
    simp [List.all_eq_true]
  have hD : (seq_fast.all (fun it => PyFloat_Check it || PyLong_Check it) = true) ↔
      ∀ it ∈ seq_fast, PyLong_Check it = true ∨ PyFloat_Check it = true := by
    simp only [List.all_eq_true, Bool.or_eq_true]
    exact ⟨fun h it hit => (h it hit).symm, fun h it hit => (h it hit).symm⟩
  have hA : (seq_fast.all
      (fun it => !PyFloat_Check it && !PyLong_Check it && PyMapping_Check it) = true) ↔
      ∀ it ∈ seq_fast, PyMapping_Check it = true ∧ PyLong_Check it = false ∧
        PyFloat_Check it = false := by
    simp only [List.all_eq_true, Bool.and_eq_true, Bool.not_eq_true']
    exact ⟨fun h it hit => ⟨(h it hit).2, (h it hit).1.2, (h it hit).1.1⟩,
      fun h it hit => ⟨⟨(h it hit).2.2, (h it hit).2.1⟩, (h it hit).1⟩⟩
  have hDf : (¬ (∀ it ∈ seq_fast, PyLong_Check it = true) ∧
      ∀ it ∈ seq_fast, PyLong_Check it = true ∨ PyFloat_Check it = true) ↔
      ((∀ it ∈ seq_fast, PyLong_Check it = true ∨ PyFloat_Check it = true) ∧
        ∃ it ∈ seq_fast, PyFloat_Check it = true) := by
    constructor
    · rintro ⟨h1, h2⟩
      refine ⟨h2, ?_⟩
      by_contra hne
      apply h1
      intro it hit
      rcases h2 it hit with h | h
      · exact h
      · exact absurd ⟨it, hit, h⟩ hne
    · rintro ⟨h2, it, hit, hf⟩
      refine ⟨fun h1 => ?_, h2⟩
      have := hexcl it hf
      rw [h1 it hit] at this
      cases this
  have hAf : (¬ (∀ it ∈ seq_fast, PyLong_Check it = true) ∧
      ¬ (∀ it ∈ seq_fast, PyLong_Check it = true ∨ PyFloat_Check it = true) ∧
      ∀ it ∈ seq_fast, PyMapping_Check it = true ∧ PyLong_Check it = false ∧
        PyFloat_Check it = false) ↔
      (seq_fast ≠ [] ∧
        ∀ it ∈ seq_fast, PyMapping_Check it = true ∧ PyLong_Check it = false ∧
          PyFloat_Check it = false) := by
    constructor
    · rintro ⟨h1, _, h3⟩
      refine ⟨fun he => h1 ?_, h3⟩
      subst he
      simp
    · rintro ⟨hne, h3⟩
      obtain ⟨it, rest, rfl⟩ := List.exists_cons_of_ne_nil hne
      have hit := h3 it (List.mem_cons_self _ _)
      refine ⟨fun h1 => ?_, fun h2 => ?_, h3⟩
      · have := h1 it (List.mem_cons_self _ _)
        rw [hit.2.1] at this
        cases this
      · rcases h2 it (List.mem_cons_self _ _) with h | h
        · rw [hit.2.1] at h
          cases h
        · rw [hit.2.2] at h
          cases h
  rw [idp_sequence_type_eq]
  by_cases c1 : seq_fast.all PyLong_Check = true
  · have p1 := hI.mp c1
    have nD : ¬ ((∀ it ∈ seq_fast, PyLong_Check it = true ∨ PyFloat_Check it = true) ∧
        ∃ it ∈ seq_fast, PyFloat_Check it = true) := fun h => (hDf.mpr h).1 p1
    have nA : ¬ (seq_fast ≠ [] ∧
        ∀ it ∈ seq_fast, PyMapping_Check it = true ∧ PyLong_Check it = false ∧
          PyFloat_Check it = false) := fun h => (hAf.mpr h).1 p1
    rw [if_pos c1]
    exact ⟨⟨fun _ => p1, fun _ => rfl⟩, ⟨fun h => (by cases h), fun h => absurd h nD⟩,
      ⟨fun h => (by cases h), fun h => absurd h nA⟩,
      ⟨fun h => (by cases h), fun h => absurd p1 h.1⟩, Or.inl rfl⟩
  · have n1 : ¬ (∀ it ∈ seq_fast, PyLong_Check it = true) := fun h => c1 (hI.mpr h)
    rw [if_neg c1]
    by_cases c2 : seq_fast.all (fun it => PyFloat_Check it || PyLong_Check it) = true
    · have p2 := hDf.mp ⟨n1, hD.mp c2⟩
      have nA : ¬ (seq_fast ≠ [] ∧
          ∀ it ∈ seq_fast, PyMapping_Check it = true ∧ PyLong_Check it = false ∧
            PyFloat_Check it = false) := fun h => (hAf.mpr h).2.1 p2.1
      rw [if_pos c2]
      exact ⟨⟨fun h => (by cases h), fun h => absurd h n1⟩, ⟨fun _ => p2, fun _ => rfl⟩,
        ⟨fun h => (by cases h), fun h => absurd h nA⟩,
        ⟨fun h => (by cases h), fun h => absurd p2 h.2.1⟩, Or.inr (Or.inl rfl)⟩
    · have n2 : ¬ (∀ it ∈ seq_fast, PyLong_Check it = true ∨ PyFloat_Check it = true) :=
        fun h => c2 (hD.mpr h)
      have nD : ¬ ((∀ it ∈ seq_fast, PyLong_Check it = true ∨ PyFloat_Check it = true) ∧
          ∃ it ∈ seq_fast, PyFloat_Check it = true) := fun h => n2 h.1
      rw [if_neg c2]
      by_cases c3 : seq_fast.all
          (fun it => !PyFloat_Check it && !PyLong_Check it && PyMapping_Check it) = true
      · have p3 := hAf.mp ⟨n1, n2, hA.mp c3⟩
        rw [if_pos c3]
        exact ⟨⟨fun h => (by cases h), fun h => absurd h n1⟩,
          ⟨fun h => (by cases h), fun h => absurd h nD⟩, ⟨fun _ => p3, fun _ => rfl⟩,
          ⟨fun h => (by cases h), fun h => absurd p3 h.2.2⟩, Or.inr (Or.inr (Or.inl rfl))⟩
      · have nA : ¬ (seq_fast ≠ [] ∧
            ∀ it ∈ seq_fast, PyMapping_Check it = true ∧ PyLong_Check it = false ∧
              PyFloat_Check it = false) := fun h => c3 (hA.mpr (hAf.mpr h).2.2)
        rw [if_neg c3]
        exact ⟨⟨fun h => (by cases h), fun h => absurd h n1⟩,
          ⟨fun h => (by cases h), fun h => absurd h nD⟩,
          ⟨fun h => (by cases h), fun h => absurd h nA⟩,
          ⟨fun _ => ⟨n1, nD, nA⟩, fun _ => rfl⟩, Or.inr (Or.inr (Or.inr rfl))⟩

theorem idp_sequence_type_examples :
    idp_sequence_type [] = some IDPType.IDP_INT ∧
    idp_sequence_type [ItemType.long false, ItemType.float false] = some IDPType.IDP_DOUBLE ∧
    idp_sequence_type [ItemType.mapping, ItemType.mapping] = some IDPType.IDP_IDPARRAY ∧
    idp_sequence_type [ItemType.mapping, ItemType.long false] = none ∧
    idp_sequence_type [ItemType.long false, ItemType.mapping] = none ∧
    idp_sequence_type [ItemType.other] = none := by
  decide

end IDProp

namespace Sequencer

/-! ## C26, C27: transform data count and overlap handling -/

theorem land_low (f m : Nat) (hm : m < 8) : f &&& m = (f % 8) &&& m := by
  have h7 : 7 &&& m = m := by interval_cases m <;> decide
  have h : f % 8 = f &&& 7 := (Nat.and_pow_two_sub_one_eq_mod f 3).symm
  rw [h, Nat.and_assoc, h7]

theorem land_mod8 (a b : Nat) : (a &&& b) % 8 = (a % 8) &&& (b % 8) := by
  have h : ∀ x : Nat, x % 8 = x &&& 7 := fun x => (Nat.and_pow_two_sub_one_eq_mod x 3).symm
  rw [h, h, h]
  apply Nat.eq_of_testBit_eq
  intro i
  simp only [Nat.testBit_and]
  cases a.testBit i <;> cases b.testBit i <;> cases (7 : Nat).testBit i <;> rfl

theorem lor_mod8 (a b : Nat) : (a ||| b) % 8 = (a % 8) ||| (b % 8) := by
  have h : ∀ x : Nat, x % 8 = x &&& 7 := fun x => (Nat.and_pow_two_sub_one_eq_mod x 3).symm
  rw [h, h, h]
  apply Nat.eq_of_testBit_eq
  intro i
  simp only [Nat.testBit_and, Nat.testBit_or]
  cases a.testBit i <;> cases b.testBit i <;> cases (7 : Nat).testBit i <;> rfl

theorem extend_flag_mod8 (f : Nat) :
    ((f ||| SELECT) &&& bit_not (SEQ_LEFTSEL ||| SEQ_RIGHTSEL)) % 8 = 1 := by
  rw [land_mod8, lor_mod8]
  have h : f % 8 < 8 := Nat.mod_lt _ (by norm_num)
  generalize f % 8 = x at h
  interval_cases x <;> decide

theorem build_strip_length (pos : Nat) (seq : Sequence) (flag : Nat) :
    (build_strip pos seq flag).length =
      if (flag % 8) &&& 1 = 0 then 0
      else if (flag % 8) &&& 6 = 6 then 2
      else 1 := by
  unfold build_strip
  rw [land_low flag SELECT (by decide), land_low flag (SEQ_LEFTSEL ||| SEQ_RIGHTSEL) (by decide),
    land_low flag SEQ_LEFTSEL (by decide), land_low flag SEQ_RIGHTSEL (by decide)]
  have h : flag % 8 < 8 := Nat.mod_lt _ (by norm_num)
  generalize flag % 8 = x at h
  interval_cases x <;> simp +decide [SELECT, SEQ_LEFTSEL, SEQ_RIGHTSEL]

theorem strip_count_zero : (if (0 % 8) &&& 1 = 0 then (0 : Nat) else
    if (0 % 8) &&& 6 = 6 then 2 else 1) = 0 := by decide

theorem SeqTransInfo_count (t : TransInfo) (seq : Sequence) :
    (SeqTransInfo t seq).2.1 =
      if ((SeqTransInfo t seq).2.2 % 8) &&& 1 = 0 then 0
      else if ((SeqTransInfo t seq).2.2 % 8) &&& 6 = 6 then 2
      else 1 := by
  have e1 := extend_flag_mod8 seq.flag
  have e2 : ((seq.flag ||| SELECT) &&& bit_not (SEQ_LEFTSEL ||| SEQ_RIGHTSEL) |||
      SEQ_RIGHTSEL) % 8 = 5 := by
    rw [lor_mod8, e1]; decide
  have e3 : ((seq.flag ||| SELECT) &&& bit_not (SEQ_LEFTSEL ||| SEQ_RIGHTSEL) |||
      SEQ_LEFTSEL) % 8 = 3 := by
    rw [lor_mod8, e1]; decide
  have n1 := land_low seq.flag SELECT (by decide)
  have n2 := land_low seq.flag (SEQ_LEFTSEL ||| SEQ_RIGHTSEL) (by decide)
  unfold SeqTransInfo
  by_cases hm : t.mode = TransMode.TFM_TIME_EXTEND
  · simp only [hm, ↓reduceIte]
    split
    · exact strip_count_zero.symm
    · split
      · split
        · exact strip_count_zero.symm
        · split
          · simp only [e1]; decide
          · simp only [e2]; decide
      · split
        · exact strip_count_zero.symm
        · split
          · simp only [e1]; decide
          · simp only [e3]; decide
  · simp only [hm, ↓reduceIte]
    split
    · exact strip_count_zero.symm
    · rename_i hsel
      have hs : (seq.flag % 8) &&& 1 ≠ 0 := by
        intro h0
        apply hsel
        left
        rw [n1]
        exact h0
      split
      · rename_i hboth
        rw [n2] at hboth
        have h6 : (seq.flag % 8) &&& 6 = 6 := hboth
        simp only [if_neg hs, if_pos h6]
      · rename_i hboth
        rw [n2] at hboth
        have h6 : ¬ (seq.flag % 8) &&& 6 = 6 := hboth
        simp only [if_neg hs, if_neg h6]

theorem SeqTransInfo_count_le (t : TransInfo) (seq : Sequence) :
    (SeqTransInfo t seq).2.1 ≤ 2 := by
  rw [SeqTransInfo_count]
  split
  · omega
  · split <;> omega

theorem SeqTransInfo_build_strip (t : TransInfo) (seq : Sequence) (pos : Nat) :
    (build_strip pos seq (SeqTransInfo t seq).2.2).length = (SeqTransInfo t seq).2.1 := by
  rw [build_strip_length, ← SeqTransInfo_count]

theorem same_view_refl (t : TransInfo) : same_view t t := ⟨rfl, rfl, fun _ => rfl⟩

theorem SeqTransInfo_same_view (t u : TransInfo) (seq : Sequence) (h : same_view t u) :
    (SeqTransInfo t seq).2 = (SeqTransInfo u seq).2 ∧
    same_view (SeqTransInfo t seq).1 (SeqTransInfo u seq).1 ∧
    same_view t (SeqTransInfo t seq).1 := by
  obtain ⟨h1, h2, h3⟩ := h
  unfold SeqTransInfo
  by_cases hm : t.mode = TransMode.TFM_TIME_EXTEND
  · have hu : u.mode = TransMode.TFM_TIME_EXTEND := h1 ▸ hm
    have hf := h3 hm
    simp only [hm, hu, ↓reduceIte, ← h2, ← hf]
    refine ⟨?_, ?_, ?_⟩
    · repeat' split
      all_goals rfl
    · have : same_view t u := ⟨h1, h2, h3⟩
      repeat' split
      all_goals exact this
    · repeat' split
      all_goals exact same_view_refl t
  · have hu : ¬ u.mode = TransMode.TFM_TIME_EXTEND := h1 ▸ hm
    simp only [hm, hu, ↓reduceIte]
    refine ⟨?_, ?_, ?_⟩
    · repeat' split
      all_goals rfl
    · repeat' split
      all_goals exact ⟨h1, h2, fun h => absurd h hm⟩
    · repeat' split
      all_goals exact ⟨rfl, rfl, fun h => absurd h hm⟩

theorem same_view_trans (t u v : TransInfo) (h1 : same_view t u) (h2 : same_view u v) :
    same_view t v :=
  ⟨h1.1.trans h2.1, h1.2.1.trans h2.2.1, fun h => (h1.2.2 h).trans (h2.2.2 (h1.1 ▸ h))⟩

theorem SeqTransCount_same_view (l : List Sequence) (t : TransInfo) :
    same_view t (SeqTransCount t l).1 := by
  induction l generalizing t with
  | nil => exact same_view_refl t
  | cons seq rest ih =>
    simp only [SeqTransCount]
    exact same_view_trans _ _ _ (SeqTransInfo_same_view t t seq (same_view_refl t)).2.2
      (ih _)

theorem SeqToTransData_build_count (l : List Sequence) (t u : TransInfo) (pos : Nat)
    (h : same_view t u) :
    (SeqToTransData_build u pos l).2.1.length = (SeqTransCount t l).2 ∧
    (SeqToTransData_build u pos l).2.2 = (SeqTransCount t l).2 := by
  induction l generalizing t u pos with
  | nil => exact ⟨rfl, rfl⟩
  | cons seq rest ih =>
    obtain ⟨k1, k2, _⟩ := SeqTransInfo_same_view t u seq h
    obtain ⟨i1, i2⟩ := ih (SeqTransInfo t seq).1 (SeqTransInfo u seq).1 (pos + 1) k2
    have hb := SeqTransInfo_build_strip u seq pos
    have hc : (SeqTransInfo u seq).2.1 = (SeqTransInfo t seq).2.1 := by rw [k1]
    simp only [SeqToTransData_build, SeqTransCount, List.length_append]
    rw [i1, i2, hb, hc]
    exact ⟨rfl, rfl⟩

/-- C26. For every strip list, transform info (mode, frame side, current frame): the
elements `SeqToTransData_build` writes, run after `SeqTransCount` as in
`createTransSeqData` or on the same transform info, are exactly as many as the total of
`SeqTransCount`, and the build returns that total; so the arrays of `createTransSeqData`,
allocated with `data_len` equal to the count, are filled exactly.  For every strip the
count of `SeqTransInfo` is at most 2 and equals the number of elements the build writes
for the flag `SeqTransInfo` returns. -/
theorem SeqTransCount_matches_build (t : TransInfo) (seqbase : List Sequence) :
    (SeqToTransData_build (SeqTransCount t seqbase).1 0 seqbase).2.1.length =
      (SeqTransCount t seqbase).2 ∧
    (SeqToTransData_build (SeqTransCount t seqbase).1 0 seqbase).2.2 =
      (SeqTransCount t seqbase).2 ∧
    (SeqToTransData_build t 0 seqbase).2.1.length = (SeqTransCount t seqbase).2 ∧
    (createTransSeqData t seqbase).2.1 = (SeqTransCount t seqbase).2 ∧
    (createTransSeqData t seqbase).2.2.length = (createTransSeqData t seqbase).2.1 ∧
    (∀ (u : TransInfo) (seq : Sequence) (pos : Nat),
      (SeqTransInfo u seq).2.1 ≤ 2 ∧
      (build_strip pos seq (SeqTransInfo u seq).2.2).length = (SeqTransInfo u seq).2.1) := by
  obtain ⟨a1, a2⟩ := SeqToTransData_build_count seqbase t (SeqTransCount t seqbase).1 0
    (SeqTransCount_same_view seqbase t)
  obtain ⟨b1, _⟩ := SeqToTransData_build_count seqbase t t 0 (same_view_refl t)
  refine ⟨a1, a2, b1, ?_, ?_, fun u seq pos =>
    ⟨SeqTransInfo_count_le u seq, SeqTransInfo_build_strip u seq pos⟩⟩
  · unfold createTransSeqData
    simp only
    split <;> rfl
  · unfold createTransSeqData
    simp only
    split
    · rename_i h
      simp [h]
    · exact a1

/-- C27. For a transformed strip and a target strip whose display ranges intersect
(transformed.startdisp ≤ target.enddisp and target.startdisp ≤ transformed.enddisp; the
ranges need not even be well ordered), `is_full_overlap`, `is_inside_overlap` or
`is_partial_overlap` holds, so on the same channel `seq_transform_handle_overwrite`
removes, splits or trims the target; `is_full_overlap` and `is_inside_overlap` never hold
together. -/
theorem overlapping_pair_is_handled (transformed target : Sequence)
    (h1 : transformed.startdisp ≤ target.enddisp)
    (h2 : target.startdisp ≤ transformed.enddisp) :
    (is_full_overlap transformed target = true ∨ is_inside_overlap transformed target = true ∨
      (is_partial_overlap transformed target).isSome = true) ∧
    ¬ (is_full_overlap transformed target = true ∧
      is_inside_overlap transformed target = true) ∧
    (is_same_channel transformed target = true →
      seq_transform_handle_overwrite transformed target = Overwrite.removed ∨
      seq_transform_handle_overwrite transformed target = Overwrite.split ∨
      ∃ side, seq_transform_handle_overwrite transformed target = Overwrite.trimmed side) := by
  have hcover : is_full_overlap transformed target = true ∨
      is_inside_overlap transformed target = true ∨
      (is_partial_overlap transformed target).isSome = true := by
    unfold is_full_overlap is_inside_overlap is_partial_overlap
    by_cases c1 : transformed.startdisp ≤ target.startdisp
    · right; right
      rw [if_pos ⟨c1, h2⟩]
      rfl
    · by_cases c2 : target.enddisp ≤ transformed.enddisp
      · right; right
        rw [if_neg (fun h => c1 h.1), if_pos ⟨h1, c2⟩]
        rfl
      · right; left
        simp only [decide_eq_true_eq]
        omega
  refine ⟨hcover, ?_, ?_⟩
  · unfold is_full_overlap is_inside_overlap
    simp only [decide_eq_true_eq]
    omega
  · intro hch
    unfold seq_transform_handle_overwrite
    simp only [hch, Bool.not_true, Bool.false_eq_true, ↓reduceIte]
    by_cases f : is_full_overlap transformed target = true
    · simp [f]
    · by_cases g : is_inside_overlap transformed target = true
      · simp [f, g]
      · rcases hcover with h | h | h
        · exact absurd h f
        · exact absurd h g
        · simp only [f, g, Bool.false_eq_true, ↓reduceIte]
          cases hp : is_partial_overlap transformed target with
          | none => simp [hp] at h
          | some side => exact Or.inr (Or.inr ⟨side, rfl⟩)

/-- Witness for C27: the transformed strip 10..20 over the target 15..30 on one channel
overlaps it partly from the left, and the target is trimmed. -/
theorem overlapping_pair_is_handled_witness :
    strip_10_20.startdisp ≤ strip_15_30.enddisp ∧
    strip_15_30.startdisp ≤ strip_10_20.enddisp ∧
    is_full_overlap strip_10_20 strip_15_30 = false ∧
    is_inside_overlap strip_10_20 strip_15_30 = false ∧
    seq_transform_handle_overwrite strip_10_20 strip_15_30 =
      Overwrite.trimmed ePartialOvelapSide.LEFT_SIDE_OVERLAP := by
  have h := overlapping_pair_is_handled strip_10_20 strip_15_30 (by decide) (by decide)
  refine ⟨by decide, by decide, by decide, by decide, ?_⟩
  rcases h.2.2 (by decide) with h | h | ⟨side, h⟩
  · exact absurd h (by decide)
  · exact absurd h (by decide)
  · decide

theorem createTransSeqData_example :
    (createTransSeqData normal_transform three_strips).2.1 = 3 ∧
    ((createTransSeqData normal_transform three_strips).2.2.map
      (fun d => (d.seq, d.sel_flag))) = [(0, 2), (0, 4), (2, 1)] ∧
    (createTransSeqData extend_right three_strips).2.1 = 2 ∧
    ((createTransSeqData extend_right three_strips).2.2.map
      (fun d => (d.seq, d.sel_flag))) = [(0, 4), (2, 1)] := by
  decide

end Sequencer

namespace Asset

/-! ## C29: ensuring a tag -/

/-- C29 fails for a name of 64 bytes: on an asset without tags the first call stores the
first 63 bytes; the second call with the same name finds no tag of that name, reports a
new tag again and appends a second tag with the same stored name. -/
theorem tag_ensure_long_name_twice :
    (BKE_assetdata_tag_ensure {} long_name).1 = { tag := some 0, is_new := true } ∧
    (BKE_assetdata_tag_ensure (BKE_assetdata_tag_ensure {} long_name).2 long_name).1 =
      { tag := some 1, is_new := true } ∧
    (BKE_assetdata_tag_ensure (BKE_assetdata_tag_ensure {} long_name).2 long_name).2.tags =
      [{ name := List.replicate 63 97 }, { name := List.replicate 63 97 }] := by
  decide

theorem BLI_findstring_none (tags : List CustomTag) (name : List Nat) :
    BLI_findstring tags name = none ↔ ∀ t ∈ tags, t.name ≠ name := by
  simp [BLI_findstring]

theorem BLI_findstring_some (tags : List CustomTag) (name : List Nat) (i : Nat)
    (h : BLI_findstring tags name = some i) :
    (tags.get? i).map CustomTag.name = some name := by
  have := List.findIdx?_of_eq_some h
  cases hg : tags[i]? with
  | none => simp [hg] at this
  | some a =>
    simp only [hg, beq_iff_eq] at this
    simp [List.get?_eq_getElem?, hg, this]

theorem BLI_findstring_addtail (tags : List CustomTag) (name : List Nat)
    (h : BLI_findstring tags name = none) :
    BLI_findstring (BLI_addtail tags { name := name }) name = some tags.length := by
  unfold BLI_findstring at h
  simp [BLI_findstring, BLI_addtail, List.findIdx?_append, h, List.findIdx?_cons]

theorem BLI_strncpy_short (name : List Nat) (h : name.length ≤ 63) :
    BLI_strncpy name MAX_NAME = name := by
  simp only [BLI_strncpy, MAX_NAME]
  exact List.take_of_length_le h

theorem tag_ensure_found (asset_data : AssetData) (name : List Nat) (i : Nat)
    (h0 : name ≠ []) (h : BLI_findstring asset_data.tags name = some i) :
    BKE_assetdata_tag_ensure asset_data name =
      ({ tag := some i, is_new := false }, asset_data) := by
  simp [BKE_assetdata_tag_ensure, h0, h]

theorem tag_ensure_added (asset_data : AssetData) (name : List Nat)
    (h0 : name ≠ []) (h : BLI_findstring asset_data.tags name = none) :
    BKE_assetdata_tag_ensure asset_data name =
      ({ tag := some asset_data.tags.length, is_new := true },
        { asset_data with
          tags := BLI_addtail asset_data.tags { name := BLI_strncpy name MAX_NAME } }) := by
  simp [BKE_assetdata_tag_ensure, h0, h]

/-- C29, amended. For every asset data and every non-empty name of at most 63 bytes: after
`BKE_assetdata_tag_ensure`, a second call with the same name returns the same tag with
`is_new` false and leaves the tag list unchanged; the tag returned bears that name; the
first call returns `is_new` true exactly when no tag of that name existed, and then it
appends one tag of that name at the tail, otherwise it changes nothing; a list without
two tags of the same name stays so.  An empty name returns a null tag and leaves the list
unchanged. -/
theorem tag_ensure_short_name (asset_data : AssetData) (name : List Nat)
    (h0 : name ≠ []) (hlen : name.length ≤ 63) :
    BKE_assetdata_tag_ensure (BKE_assetdata_tag_ensure asset_data name).2 name =
      ({ tag := (BKE_assetdata_tag_ensure asset_data name).1.tag, is_new := false },
        (BKE_assetdata_tag_ensure asset_data name).2) ∧
    (∃ i, (BKE_assetdata_tag_ensure asset_data name).1.tag = some i ∧
      ((BKE_assetdata_tag_ensure asset_data name).2.tags.get? i).map CustomTag.name =
        some name) ∧
    ((BKE_assetdata_tag_ensure asset_data name).1.is_new = true ↔
      ∀ t ∈ asset_data.tags, t.name ≠ name) ∧
    ((BKE_assetdata_tag_ensure asset_data name).1.is_new = true →
      (BKE_assetdata_tag_ensure asset_data name).2.tags =
        asset_data.tags ++ [{ name := name }] ∧
      (BKE_assetdata_tag_ensure asset_data name).1.tag = some asset_data.tags.length) ∧
    ((BKE_assetdata_tag_ensure asset_data name).1.is_new = false →
      (BKE_assetdata_tag_ensure asset_data name).2 = asset_data) ∧
    ((asset_data.tags.map CustomTag.name).Nodup →
      ((BKE_assetdata_tag_ensure asset_data name).2.tags.map CustomTag.name).Nodup) ∧
    BKE_assetdata_tag_ensure asset_data [] = ({ tag := none, is_new := false }, asset_data) := by
  have hcopy := BLI_strncpy_short name hlen
  cases hf : BLI_findstring asset_data.tags name with
  | some i =>
    have hex : ¬ ∀ t ∈ asset_data.tags, t.name ≠ name := by
      intro hall
      rw [(BLI_findstring_none _ _).mpr hall] at hf
      cases hf
    rw [tag_ensure_found asset_data name i h0 hf]
    refine ⟨tag_ensure_found asset_data name i h0 hf,
      ⟨i, rfl, BLI_findstring_some _ _ _ hf⟩, ?_, ?_, ?_, ?_, rfl⟩
    · simp only [Bool.false_eq_true, false_iff]
      exact hex
    · intro h; cases h
    · intro _; rfl
    · exact fun h => h
  | none =>
    have hall := (BLI_findstring_none _ _).mp hf
    rw [tag_ensure_added asset_data name h0 hf, hcopy]
    have hfound := BLI_findstring_addtail asset_data.tags name hf
    refine ⟨tag_ensure_found _ name _ h0 hfound,
      ⟨asset_data.tags.length, rfl, BLI_findstring_some _ _ _ hfound⟩, ?_, ?_, ?_, ?_, rfl⟩
    · simp only [true_iff]
      exact hall
    · intro _
      exact ⟨rfl, rfl⟩
    · intro h; cases h
    · intro hnd
      simp only [BLI_addtail, List.map_append, List.map_cons, List.map_nil]
      rw [List.nodup_append]
      refine ⟨hnd, List.nodup_singleton _, ?_⟩
      intro x hx hy
      simp only [List.mem_singleton] at hy
      subst hy
      obtain ⟨t, ht, rfl⟩ := List.mem_map.mp hx
      exact hall t ht rfl

/-- Witness for C29 as amended: "ab" is added to an asset tagged "cd" and found by the
second call. -/
theorem tag_ensure_short_name_witness :
    name_ab ≠ [] ∧ name_ab.length ≤ 63 ∧
    (BKE_assetdata_tag_ensure asset_cd name_ab).1 = { tag := some 1, is_new := true } ∧
    BKE_assetdata_tag_ensure (BKE_assetdata_tag_ensure asset_cd name_ab).2 name_ab =
      ({ tag := some 1, is_new := false }, (BKE_assetdata_tag_ensure asset_cd name_ab).2) := by
  have h := tag_ensure_short_name asset_cd name_ab (by decide) (by decide)
  exact ⟨by decide, by decide, by decide, h.1⟩

end Asset
